import Mathlib

/-!
# Ray cloud transient detection and merging (raylib/raycloud.cpp, raylib/include/rayutils.h)

A shallow embedding of the grid traversal, the ray/ellipsoid decision engine and the
merge operations of the ray cloud library, followed by theorems about them.

Modelling conventions.

* A finite C++ double is an exact rational number; rounding is not modelled. Coordinates,
  time stamps, the grid origin and the voxel width of the inputs are finite.
* The quotients that the sources form with a divisor that can be zero (the parametric
  distances of fillGrid, the opacity, sequence_length, the quotients of the ray/ellipsoid
  test) are values of Dbl, which adds NaN and the two infinities with the IEEE rules; a zero
  divisor is the positive zero, as a difference x - x and a sum of counts are. Divisions by
  the voxel width and by a neighbour count of at least 4 are rational divisions.
* A C++ int is an unbounded integer; conversions that would overflow are not modelled.
* A std::vector is a list. A read at an index inside the loop bound of the source is
  written with getD; clouds are expected to carry four arrays of the same length
  (Cloud.WF), and then every such read is in range. The read of times[0] in threeWayMerge,
  which a well-formed empty cloud cannot serve, makes the result none.
* Console output and debug drawing are left out.
* Code of external libraries (libm, libnabo, Eigen) and of headers that are not among the
  sources (raygrid.h, rayellipsoid.h, raycloud.h) enters through the record Libs or is
  modelled from the specification, as the comments say.
-/

namespace ray

/-! ## Numbers -/

/-- Value of a double that may be non-finite: NaN, minus infinity, a finite value, plus infinity. -/
inductive Dbl where
  | nan : Dbl
  | ninf : Dbl
  | fin (q : ℚ) : Dbl
  | pinf : Dbl
  deriving DecidableEq

namespace Dbl

/-- Unary minus on doubles. -/
def neg : Dbl → Dbl
  | nan => nan
  | ninf => pinf
  | fin q => fin (-q)
  | pinf => ninf

/-- Sum of two doubles (IEEE rules for the non-finite values). -/
def add : Dbl → Dbl → Dbl
  | fin a, fin b => fin (a + b)
  | nan, _ => nan
  | _, nan => nan
  | pinf, ninf => nan
  | ninf, pinf => nan
  | pinf, _ => pinf
  | _, pinf => pinf
  | ninf, _ => ninf
  | _, ninf => ninf

/-- Difference of two doubles. -/
def sub (a b : Dbl) : Dbl := add a (neg b)

/-- Product of two doubles (IEEE rules for the non-finite values). -/
def mul : Dbl → Dbl → Dbl
  | fin a, fin b => fin (a * b)
  | nan, _ => nan
  | _, nan => nan
  | pinf, fin b => if b = 0 then nan else if 0 < b then pinf else ninf
  | ninf, fin b => if b = 0 then nan else if 0 < b then ninf else pinf
  | fin a, pinf => if a = 0 then nan else if 0 < a then pinf else ninf
  | fin a, ninf => if a = 0 then nan else if 0 < a then ninf else pinf
  | pinf, pinf => pinf
  | ninf, ninf => pinf
  | pinf, ninf => ninf
  | ninf, pinf => ninf

/-- Quotient of two doubles: x/0 is an infinity of the sign of x, 0/0 is NaN. -/
def div : Dbl → Dbl → Dbl
  | fin a, fin b =>
    if b = 0 then (if a = 0 then nan else if 0 < a then pinf else ninf) else fin (a / b)
  | fin _, pinf => fin 0
  | fin _, ninf => fin 0
  | pinf, fin b => if 0 ≤ b then pinf else ninf
  | ninf, fin b => if 0 ≤ b then ninf else pinf
  | _, _ => nan

/-- Comparison a < b of doubles; false as soon as one side is NaN. -/
def lt : Dbl → Dbl → Bool
  | fin a, fin b => decide (a < b)
  | ninf, fin _ => true
  | ninf, pinf => true
  | fin _, pinf => true
  | _, _ => false

/-- Comparison a <= b of doubles; false as soon as one side is NaN. -/
def le : Dbl → Dbl → Bool
  | fin a, fin b => decide (a ≤ b)
  | ninf, ninf => true
  | ninf, fin _ => true
  | ninf, pinf => true
  | fin _, pinf => true
  | pinf, pinf => true
  | _, _ => false

/-- Comparison a == b of doubles; false as soon as one side is NaN. -/
def eq : Dbl → Dbl → Bool
  | fin a, fin b => decide (a = b)
  | ninf, ninf => true
  | pinf, pinf => true
  | _, _ => false

/-- Square root of a double, given the square root of libm on finite non-negative values. -/
def sqrt (f : ℚ → ℚ) : Dbl → Dbl
  | fin q => if q < 0 then nan else fin (f q)
  | pinf => pinf
  | _ => nan

/-- Finite value of a double that is about to be used as a divisor or converted to an
integer; the sources leave the non-finite case undefined and the model takes 0 there. -/
def toRat : Dbl → ℚ
  | fin q => q
  | _ => 0

end Dbl

/-- The conversion int(x) of a finite double: truncation towards zero. -/
def castInt (q : ℚ) : ℤ := if 0 ≤ q then ⌊q⌋ else ⌈q⌉

/-- The conversion (uint8_t)x of a double; the model reduces the truncated value modulo 256
and takes 0 for a non-finite value (C++ leaves values outside 0..255 undefined). -/
def castUInt8 : Dbl → ℕ
  | Dbl.fin q => (castInt q % 256).toNat
  | _ => 0

/-- rayutils.h, sgn: 1 for a positive value, -1 otherwise (0 included). -/
def sgn (val : ℚ) : ℚ := if val > 0 then 1 else -1

/-- The constant numeric_limits<double>::max(). -/
def dblMax : ℚ := 2 ^ 1024 - 2 ^ 971

/-! ## Vectors -/

/-- Eigen::Vector3d with finite coordinates. -/
structure Vector3d where
  x : ℚ
  y : ℚ
  z : ℚ
  deriving DecidableEq

/-- Eigen::Vector3i. -/
structure Vector3i where
  x : ℤ
  y : ℤ
  z : ℤ
  deriving DecidableEq

/-- Eigen::Matrix3d, stored by rows. -/
structure Matrix3d where
  row0 : Vector3d
  row1 : Vector3d
  row2 : Vector3d
  deriving DecidableEq

/-- The quantised (start, end) key of a ray: Vector6i. -/
structure Vector6i where
  s0 : ℤ
  s1 : ℤ
  s2 : ℤ
  e0 : ℤ
  e1 : ℤ
  e2 : ℤ
  deriving DecidableEq

namespace Vector3d

/-- Vector3d::Zero(). -/
def zero : Vector3d := ⟨0, 0, 0⟩

instance : Inhabited Vector3d := ⟨zero⟩

/-- Sum of two vectors. -/
def add (a b : Vector3d) : Vector3d := ⟨a.x + b.x, a.y + b.y, a.z + b.z⟩

/-- Difference of two vectors. -/
def sub (a b : Vector3d) : Vector3d := ⟨a.x - b.x, a.y - b.y, a.z - b.z⟩

/-- Vector times scalar. -/
def smul (k : ℚ) (a : Vector3d) : Vector3d := ⟨k * a.x, k * a.y, k * a.z⟩

/-- Vector divided by a scalar. -/
def sdiv (a : Vector3d) (k : ℚ) : Vector3d := ⟨a.x / k, a.y / k, a.z / k⟩

/-- Dot product. -/
def dot (a b : Vector3d) : ℚ := a.x * b.x + a.y * b.y + a.z * b.z

/-- Squared Euclidean norm. -/
def squaredNorm (a : Vector3d) : ℚ := a.dot a

/-- rayutils.h, maxVector on Vector3d. -/
def maxVector (a b : Vector3d) : Vector3d := ⟨max a.x b.x, max a.y b.y, max a.z b.z⟩

/-- rayutils.h, minVector on Vector3d. -/
def minVector (a b : Vector3d) : Vector3d := ⟨min a.x b.x, min a.y b.y, min a.z b.z⟩

/-- The outer product a * b.transpose(). -/
def outer (a b : Vector3d) : Matrix3d := ⟨smul a.x b, smul a.y b, smul a.z b⟩

end Vector3d

namespace Vector3i

instance : Inhabited Vector3i := ⟨⟨0, 0, 0⟩⟩

/-- Difference of two integer vectors. -/
def sub (a b : Vector3i) : Vector3i := ⟨a.x - b.x, a.y - b.y, a.z - b.z⟩

/-- Squared Euclidean norm of an integer vector. -/
def squaredNorm (a : Vector3i) : ℤ := a.x * a.x + a.y * a.y + a.z * a.z

/-- rayutils.h, maxVector on Vector3i. -/
def maxVector (a b : Vector3i) : Vector3i := ⟨max a.x b.x, max a.y b.y, max a.z b.z⟩

/-- rayutils.h, minVector on Vector3i. -/
def minVector (a b : Vector3i) : Vector3i := ⟨min a.x b.x, min a.y b.y, min a.z b.z⟩

end Vector3i

namespace Matrix3d

/-- The zero matrix. -/
def zero : Matrix3d := ⟨Vector3d.zero, Vector3d.zero, Vector3d.zero⟩

instance : Inhabited Matrix3d := ⟨zero⟩

/-- Sum of two matrices. -/
def add (a b : Matrix3d) : Matrix3d := ⟨a.row0.add b.row0, a.row1.add b.row1, a.row2.add b.row2⟩

/-- Matrix divided by a scalar. -/
def sdiv (a : Matrix3d) (k : ℚ) : Matrix3d := ⟨a.row0.sdiv k, a.row1.sdiv k, a.row2.sdiv k⟩

/-- Matrix times vector. -/
def mulVec (m : Matrix3d) (v : Vector3d) : Vector3d := ⟨m.row0.dot v, m.row1.dot v, m.row2.dot v⟩

/-- Transposed matrix. -/
def transpose (m : Matrix3d) : Matrix3d :=
  ⟨⟨m.row0.x, m.row1.x, m.row2.x⟩, ⟨m.row0.y, m.row1.y, m.row2.y⟩, ⟨m.row0.z, m.row1.z, m.row2.z⟩⟩

/-- Column j of a matrix (j = 0, 1, 2). -/
def col (m : Matrix3d) (j : ℕ) : Vector3d :=
  if j = 0 then m.transpose.row0 else if j = 1 then m.transpose.row1 else m.transpose.row2

end Matrix3d

/-! ## Data model -/

/-- rayutils.h, struct RGBA: four bytes. -/
structure RGBA where
  red : ℕ
  green : ℕ
  blue : ℕ
  alpha : ℕ
  deriving DecidableEq

instance : Inhabited RGBA := ⟨⟨0, 0, 0, 0⟩⟩

/-- One ray of a cloud, read across the four arrays at one index. -/
structure Ray where
  start : Vector3d
  endPoint : Vector3d
  time : ℚ
  colour : RGBA
  deriving DecidableEq

/-- The class Cloud: four index-aligned arrays. -/
structure Cloud where
  starts : List Vector3d
  ends : List Vector3d
  times : List ℚ
  colours : List RGBA
  deriving DecidableEq

/-- Modelled from the spec: the Ellipsoid record of rayellipsoid.h, which is not among the
sources: position, inverse-scaled eigenvector frame, extents, time, opacity, the counters
num_rays and num_gone, the transient mark and the planarity. -/
structure Ellipsoid where
  pos : Vector3d
  eigen_mat : Matrix3d
  time : ℚ
  extents : Vector3d
  opacity : Dbl
  planarity : Dbl
  num_rays : ℕ
  num_gone : ℕ
  transient : Bool
  deriving DecidableEq

/-- Modelled from the spec: the Grid of raygrid.h, which is not among the sources: bounds,
voxel width, dimensions and a mapping from integer voxel coordinate to a list of ray
indices. -/
structure Grid where
  box_min : Vector3d
  box_max : Vector3d
  voxel_width : ℚ
  dims : Vector3i
  cells : Vector3i → List ℕ

/-- What the model takes from outside the sources: the square root of libm, the nearest
neighbour table of libnabo (entry i lists the neighbour indices of point i, -1 ends a
column), the eigen solver of Eigen, the dimension rule of Grid::init (raygrid.h), and
Ellipsoid::setExtents and Ellipsoid::setPlanarity (rayellipsoid.h). -/
structure Libs where
  sqrt : ℚ → ℚ
  knn : List Vector3d → ℕ → List (List ℤ)
  eigenvalues : Matrix3d → Vector3d
  eigenvectors : Matrix3d → Matrix3d
  gridDims : Vector3d → Vector3d → ℚ → Vector3i
  setExtents : Matrix3d → Vector3d → Vector3d
  setPlanarity : Vector3d → Dbl

namespace Grid

/-- Modelled from the spec: Grid::init of raygrid.h, which is not among the sources. A new
grid has the given bounds and voxel width and no ray in any cell. -/
def init (X : Libs) (box_min box_max : Vector3d) (voxel_width : Dbl) : Grid :=
  { box_min := box_min, box_max := box_max, voxel_width := voxel_width.toRat,
    dims := X.gridDims box_min box_max voxel_width.toRat, cells := fun _ => [] }

/-- Modelled from the spec: Grid::insert of raygrid.h, which is not among the sources. The
ray index is appended to the list of the voxel. -/
def insert (g : Grid) (x y z : ℤ) (i : ℕ) : Grid :=
  { g with cells := fun v => if v = ⟨x, y, z⟩ then g.cells v ++ [i] else g.cells v }

/-- Modelled from the spec: Grid::cell(x, y, z).data of raygrid.h: the list of a voxel. -/
def cell (g : Grid) (x y z : ℤ) : List ℕ := g.cells ⟨x, y, z⟩

end Grid

namespace Cloud

/-- A cloud without rays. -/
def empty : Cloud := ⟨[], [], [], []⟩

/-- The four arrays of a cloud have the same length. -/
def WF (c : Cloud) : Prop :=
  c.starts.length = c.ends.length ∧ c.times.length = c.ends.length ∧
    c.colours.length = c.ends.length

instance (c : Cloud) : Decidable c.WF := by unfold WF; infer_instance

/-- The ray read at index i of the four arrays. -/
def rayAt (c : Cloud) (i : ℕ) : Ray :=
  ⟨c.starts.getD i default, c.ends.getD i default, c.times.getD i default,
    c.colours.getD i default⟩

/-- The rays of a cloud in index order, up to the loop bound ends.size() of the sources. -/
def rays (c : Cloud) : List Ray := (List.range c.ends.length).map c.rayAt

/-- The four push_back calls that append one ray to a cloud. -/
def push (c : Cloud) (start endPoint : Vector3d) (time : ℚ) (colour : RGBA) : Cloud :=
  ⟨c.starts ++ [start], c.ends ++ [endPoint], c.times ++ [time], c.colours ++ [colour]⟩

/-- Modelled from the spec: rayBounded of raycloud.h, which is not among the sources: a ray
is bounded iff the alpha of its colour is not zero. -/
def rayBounded (c : Cloud) (i : ℕ) : Bool := decide ((c.colours.getD i default).alpha ≠ 0)

end Cloud

instance : Inhabited Ellipsoid :=
  ⟨⟨default, default, 0, default, Dbl.fin 0, Dbl.fin 0, 0, 0, false⟩⟩

/-! ## Bounds, point spacing and ellipsoid generation -/

namespace Cloud

/-- Cloud::calcMinBound: componentwise minimum over the starts and ends of the bounded rays. -/
def calcMinBound (c : Cloud) : Vector3d :=
  (List.range c.ends.length).foldl
    (fun min_v i =>
      if c.rayBounded i then
        Vector3d.minVector min_v
          (Vector3d.minVector (c.starts.getD i default) (c.ends.getD i default))
      else min_v)
    ⟨dblMax, dblMax, dblMax⟩

/-- Cloud::calcMaxBound: componentwise maximum over the starts and ends of the bounded rays. -/
def calcMaxBound (c : Cloud) : Vector3d :=
  (List.range c.ends.length).foldl
    (fun max_v i =>
      if c.rayBounded i then
        Vector3d.maxVector max_v
          (Vector3d.maxVector (c.starts.getD i default) (c.ends.getD i default))
      else max_v)
    ⟨-dblMax, -dblMax, -dblMax⟩

end Cloud

/-- The voxel of width v_width that holds a point (estimatePointSpacing, lines 552-553). -/
def spacingPlace (point : Vector3d) (v_width : ℚ) : Vector3i :=
  ⟨⌊point.x / v_width⌋, ⌊point.y / v_width⌋, ⌊point.z / v_width⌋⟩

/-- One round of the loop of estimatePointSpacing; the state is the set of occupied voxels,
num_voxels and num_points. -/
def spacingStep (cloud : Cloud) (st : List Vector3i × ℕ × ℕ) (i : ℕ) : List Vector3i × ℕ × ℕ :=
  if cloud.rayBounded i then
    let place := spacingPlace (cloud.ends.getD i default) (1 / 4)
    if place ∈ st.1 then (st.1, st.2.1, st.2.2 + 1)
    else (st.1 ++ [place], st.2.1 + 1, st.2.2 + 1)
  else st

/-- The function estimatePointSpacing: 0.25 * sqrt(num_voxels / num_points). -/
def estimatePointSpacing (X : Libs) (cloud : Cloud) : Dbl :=
  let st := (List.range cloud.ends.length).foldl (spacingStep cloud) ([], 0, 0)
  Dbl.mul (Dbl.fin (1 / 4))
    (Dbl.sqrt X.sqrt (Dbl.div (Dbl.fin (st.2.1 : ℚ)) (Dbl.fin (st.2.2 : ℚ))))

/-- The rows of the neighbour table that the loops of generateEllipsoids visit for point i:
at most search_size entries, up to the first entry that is not above -1. -/
def neighbourColumn (indices : List (List ℤ)) (search_size i : ℕ) : List ℕ :=
  (((indices.getD i []).take search_size).takeWhile (fun k => decide (-1 < k))).map Int.toNat

/-- The body of the loop of Cloud::generateEllipsoids for ray i (lines 272-325). -/
def generateEllipsoid (X : Libs) (c : Cloud) (indices : List (List ℤ)) (i : ℕ) : Ellipsoid :=
  let e0 : Ellipsoid := { (default : Ellipsoid) with transient := false, opacity := Dbl.fin 1 }
  if !c.rayBounded i then { e0 with extents := Vector3d.zero }
  else
    let nb := (neighbourColumn indices 16 i).filter c.rayBounded
    let num_neighbours : ℚ := (nb.length : ℚ)
    let centroid_sum := nb.foldl (fun s k => s.add (c.ends.getD k default)) Vector3d.zero
    if num_neighbours < 4 then { e0 with extents := Vector3d.zero }
    else
      let centroid := centroid_sum.sdiv num_neighbours
      let scatter := (nb.foldl
        (fun m k =>
          let offset := (c.ends.getD k default).sub centroid
          m.add (Vector3d.outer offset offset))
        Matrix3d.zero).sdiv num_neighbours
      let eigen_value := X.eigenvalues scatter.transpose
      let eigen_vector := X.eigenvectors scatter.transpose
      let scale : ℚ := 17 / 10
      let v0 := scale * X.sqrt (max (1 / 10 ^ 10) eigen_value.x)
      let v1 := scale * X.sqrt (max (1 / 10 ^ 10) eigen_value.y)
      let v2 := scale * X.sqrt (max (1 / 10 ^ 10) eigen_value.z)
      { e0 with
        pos := centroid
        eigen_mat := ⟨(eigen_vector.col 0).sdiv v0, (eigen_vector.col 1).sdiv v1,
          (eigen_vector.col 2).sdiv v2⟩
        time := c.times.getD i default
        extents := X.setExtents eigen_vector ⟨v0, v1, v2⟩
        planarity := X.setPlanarity ⟨v0, v1, v2⟩ }

/-- Cloud::generateEllipsoids: one ellipsoid per ray, index-aligned with the cloud. -/
def generateEllipsoids (X : Libs) (c : Cloud) : List Ellipsoid :=
  (List.range c.ends.length).map (generateEllipsoid X c (X.knn c.ends 16))

/-! ## Grid traversal (fillGrid) -/

/-- The constants of one ray in fillGrid (lines 337-343). -/
structure RayWalk where
  start : Vector3d
  dir : Vector3d
  dir_sign : Vector3d
  start_index : Vector3i
  end_index : Vector3i
  length_sqr : ℤ

/-- Lines 337-343 of fillGrid for the ray from start to endPoint. -/
def rayWalk (grid : Grid) (start endPoint : Vector3d) : RayWalk :=
  let dir := endPoint.sub start
  let s := (start.sub grid.box_min).sdiv grid.voxel_width
  let e := (endPoint.sub grid.box_min).sdiv grid.voxel_width
  let start_index : Vector3i := ⟨⌊s.x⌋, ⌊s.y⌋, ⌊s.z⌋⟩
  let end_index : Vector3i := ⟨⌊e.x⌋, ⌊e.y⌋, ⌊e.z⌋⟩
  { start := start, dir := dir, dir_sign := ⟨sgn dir.x, sgn dir.y, sgn dir.z⟩,
    start_index := start_index, end_index := end_index,
    length_sqr := (end_index.sub start_index).squaredNorm }

/-- Lines 351-360 of fillGrid: the voxel that follows index. -/
def nextIndex (grid : Grid) (w : RayWalk) (index : Vector3i) : Vector3i :=
  let mid := grid.box_min.add
    (Vector3d.smul grid.voxel_width
      ⟨(index.x : ℚ) + 1 / 2, (index.y : ℚ) + 1 / 2, (index.z : ℚ) + 1 / 2⟩)
  let next_boundary := mid.add (Vector3d.smul (1 / 2 * grid.voxel_width) w.dir_sign)
  let delta := next_boundary.sub w.start
  let d0 := Dbl.div (Dbl.fin delta.x) (Dbl.fin w.dir.x)
  let d1 := Dbl.div (Dbl.fin delta.y) (Dbl.fin w.dir.y)
  let d2 := Dbl.div (Dbl.fin delta.z) (Dbl.fin w.dir.z)
  if Dbl.lt d0 d1 && Dbl.lt d0 d2 then { index with x := index.x + castInt w.dir_sign.x }
  else if Dbl.lt d1 d0 && Dbl.lt d1 d2 then { index with y := index.y + castInt w.dir_sign.y }
  else { index with z := index.z + castInt w.dir_sign.z }

/-- The loop of lines 345-361 of fillGrid, run for at most fuel rounds: the voxels into
which the ray is inserted, in order; none when the rounds do not suffice. -/
def walk (grid : Grid) (w : RayWalk) : ℕ → Vector3i → Option (List Vector3i)
  | 0, _ => none
  | fuel + 1, index =>
    if index = w.end_index ∨ (index.sub w.start_index).squaredNorm > w.length_sqr then
      some [index]
    else (walk grid w fuel (nextIndex grid w index)).map (fun l => index :: l)

/-- The voxels into which fillGrid inserts the index of the ray from start to endPoint. The
number of rounds allowed, length_sqr + 2, is never used up (see rayVoxels_isSome). -/
def rayVoxels (grid : Grid) (start endPoint : Vector3d) : Option (List Vector3i) :=
  let w := rayWalk grid start endPoint
  walk grid w (w.length_sqr.toNat + 2) w.start_index

/-- The function fillGrid: every ray index is inserted into the voxels of its traversal.
The traversal reads box_min and voxel_width only, which insert leaves as they are. -/
def fillGrid (grid : Grid) (starts ends : List Vector3d) : Grid :=
  (List.range ends.length).foldl
    (fun g i =>
      ((rayVoxels grid (starts.getD i default) (ends.getD i default)).getD []).foldl
        (fun g2 v => g2.insert v.x v.y v.z i) g)
    grid

/-! ## Ray / ellipsoid classification and the transient decision (markIntersectedEllipsoids) -/

/-- The values lo, lo + 1, ..., hi of a for loop over an inclusive integer range. -/
def intRange (lo hi : ℤ) : List ℤ :=
  (List.range (hi + 1 - lo).toNat).map (fun k => lo + (k : ℤ))

/-- Lines 411-417: one cell list passed through the ray_tested guard; the state is
ray_tested and ray_ids. -/
def gatherCell (list : List ℕ) (st : List Bool × List ℕ) : List Bool × List ℕ :=
  list.foldl (fun st i => if st.1.getD i false then st else (st.1.set i true, st.2 ++ [i])) st

/-- Lines 403-420: the candidate rays of the cells from bmin to bmax. -/
def gatherRays (grid : Grid) (bmin bmax : Vector3i) (ray_tested : List Bool) :
    List Bool × List ℕ :=
  (intRange bmin.x bmax.x).foldl
    (fun st x =>
      (intRange bmin.y bmax.y).foldl
        (fun st y =>
          (intRange bmin.z bmax.z).foldl (fun st z => gatherCell (grid.cell x y z) st) st)
        st)
    (ray_tested, [])

/-- Line 421: the guard is cleared for the gathered rays. -/
def resetTested (ray_ids : List ℕ) (ray_tested : List Bool) : List Bool :=
  ray_ids.foldl (fun t ray_id => t.set ray_id false) ray_tested

/-- Outcome of the ray-ellipsoid test for one candidate ray. -/
inductive RayClass where
  | miss : RayClass
  | hit : RayClass
  | pass : RayClass
  deriving DecidableEq

/-- Lines 429-451: the ray-ellipsoid intersection test for ray ray_id. -/
def classifyRay (X : Libs) (cloud : Cloud) (ellipsoid : Ellipsoid) (ray_id : ℕ) : RayClass :=
  let dir := (cloud.ends.getD ray_id default).sub (cloud.starts.getD ray_id default)
  let to_sphere := ellipsoid.pos.sub (cloud.starts.getD ray_id default)
  let ray := ellipsoid.eigen_mat.mulVec dir
  let ray_length_sqr := ray.squaredNorm
  let to_ := ellipsoid.eigen_mat.mulVec to_sphere
  let d := Dbl.div (Dbl.fin (to_.dot ray)) (Dbl.fin ray_length_sqr)
  let cx := Dbl.sub (Dbl.fin to_.x) (Dbl.mul (Dbl.fin ray.x) d)
  let cy := Dbl.sub (Dbl.fin to_.y) (Dbl.mul (Dbl.fin ray.y) d)
  let cz := Dbl.sub (Dbl.fin to_.z) (Dbl.mul (Dbl.fin ray.z) d)
  let dist2 := Dbl.add (Dbl.add (Dbl.mul cx cx) (Dbl.mul cy cy)) (Dbl.mul cz cz)
  if Dbl.lt (Dbl.fin 1) dist2 then RayClass.miss
  else
    let along_dist := Dbl.sqrt X.sqrt (Dbl.sub (Dbl.fin 1) dist2)
    let ray_length := Dbl.fin (X.sqrt ray_length_sqr)
    let d1 := Dbl.mul d ray_length
    if Dbl.lt ray_length (Dbl.sub d1 along_dist) then RayClass.miss
    else
      let pass_distance : ℚ := 5 / 100
      let ratio := Dbl.div (Dbl.fin pass_distance) (Dbl.fin (X.sqrt dir.squaredNorm))
      let pass_through :=
        Dbl.lt (Dbl.add d1 along_dist) (Dbl.mul ray_length (Dbl.sub (Dbl.fin 1) ratio))
      if pass_through then RayClass.pass else RayClass.hit

/-- The counters of lines 423-426: hits, pass_through_ids and the first and last hit time. -/
structure Tally where
  hits : ℕ
  pass_through_ids : List ℕ
  first_intersection_time : ℚ
  last_intersection_time : ℚ
  deriving DecidableEq

/-- Lines 423-426: the counters before the first candidate ray. -/
def Tally.init : Tally := ⟨0, [], 10 ^ 10, -(10 ^ 10)⟩

/-- Lines 427-459: one candidate ray added to the counters. -/
def tallyRay (X : Libs) (cloud : Cloud) (ellipsoid : Ellipsoid) (t : Tally) (ray_id : ℕ) :
    Tally :=
  match classifyRay X cloud ellipsoid ray_id with
  | RayClass.miss => t
  | RayClass.pass => { t with pass_through_ids := t.pass_through_ids ++ [ray_id] }
  | RayClass.hit =>
    { t with
      hits := t.hits + 1
      first_intersection_time := min t.first_intersection_time (cloud.times.getD ray_id default)
      last_intersection_time := max t.last_intersection_time (cloud.times.getD ray_id default) }

/-- The counters num_before, num_after and misses of lines 460-479. -/
structure PassStats where
  num_before : ℕ
  num_after : ℕ
  misses : ℕ
  deriving DecidableEq

/-- Lines 471-479: one pass-through ray sorted by its time. -/
def passStatsStep (cloud : Cloud) (t : Tally) (s : PassStats) (ray_id : ℕ) : PassStats :=
  if cloud.times.getD ray_id default > t.last_intersection_time then
    { s with num_after := s.num_after + 1 }
  else if cloud.times.getD ray_id default < t.first_intersection_time then
    { s with num_before := s.num_before + 1 }
  else { s with misses := s.misses + 1 }

/-- Lines 520-532: one round of the proportional removal loop; the state is the
accumulator d and the transients array. -/
def removeRaysStep (cloud : Cloud) (t : Tally) (opacity : Dbl) (self_transient : Bool)
    (st : Dbl × List Bool) (i : ℕ) : Dbl × List Bool :=
  let d := Dbl.add st.1 opacity
  if Dbl.le (Dbl.fin 1) d then
    let d1 := Dbl.sub d (Dbl.fin 1)
    if !self_transient || decide (cloud.times.getD i default < t.first_intersection_time) ||
        decide (cloud.times.getD i default > t.last_intersection_time) then
      (d1, st.2.set i true)
    else (d1, st.2)
  else (d, st.2)

/-- Lines 514-534: the ellipsoid is marked, or its pass-through rays are thinned out. -/
def applyRemoval (cloud : Cloud) (self_transient : Bool) (t : Tally) (remove_ellipsoid : Bool)
    (ellipsoid : Ellipsoid) (transients : List Bool) : Ellipsoid × List Bool :=
  if remove_ellipsoid then ({ ellipsoid with transient := true }, transients)
  else
    (ellipsoid,
      (t.pass_through_ids.foldl (removeRaysStep cloud t ellipsoid.opacity self_transient)
        (Dbl.fin 0, transients)).2)

/-- Lines 466-493: opacity, num_gone, num_before and num_after in self mode and in
cross-cloud mode; the result is the ellipsoid, num_before and num_after. -/
def countBeforeAfter (cloud : Cloud) (self_transient : Bool) (t : Tally) (ellipsoid : Ellipsoid) :
    Ellipsoid × ℕ × ℕ :=
  if self_transient then
    let s := t.pass_through_ids.foldl (passStatsStep cloud t) ⟨0, 0, 0⟩
    let h : ℚ := (t.hits : ℚ) + 1 / 10 ^ 8 - 1
    ({ ellipsoid with
        opacity := Dbl.div (Dbl.fin h) (Dbl.fin (h + (s.misses : ℚ)))
        num_gone := s.num_before + s.num_after },
      s.num_before, s.num_after)
  else if 0 < t.pass_through_ids.length then
    if cloud.times.getD (t.pass_through_ids.getD 0 0) default > ellipsoid.time then
      (ellipsoid, 0, t.pass_through_ids.length)
    else (ellipsoid, t.pass_through_ids.length, 0)
  else (ellipsoid, 0, 0)

/-- Lines 460-534: the decision for one ellipsoid from its counters. -/
def decideEllipsoid (cloud : Cloud) (type : ℕ) (num_rays : ℚ) (self_transient : Bool)
    (t : Tally) (ellipsoid : Ellipsoid) (transients : List Bool) : Ellipsoid × List Bool :=
  let e1 : Ellipsoid := { ellipsoid with num_rays := t.hits + t.pass_through_ids.length }
  let e2 : Ellipsoid :=
    if num_rays = 0 ∨ self_transient = true then
      { e1 with
        opacity := Dbl.div (Dbl.fin (t.hits : ℚ))
          (Dbl.fin ((t.hits : ℚ) + (t.pass_through_ids.length : ℚ))) }
    else e1
  if e2.num_rays = 0 ∨ Dbl.eq e2.opacity (Dbl.fin 0) = true ∨ num_rays = 0 then (e2, transients)
  else
    let r := countBeforeAfter cloud self_transient t e2
    let sequence_length := Dbl.div (Dbl.fin num_rays) r.1.opacity
    if type = 0 ∨ type = 1 then
      if Dbl.lt (Dbl.fin ((max r.2.1 r.2.2 : ℕ) : ℚ)) sequence_length then (r.1, transients)
      else if type = 0 then
        applyRemoval cloud self_transient t (Dbl.le sequence_length (Dbl.fin (r.2.1 : ℚ))) r.1
          transients
      else
        applyRemoval cloud self_transient t (Dbl.le sequence_length (Dbl.fin (r.2.2 : ℚ))) r.1
          transients
    else
      if Dbl.lt (Dbl.fin ((r.2.1 + r.2.2 : ℕ) : ℚ)) sequence_length then (r.1, transients)
      else applyRemoval cloud self_transient t (decide (type = 2)) r.1 transients

/-- Lines 392-401: the cell range bmin..bmax of an ellipsoid, none when its box lies
outside the grid. -/
def cellRange (grid : Grid) (ellipsoid : Ellipsoid) : Option (Vector3i × Vector3i) :=
  let b_min := ((ellipsoid.pos.sub ellipsoid.extents).sub grid.box_min).sdiv grid.voxel_width
  let b_max := ((ellipsoid.pos.add ellipsoid.extents).sub grid.box_min).sdiv grid.voxel_width
  if b_max.x < 0 ∨ b_max.y < 0 ∨ b_max.z < 0 then none
  else if b_min.x ≥ (grid.dims.x : ℚ) ∨ b_min.y ≥ (grid.dims.y : ℚ) ∨
      b_min.z ≥ (grid.dims.z : ℚ) then none
  else
    some
      (Vector3i.maxVector ⟨0, 0, 0⟩ ⟨castInt b_min.x, castInt b_min.y, castInt b_min.z⟩,
        Vector3i.minVector ⟨castInt b_max.x, castInt b_max.y, castInt b_max.z⟩
          ⟨grid.dims.x - 1, grid.dims.y - 1, grid.dims.z - 1⟩)

/-- Lines 387-534: the body of the loop over the ellipsoids; the state is the transients
array and the ray_tested guard. -/
def markEllipsoid (X : Libs) (cloud : Cloud) (grid : Grid) (type : ℕ) (num_rays : ℚ)
    (self_transient : Bool) (st : List Bool × List Bool) (ellipsoid : Ellipsoid) :
    Ellipsoid × (List Bool × List Bool) :=
  if ellipsoid.transient = true then (ellipsoid, st)
  else if ellipsoid.extents = Vector3d.zero then (ellipsoid, st)
  else
    match cellRange grid ellipsoid with
    | none => (ellipsoid, st)
    | some b =>
      let g := gatherRays grid b.1 b.2 st.2
      let ray_tested := resetTested g.2 g.1
      let tally := g.2.foldl (tallyRay X cloud ellipsoid) Tally.init
      let r := decideEllipsoid cloud type num_rays self_transient tally ellipsoid st.1
      (r.1, (r.2, ray_tested))

/-- The loop of lines 380-535 over the ellipsoids, in order. -/
def markLoop (X : Libs) (cloud : Cloud) (grid : Grid) (type : ℕ) (num_rays : ℚ)
    (self_transient : Bool) :
    List Ellipsoid → List Bool × List Bool → List Ellipsoid × (List Bool × List Bool)
  | [], st => ([], st)
  | ellipsoid :: rest, st =>
    let r := markEllipsoid X cloud grid type num_rays self_transient st ellipsoid
    let rs := markLoop X cloud grid type num_rays self_transient rest r.2
    (r.1 :: rs.1, rs.2)

/-- Line 376: the number of a merge type. -/
def mergeTypeCode (merge_type : String) : ℕ :=
  if merge_type = "oldest" then 0
  else if merge_type = "newest" then 1
  else if merge_type = "min" then 2
  else 3

/-- Cloud::markIntersectedEllipsoids; the result is the transients array and the
ellipsoids after the call. -/
def markIntersectedEllipsoids (X : Libs) (cloud : Cloud) (grid : Grid) (transients : List Bool)
    (ellipsoids : List Ellipsoid) (merge_type : String) (num_rays : ℚ) (self_transient : Bool) :
    List Bool × List Ellipsoid :=
  let r := markLoop X cloud grid (mergeTypeCode merge_type) num_rays self_transient ellipsoids
    (transients, List.replicate cloud.ends.length false)
  (r.2.1, r.1)

/-! ## findTransients -/

instance : Inhabited Cloud := ⟨Cloud.empty⟩

instance : Inhabited Grid := ⟨⟨default, default, 0, default, fun _ => []⟩⟩

/-- The grid that findTransients, threeWayMerge and combine build for a cloud: bounds of
the cloud, voxel width 4.0 * estimatePointSpacing, filled by fillGrid. -/
def cloudGrid (X : Libs) (cloud : Cloud) : Grid :=
  fillGrid
    (Grid.init X cloud.calcMinBound cloud.calcMaxBound
      (Dbl.mul (Dbl.fin 4) (estimatePointSpacing X cloud)))
    cloud.starts cloud.ends

/-- Lines 587-593 of findTransients: the colour written for ray i. -/
def transientColour (cloud : Cloud) (colour_cloud : Bool) (ellipsoids : List Ellipsoid) (i : ℕ) :
    RGBA :=
  let col := cloud.colours.getD i default
  if colour_cloud then
    let e := ellipsoids.getD i default
    { col with
      red := castUInt8 (Dbl.mul (Dbl.sub (Dbl.fin 1) e.planarity) (Dbl.fin 255))
      blue := castUInt8 (Dbl.mul e.opacity (Dbl.fin 255))
      green := castUInt8 (Dbl.fin ((e.num_gone : ℚ) / ((e.num_gone : ℚ) + 10) * 255)) }
  else col

/-- Lines 587-607 of findTransients: ray i goes to the transient or to the fixed cloud; the
state is the pair (transient, fixed). -/
def findTransientsStep (cloud : Cloud) (colour_cloud : Bool) (ellipsoids : List Ellipsoid)
    (transients : List Bool) (out : Cloud × Cloud) (i : ℕ) : Cloud × Cloud :=
  let col := transientColour cloud colour_cloud ellipsoids i
  if (ellipsoids.getD i default).transient || transients.getD i false then
    (out.1.push (cloud.starts.getD i default) (cloud.ends.getD i default)
      (cloud.times.getD i default) col, out.2)
  else
    (out.1, out.2.push (cloud.starts.getD i default) (cloud.ends.getD i default)
      (cloud.times.getD i default) col)

/-- The ellipsoids and the transients array as findTransients has them after its call of
markIntersectedEllipsoids (lines 570-582). -/
def findTransientsMarks (X : Libs) (cloud : Cloud) (merge_type : String) (num_rays : ℚ) :
    List Bool × List Ellipsoid :=
  markIntersectedEllipsoids X cloud (cloudGrid X cloud) (List.replicate cloud.ends.length false)
    (generateEllipsoids X cloud) merge_type num_rays true

/-- Cloud::findTransients; the result is the pair (transient, fixed) after the call. -/
def findTransients (X : Libs) (cloud transient fixed : Cloud) (merge_type : String)
    (num_rays : ℚ) (colour_cloud : Bool) : Cloud × Cloud :=
  let m := findTransientsMarks X cloud merge_type num_rays
  (List.range m.2.length).foldl (findTransientsStep cloud colour_cloud m.2 m.1)
    (transient, fixed)

/-! ## threeWayMerge -/

/-- The constant test_width. -/
def test_width : ℚ := 1 / 100

/-- Lines 617-622 and 657-662: the quantised key of a ray. -/
def rayKey (start point : Vector3d) : Vector6i :=
  ⟨⌊start.x / test_width⌋, ⌊start.y / test_width⌋, ⌊start.z / test_width⌋,
    ⌊point.x / test_width⌋, ⌊point.y / test_width⌋, ⌊point.z / test_width⌋⟩

/-- The key of a ray value. -/
def Ray.key (r : Ray) : Vector6i := rayKey r.start r.endPoint

/-- The function rayLookup: the keys of a cloud are added to a set. The set is a list
without repetition; only membership is ever asked of it. -/
def rayLookup (cloud : Cloud) (ray_lookup : List Vector6i) : List Vector6i :=
  (List.range cloud.ends.length).foldl
    (fun s i =>
      let ray := rayKey (cloud.starts.getD i default) (cloud.ends.getD i default)
      if ray ∈ s then s else s ++ [ray])
    ray_lookup

/-- The statements v[i] = v.back(); v.pop_back(); on one array. -/
def swapRemoveAt {α : Type} [Inhabited α] (l : List α) (i : ℕ) : List α :=
  (l.set i (l.getLastD default)).dropLast

/-- Lines 681-684: ray i of a cloud is replaced by the last ray and the last ray dropped. -/
def Cloud.swapRemove (c : Cloud) (i : ℕ) : Cloud :=
  ⟨swapRemoveAt c.starts i, swapRemoveAt c.ends i, swapRemoveAt c.times i,
    swapRemoveAt c.colours i⟩

/-- The inner loop of lines 653-687 from index i on, for one cloud: the result is the cloud
and the merged cloud after the loop. -/
def preFilterLoop (other_lookup base_ray_lookup : List Vector6i) (is_preferred : Bool)
    (cloud result : Cloud) (i : ℕ) : Cloud × Cloud :=
  if h : i < cloud.ends.length then
    let point := cloud.ends.getD i default
    let start := cloud.starts.getD i default
    let ray := rayKey start point
    let result1 :=
      if ray ∈ other_lookup ∧ is_preferred = true then
        result.push start point (cloud.times.getD i default) (cloud.colours.getD i default)
      else result
    if ray ∈ base_ray_lookup then
      preFilterLoop other_lookup base_ray_lookup is_preferred (cloud.swapRemove i) result1 i
    else preFilterLoop other_lookup base_ray_lookup is_preferred cloud result1 (i + 1)
  else (cloud, result)
termination_by cloud.ends.length - i
decreasing_by
  all_goals simp_wf
  · simp only [Cloud.swapRemove, swapRemoveAt, List.length_dropLast, List.length_set]
    omega
  · omega

/-- Lines 638-688 of threeWayMerge: the lookups, the preferred cloud and the two filter
loops. The result is the merged cloud, cloud1 and cloud2 after the loops; none when the read
of times[0] of line 648 has no element to read. -/
def preFilter (this base_cloud cloud1 cloud2 : Cloud) : Option (Cloud × Cloud × Cloud) :=
  let base_ray_lookup := rayLookup base_cloud []
  let lookup0 := rayLookup cloud1 []
  let lookup1 := rayLookup cloud2 []
  match cloud1.times.head?, cloud2.times.head? with
  | some t0, some t1 =>
    let preferred_cloud : ℕ := if t0 > t1 then 0 else 1
    let r0 := preFilterLoop lookup1 base_ray_lookup (decide (0 = preferred_cloud)) cloud1 this 0
    let r1 := preFilterLoop lookup0 base_ray_lookup (decide (1 = preferred_cloud)) cloud2 r0.2 0
    some (r1.2, r0.1, r1.1)
  | _, _ => none

/-- Lines 701-704: the four arrays of a cloud appended to those of another. -/
def Cloud.append (c other : Cloud) : Cloud :=
  ⟨c.starts ++ other.starts, c.ends ++ other.ends, c.times ++ other.times,
    c.colours ++ other.colours⟩

/-- Lines 735-737 and 788-790: the transient marks of the ellipsoids copied into the
transients array of their own cloud, for the indices below n. -/
def copyMarks (n : ℕ) (ellipsoids : List Ellipsoid) (transients : List Bool) : List Bool :=
  (List.range n).foldl
    (fun t i => if (ellipsoids.getD i default).transient then t.set i true else t) transients

/-- One round of the loop of lines 721-738: the ellipsoids of cloud c against its own
rays (opacity only) and against the rays of the other cloud d. The result is the
transients arrays of c and of d. -/
def threeWayPass (X : Libs) (cloud_c cloud_d : Cloud) (grid_c grid_d : Grid)
    (transients_c transients_d : List Bool) (merge_type : String) (num_rays : ℚ) :
    List Bool × List Bool :=
  if cloud_c.ends.length = 0 then (transients_c, transients_d)
  else
    let ellipsoids := generateEllipsoids X cloud_c
    let m1 := markIntersectedEllipsoids X cloud_c grid_c transients_c ellipsoids merge_type 0 false
    let m2 := markIntersectedEllipsoids X cloud_d grid_d transients_d m1.2 merge_type num_rays
      false
    (copyMarks m2.2.length m2.2 m1.1, m2.1)

/-- Lines 744-756: the rays of a cloud whose transients entry is false are appended to the
merged cloud. -/
def emitFixed (cloud : Cloud) (transients : List Bool) (result : Cloud) : Cloud :=
  (List.range transients.length).foldl
    (fun r i =>
      if !transients.getD i false then
        r.push (cloud.starts.getD i default) (cloud.ends.getD i default)
          (cloud.times.getD i default) (cloud.colours.getD i default)
      else r)
    result

/-- Lines 710-738 of threeWayMerge: the transients arrays of the two filtered clouds. -/
def threeWayTransients (X : Libs) (cloud1 cloud2 : Cloud) (merge_type : String) (num_rays : ℚ) :
    List Bool × List Bool :=
  let grid0 := cloudGrid X cloud1
  let grid1 := cloudGrid X cloud2
  let p0 := threeWayPass X cloud1 cloud2 grid0 grid1 (List.replicate cloud1.ends.length false)
    (List.replicate cloud2.ends.length false) merge_type num_rays
  let p1 := threeWayPass X cloud2 cloud1 grid1 grid0 p0.2 p0.1 merge_type num_rays
  (p1.2, p1.1)

/-- Lines 696-758 of threeWayMerge: the changes of the two filtered clouds are added to the
merged cloud. -/
def mergeChanges (X : Libs) (this cloud1 cloud2 : Cloud) (merge_type : String) (num_rays : ℚ) :
    Cloud :=
  if merge_type = "all" then (this.append cloud1).append cloud2
  else
    let t := threeWayTransients X cloud1 cloud2 merge_type num_rays
    emitFixed cloud2 t.2 (emitFixed cloud1 t.1 this)

/-- Cloud::threeWayMerge; the result is the merged cloud and the two input clouds after
the call; none when the read of times[0] of line 648 has no element to read. -/
def threeWayMerge (X : Libs) (this base_cloud cloud1 cloud2 : Cloud) (merge_type : String)
    (num_rays : ℚ) : Option (Cloud × Cloud × Cloud) :=
  (preFilter this base_cloud cloud1 cloud2).map
    (fun p => (mergeChanges X p.1 p.2.1 p.2.2 merge_type num_rays, p.2.1, p.2.2))

/-! ## combine -/

/-- Lines 780-786: the ellipsoids of cloud c against the rays of cloud d, for d other
than c; the state is the transients arrays and the ellipsoids. -/
def combineCross (X : Libs) (clouds : List Cloud) (grids : List Grid) (merge_type : String)
    (num_rays : ℚ) (c : ℕ) (st : List (List Bool) × List Ellipsoid) (d : ℕ) :
    List (List Bool) × List Ellipsoid :=
  if d = c then st
  else
    let m := markIntersectedEllipsoids X (clouds.getD d default) (grids.getD d default)
      (st.1.getD d []) st.2 merge_type num_rays false
    (st.1.set d m.1, m.2)

/-- One round of the loop of lines 773-791; the state is the transients arrays. -/
def combinePass (X : Libs) (clouds : List Cloud) (grids : List Grid) (merge_type : String)
    (num_rays : ℚ) (transients : List (List Bool)) (c : ℕ) : List (List Bool) :=
  let cloud := clouds.getD c default
  let ellipsoids := generateEllipsoids X cloud
  let m1 := markIntersectedEllipsoids X cloud (grids.getD c default) (transients.getD c [])
    ellipsoids merge_type 0 false
  let r := (List.range clouds.length).foldl
    (combineCross X clouds grids merge_type num_rays c) (transients.set c m1.1, m1.2)
  r.1.set c (copyMarks cloud.ends.length r.2 (r.1.getD c []))

/-- Lines 763-791 of combine: the transients arrays after the classification passes. -/
def combineTransients (X : Libs) (clouds : List Cloud) (merge_type : String) (num_rays : ℚ) :
    List (List Bool) :=
  (List.range clouds.length).foldl
    (combinePass X clouds (clouds.map (cloudGrid X)) merge_type num_rays)
    (clouds.map (fun c => List.replicate c.ends.length false))

/-- Lines 797-815: ray i of a cloud goes to differences or to the merged cloud; the state
is the pair (merged, differences). -/
def combineStep (cloud : Cloud) (transients : List Bool) (out : Cloud × Cloud) (i : ℕ) :
    Cloud × Cloud :=
  if transients.getD i false then
    (out.1, out.2.push (cloud.starts.getD i default) (cloud.ends.getD i default)
      (cloud.times.getD i default) (cloud.colours.getD i default))
  else
    (out.1.push (cloud.starts.getD i default) (cloud.ends.getD i default)
      (cloud.times.getD i default) (cloud.colours.getD i default), out.2)

/-- Lines 792-817: the rays of every cloud are handed out, cloud by cloud. -/
def combineEmit (clouds : List Cloud) (transients : List (List Bool)) (out : Cloud × Cloud) :
    Cloud × Cloud :=
  (List.range clouds.length).foldl
    (fun o c =>
      (List.range (clouds.getD c default).ends.length).foldl
        (combineStep (clouds.getD c default) (transients.getD c [])) o)
    out

/-- Cloud::combine; the result is the pair (merged cloud, differences) after the call. -/
def combine (X : Libs) (this : Cloud) (clouds : List Cloud) (differences : Cloud)
    (merge_type : String) (num_rays : ℚ) : Cloud × Cloud :=
  combineEmit clouds (combineTransients X clouds merge_type num_rays) (this, differences)

/-! ## Definitions used to state and to prove the theorems -/

/-- Two voxels differ by exactly one unit on exactly one axis and agree on the other two. -/
def Adjacent6 (u v : Vector3i) : Prop :=
  (|u.x - v.x| = 1 ∧ u.y = v.y ∧ u.z = v.z) ∨ (u.x = v.x ∧ |u.y - v.y| = 1 ∧ u.z = v.z) ∨
    (u.x = v.x ∧ u.y = v.y ∧ |u.z - v.z| = 1)

instance (u v : Vector3i) : Decidable (Adjacent6 u v) := by unfold Adjacent6; infer_instance

/-- Number of unit steps that lead from the start voxel to index when every step follows
dir_sign. -/
def stepCount (w : RayWalk) (index : Vector3i) : ℤ :=
  (index.x - w.start_index.x) * castInt w.dir_sign.x +
    (index.y - w.start_index.y) * castInt w.dir_sign.y +
    (index.z - w.start_index.z) * castInt w.dir_sign.z

/-- On every axis the offset of index from the start voxel points along dir_sign. -/
def Forward (w : RayWalk) (index : Vector3i) : Prop :=
  0 ≤ (index.x - w.start_index.x) * castInt w.dir_sign.x ∧
    0 ≤ (index.y - w.start_index.y) * castInt w.dir_sign.y ∧
    0 ≤ (index.z - w.start_index.z) * castInt w.dir_sign.z

/-- A grid with unit voxels at the origin, without rays. -/
def unitGrid : Grid :=
  { box_min := ⟨0, 0, 0⟩, box_max := ⟨1, 1, 1⟩, voxel_width := 1, dims := ⟨1, 1, 1⟩,
    cells := fun _ => [] }

instance : Inhabited Ray := ⟨⟨default, default, default, default⟩⟩

/-- The cloud whose four arrays hold the fields of the given rays. -/
def Cloud.ofRays (l : List Ray) : Cloud :=
  ⟨l.map (fun r => r.start), l.map (fun r => r.endPoint), l.map (fun r => r.time),
    l.map (fun r => r.colour)⟩

/-- Lines 665-675: a ray is appended to the merged cloud when its key is in the lookup of
the other cloud and its cloud is the preferred one. -/
def pushShared (o : List Vector6i) (p : Bool) (res : Cloud) (x : Ray) : Cloud :=
  if x.key ∈ o ∧ p = true then res.push x.start x.endPoint x.time x.colour else res

/-- The quantised keys of the rays of a cloud. -/
def Cloud.keys (c : Cloud) : List Vector6i := c.rays.map Ray.key

/-- The cloud that line 648 of threeWayMerge prefers: cloud1 when its first time stamp is
the later one, otherwise cloud2. -/
def preferredCloud (cloud1 cloud2 : Cloud) : Cloud :=
  if cloud1.times.getD 0 0 > cloud2.times.getD 0 0 then cloud1 else cloud2

/-- The cloud that line 648 of threeWayMerge does not prefer. -/
def otherCloud (cloud1 cloud2 : Cloud) : Cloud :=
  if cloud1.times.getD 0 0 > cloud2.times.getD 0 0 then cloud2 else cloud1

/-- The test of line 594 of findTransients for ray i: the ellipsoid of the ray is marked
transient or the transients entry of the ray is set. -/
def transientFlag (X : Libs) (cloud : Cloud) (merge_type : String) (num_rays : ℚ) (i : ℕ) : Bool :=
  ((findTransientsMarks X cloud merge_type num_rays).2.getD i default).transient ||
    (findTransientsMarks X cloud merge_type num_rays).1.getD i false

/-- The ray that findTransients writes for index i: start, end and time of ray i and the
colour of lines 587-593. -/
def transientRay (X : Libs) (cloud : Cloud) (merge_type : String) (num_rays : ℚ)
    (colour_cloud : Bool) (i : ℕ) : Ray :=
  ⟨cloud.starts.getD i default, cloud.ends.getD i default, cloud.times.getD i default,
    transientColour cloud colour_cloud (findTransientsMarks X cloud merge_type num_rays).2 i⟩

/-- The rays of cloud c that combine appends to the merged cloud (keep = true) or to the
differences (keep = false), in index order. -/
def combineShare (clouds : List Cloud) (transients : List (List Bool)) (keep : Bool) (c : ℕ) :
    List Ray :=
  ((List.range (clouds.getD c default).ends.length).filter
    (fun i => if keep then !(transients.getD c []).getD i false
      else (transients.getD c []).getD i false)).map (clouds.getD c default).rayAt

/-- State of the candidate gathering for a cloud of n rays: the guard has n entries, the
gathered ids are distinct, and the guard is set exactly at the gathered ids. -/
def GatherInv (n : ℕ) (st : List Bool × List ℕ) : Prop :=
  st.1.length = n ∧ st.2.Nodup ∧ ∀ j, j ∈ st.2 ↔ st.1.getD j false = true

/-- The counters of an ellipsoid for the candidate rays of the cells b.1 to b.2, gathered
with a clear guard of n entries. -/
def cellTally (X : Libs) (cloud : Cloud) (grid : Grid) (ellipsoid : Ellipsoid)
    (b : Vector3i × Vector3i) : Tally :=
  (gatherRays grid b.1 b.2 (List.replicate cloud.ends.length false)).2.foldl
    (tallyRay X cloud ellipsoid) Tally.init

/-- Stand-ins for the code outside the sources, used where a theorem is evaluated on a
concrete input. -/
def sampleLibs : Libs :=
  { sqrt := fun q => q
    knn := fun _ _ => []
    eigenvalues := fun _ => Vector3d.zero
    eigenvectors := fun m => m
    gridDims := fun _ _ _ => ⟨1, 1, 1⟩
    setExtents := fun _ v => v
    setPlanarity := fun _ => Dbl.fin 0 }

/-- A cloud of one bounded ray from (0, 0, 0) to (1, 0, 0). -/
def farCloud : Cloud := ⟨[⟨0, 0, 0⟩], [⟨1, 0, 0⟩], [0], [⟨0, 0, 0, 255⟩]⟩

/-- The empty grid of one voxel of width 10 at the origin. -/
def farGrid0 : Grid :=
  { box_min := ⟨0, 0, 0⟩, box_max := ⟨10, 10, 10⟩, voxel_width := 10, dims := ⟨1, 1, 1⟩,
    cells := fun _ => [] }

/-- The grid farGrid0 filled with the ray of farCloud. -/
def farGrid : Grid := fillGrid farGrid0 farCloud.starts farCloud.ends

/-- A unit sphere around (5, 5, 5) with opacity 1: its box lies in the voxel of farGrid and
the ray of farCloud passes it at a distance. -/
def farEllipsoid : Ellipsoid :=
  { pos := ⟨5, 5, 5⟩, eigen_mat := ⟨⟨1, 0, 0⟩, ⟨0, 1, 0⟩, ⟨0, 0, 1⟩⟩, time := 0,
    extents := ⟨1, 1, 1⟩, opacity := Dbl.fin 1, planarity := Dbl.fin 0, num_rays := 0,
    num_gone := 0, transient := false }

/-- A cloud of two bounded rays that leave the origin. -/
def sampleCloud : Cloud :=
  ⟨[⟨0, 0, 0⟩, ⟨0, 0, 0⟩], [⟨1, 0, 0⟩, ⟨0, 1, 0⟩], [0, 1],
    [⟨255, 0, 0, 255⟩, ⟨0, 255, 0, 255⟩]⟩

/-- The entries of the transients array at the given ray ids are set, one after the other. -/
def setAll (ids : List ℕ) (transients : List Bool) : List Bool :=
  ids.foldl (fun t i => t.set i true) transients

/-- State of the candidate gathering for a cloud of n rays, for any grid: the guard has n
entries and is set at gathered ids only. -/
def GuardInv (n : ℕ) (st : List Bool × List ℕ) : Prop :=
  st.1.length = n ∧ ∀ j, st.1.getD j false = true → j ∈ st.2

/-- The ellipsoid as one round of the loop of markIntersectedEllipsoids leaves it. -/
def markedEllipsoid (X : Libs) (cloud : Cloud) (grid : Grid) (type : ℕ) (num_rays : ℚ)
    (self_transient : Bool) (ellipsoid : Ellipsoid) : Ellipsoid :=
  (markEllipsoid X cloud grid type num_rays self_transient
    ([], List.replicate cloud.ends.length false) ellipsoid).1

/-- What markIntersectedEllipsoids with num_rays = 0 writes to one ellipsoid: nothing when
the ellipsoid is skipped (lines 387-398), else num_rays and the opacity of lines 461-463. -/
def zeroPass (X : Libs) (cloud : Cloud) (grid : Grid) (ellipsoid : Ellipsoid) : Ellipsoid :=
  if ellipsoid.transient = true then ellipsoid
  else if ellipsoid.extents = Vector3d.zero then ellipsoid
  else
    match cellRange grid ellipsoid with
    | none => ellipsoid
    | some b =>
      { ellipsoid with
        num_rays := (cellTally X cloud grid ellipsoid b).hits +
          (cellTally X cloud grid ellipsoid b).pass_through_ids.length
        opacity := Dbl.div (Dbl.fin ((cellTally X cloud grid ellipsoid b).hits : ℚ))
          (Dbl.fin (((cellTally X cloud grid ellipsoid b).hits : ℚ) +
            ((cellTally X cloud grid ellipsoid b).pass_through_ids.length : ℚ))) }

/-- Lines 461-463: the ellipsoid after num_rays and, where asked for, the opacity
hits / (hits + pass_throughs) are written. -/
def talliedEllipsoid (num_rays : ℚ) (self_transient : Bool) (t : Tally)
    (ellipsoid : Ellipsoid) : Ellipsoid :=
  let e1 : Ellipsoid := { ellipsoid with num_rays := t.hits + t.pass_through_ids.length }
  if num_rays = 0 ∨ self_transient = true then
    { e1 with
      opacity := Dbl.div (Dbl.fin (t.hits : ℚ))
        (Dbl.fin ((t.hits : ℚ) + (t.pass_through_ids.length : ℚ))) }
  else e1

/-- The ellipsoid after the counting of lines 466-493. -/
def countedEllipsoid (cloud : Cloud) (num_rays : ℚ) (self_transient : Bool) (t : Tally)
    (ellipsoid : Ellipsoid) : Ellipsoid :=
  (countBeforeAfter cloud self_transient t
    (talliedEllipsoid num_rays self_transient t ellipsoid)).1

/-- The counter num_before after lines 466-493. -/
def numBefore (cloud : Cloud) (num_rays : ℚ) (self_transient : Bool) (t : Tally)
    (ellipsoid : Ellipsoid) : ℕ :=
  (countBeforeAfter cloud self_transient t
    (talliedEllipsoid num_rays self_transient t ellipsoid)).2.1

/-- The counter num_after after lines 466-493. -/
def numAfter (cloud : Cloud) (num_rays : ℚ) (self_transient : Bool) (t : Tally)
    (ellipsoid : Ellipsoid) : ℕ :=
  (countBeforeAfter cloud self_transient t
    (talliedEllipsoid num_rays self_transient t ellipsoid)).2.2

/-- Line 495: sequence_length = num_rays / ellipsoid.opacity. -/
def sequenceLength (cloud : Cloud) (num_rays : ℚ) (self_transient : Bool) (t : Tally)
    (ellipsoid : Ellipsoid) : Dbl :=
  Dbl.div (Dbl.fin num_rays) (countedEllipsoid cloud num_rays self_transient t ellipsoid).opacity

/-- A unit sphere around (-1/2, 0, 0) with opacity 1: the ray of farCloud starts inside it
and ends 1/2 behind it, so that the ray passes through. -/
def nearEllipsoid : Ellipsoid :=
  { pos := ⟨-1 / 2, 0, 0⟩, eigen_mat := ⟨⟨1, 0, 0⟩, ⟨0, 1, 0⟩, ⟨0, 0, 1⟩⟩, time := 0,
    extents := ⟨1, 1, 1⟩, opacity := Dbl.fin 1, planarity := Dbl.fin 0, num_rays := 0,
    num_gone := 0, transient := false }

/-! ## removeUnboundedRays, decimate and split -/

/-- The call resize(n) of std::vector: the first n elements, followed by value-initialised
elements when the vector was shorter than n. -/
def resize {α : Type} [Inhabited α] (l : List α) (n : ℕ) : List α :=
  l.take n ++ List.replicate (n - l.length) default

/-- Lines 137-140 and 153-157: the ray at index ids[i] is copied to place i of the four
arrays. -/
def compactStep (ids : List ℕ) (c : Cloud) (i : ℕ) : Cloud :=
  ⟨c.starts.set i (c.starts.getD (ids.getD i 0) default),
    c.ends.set i (c.ends.getD (ids.getD i 0) default),
    c.times.set i (c.times.getD (ids.getD i 0) default),
    c.colours.set i (c.colours.getD (ids.getD i 0) default)⟩

/-- The loops of lines 135-145 and 151-162: the rays at the indices ids are moved to the
front, in order, and the four arrays are resized to the number of indices. -/
def Cloud.compact (c : Cloud) (ids : List ℕ) : Cloud :=
  let c1 := (List.range ids.length).foldl (compactStep ids) c
  ⟨resize c1.starts ids.length, resize c1.ends ids.length, resize c1.times ids.length,
    resize c1.colours ids.length⟩

/-- Cloud::removeUnboundedRays: the indices of the bounded rays are collected in order and
the cloud is compacted to them. -/
def Cloud.removeUnboundedRays (c : Cloud) : Cloud :=
  c.compact ((List.range c.ends.length).filter c.rayBounded)

/-- Line 86 of rayutils.h: the voxel of a point, the floor of each coordinate divided by
the voxel width. -/
def voxelPlace (voxelWidth : ℚ) (p : Vector3d) : Vector3i :=
  ⟨⌊p.x / voxelWidth⌋, ⌊p.y / voxelWidth⌋, ⌊p.z / voxelWidth⌋⟩

/-- Lines 86-91 of rayutils.h: point i is kept, and its voxel added to the test set, when
its voxel is not in the test set yet. The state is the index list and the test set. -/
def voxelSubsampleStep (points : List Vector3d) (voxelWidth : ℚ)
    (st : List ℕ × List Vector3i) (i : ℕ) : List ℕ × List Vector3i :=
  let place := voxelPlace voxelWidth (points.getD i default)
  if place ∈ st.2 then st else (st.1 ++ [i], place :: st.2)

/-- The function voxelSubsample of rayutils.h. -/
def voxelSubsample (points : List Vector3d) (voxelWidth : ℚ) : List ℕ :=
  ((List.range points.length).foldl (voxelSubsampleStep points voxelWidth) ([], [])).1

/-- Cloud::decimate: the cloud is compacted to the voxel subsample of its end points. -/
def Cloud.decimate (c : Cloud) (voxel_width : ℚ) : Cloud :=
  c.compact (voxelSubsample c.ends voxel_width)

/-- Cloud::split: ray i is appended to cloud2 when fptr(i) holds and to cloud1 otherwise;
the result is cloud1 and cloud2 after the call. -/
def Cloud.split (c cloud1 cloud2 : Cloud) (fptr : ℕ → Bool) : Cloud × Cloud :=
  (List.range c.ends.length).foldl
    (fun (out : Cloud × Cloud) i =>
      if fptr i then
        (out.1,
          out.2.push (c.starts.getD i default) (c.ends.getD i default)
            (c.times.getD i default) (c.colours.getD i default))
      else
        (out.1.push (c.starts.getD i default) (c.ends.getD i default)
            (c.times.getD i default) (c.colours.getD i default),
          out.2))
    (cloud1, cloud2)

/-- Point i is the first point of the list, in input order, that falls in its voxel. -/
def firstInVoxel (points : List Vector3d) (voxelWidth : ℚ) (i : ℕ) : Bool :=
  (List.range i).all
    (fun j =>
      decide (voxelPlace voxelWidth (points.getD j default) ≠
        voxelPlace voxelWidth (points.getD i default)))

/-! ## median -/

/-- The function median of rayutils.h for a list of doubles. The call std::nth_element of
the C++ library is a parameter: nth_element l n is the list after the call on the whole
list l with the iterator first + n. A read through an iterator that does not point to an
element of the list gives none. -/
def median (nth_element : List ℚ → ℕ → List ℚ) (list : List ℚ) : Option ℚ :=
  let middle := list.length / 2
  let list1 := nth_element list middle
  if list.length % 2 ≠ 0 then list1[middle]?
  else
    let middle2 := middle + 1
    let list2 := nth_element list1 middle2
    match list2[middle]?, list2[middle2]? with
    | some a, some b => some ((a + b) / 2)
    | _, _ => none

/-- What the C++ standard promises of std::nth_element: the list is rearranged, the
element at place n is not below any element before it and not above any element after it,
and no element before place n is above an element after it. -/
def NthElement (nth_element : List ℚ → ℕ → List ℚ) : Prop :=
  ∀ (l : List ℚ) (n : ℕ),
    (nth_element l n).Perm l ∧
      ∀ i j, i ≤ n → n ≤ j → j < l.length →
        (nth_element l n).getD i 0 ≤ (nth_element l n).getD j 0

/-- A stand-in for std::nth_element that sorts the whole list. -/
def sortNth (l : List ℚ) (_n : ℕ) : List ℚ := l.insertionSort (fun a b => a ≤ b)

/-- The median as the doc comment of median words it: the middle element of the sorted
list, or the mean of the two middle elements when the number of elements is even. -/
def sortedMedian (list : List ℚ) : ℚ :=
  let sorted := list.insertionSort (fun a b => a ≤ b)
  if list.length % 2 ≠ 0 then sorted.getD (list.length / 2) 0
  else (sorted.getD (list.length / 2 - 1) 0 + sorted.getD (list.length / 2) 0) / 2

/-- Lines 403-419: the candidate rays of an ellipsoid, gathered from the cells b.1 to b.2
with a clear guard of one entry per ray of the cloud. -/
def candidateRays (cloud : Cloud) (grid : Grid) (b : Vector3i × Vector3i) : List ℕ :=
  (gatherRays grid b.1 b.2 (List.replicate cloud.ends.length false)).2

/-- The candidate rays that the test of lines 429-451 makes hits of the ellipsoid, in the
order of the candidates. -/
def hitRays (X : Libs) (cloud : Cloud) (ellipsoid : Ellipsoid) (candidates : List ℕ) :
    List ℕ :=
  candidates.filter (fun i => decide (classifyRay X cloud ellipsoid i = RayClass.hit))

/-- The candidate rays that the test of lines 429-451 makes pass-through rays of the
ellipsoid, in the order of the candidates. -/
def passRays (X : Libs) (cloud : Cloud) (ellipsoid : Ellipsoid) (candidates : List ℕ) :
    List ℕ :=
  candidates.filter (fun i => decide (classifyRay X cloud ellipsoid i = RayClass.pass))

/-- The hit times of the ellipsoid: the times of the rays of hitRays. -/
def hitTimes (X : Libs) (cloud : Cloud) (ellipsoid : Ellipsoid) (candidates : List ℕ) :
    List ℚ :=
  (hitRays X cloud ellipsoid candidates).map (fun i => cloud.times.getD i default)

/-- The least of 1e10 and the given hit times: the first (earliest) hit time where that is
at most 1e10, and 1e10 where every hit is later or there is no hit. -/
def cappedFirstHitTime (times : List ℚ) : ℚ := times.foldr min (10 ^ 10)

/-- The greatest of -1e10 and the given hit times: the last (latest) hit time where that
is at least -1e10, and -1e10 where every hit is earlier or there is no hit. -/
def cappedLastHitTime (times : List ℚ) : ℚ := times.foldr max (-(10 ^ 10))

/-- The largest k that is at most e with 2^k at most n, and 0 when there is none: for e
large enough the place of the leading bit of n. -/
def leadingBit : ℕ → ℕ → ℕ
  | 0, _ => 0
  | e + 1, n => if 2 ^ (e + 1) ≤ n then e + 1 else leadingBit e n

/-- Rounding of binary64 arithmetic, to nearest with ties to even, for a non-negative
number below the overflow threshold. Numbers are counted in units of 2^-1074, the smallest
positive double, so that every double is a natural number of at most 53 significant bits
and every sum or difference of two doubles is a natural number. -/
def roundDouble (n : ℕ) : ℕ :=
  let s := leadingBit 2097 n - 52
  let q := n / 2 ^ s
  let r := n % 2 ^ s
  if 2 * r < 2 ^ s then q * 2 ^ s
  else if 2 ^ s < 2 * r then (q + 1) * 2 ^ s
  else if q % 2 = 0 then q * 2 ^ s
  else (q + 1) * 2 ^ s

/-- Lines 518-533 in binary64 arithmetic, with d and the opacity in units of 2^-1074: the
sum d + opacity and the difference d - 1 are rounded, the rest is removeRaysStep. -/
def removeRaysStepDouble (cloud : Cloud) (t : Tally) (opacity : ℕ) (self_transient : Bool)
    (st : ℕ × List Bool) (i : ℕ) : ℕ × List Bool :=
  let d := roundDouble (st.1 + opacity)
  if 2 ^ 1074 ≤ d then
    let d1 := roundDouble (d - 2 ^ 1074)
    if !self_transient || decide (cloud.times.getD i default < t.first_intersection_time) ||
        decide (cloud.times.getD i default > t.last_intersection_time) then
      (d1, st.2.set i true)
    else (d1, st.2)
  else (d, st.2)

/-- Lines 351-354 of fillGrid: the parametric distances d[0], d[1], d[2] along the ray
from its start to the next cell boundary of the voxel index on the axes x, y, z. -/
def boundaryDistance (grid : Grid) (w : RayWalk) (index : Vector3i) : Dbl × Dbl × Dbl :=
  let mid := grid.box_min.add
    (Vector3d.smul grid.voxel_width
      ⟨(index.x : ℚ) + 1 / 2, (index.y : ℚ) + 1 / 2, (index.z : ℚ) + 1 / 2⟩)
  let next_boundary := mid.add (Vector3d.smul (1 / 2 * grid.voxel_width) w.dir_sign)
  let delta := next_boundary.sub w.start
  (Dbl.div (Dbl.fin delta.x) (Dbl.fin w.dir.x), Dbl.div (Dbl.fin delta.y) (Dbl.fin w.dir.y),
    Dbl.div (Dbl.fin delta.z) (Dbl.fin w.dir.z))

/-- Squared index distance of a voxel from the start voxel of a ray (line 349). -/
def sqDist (w : RayWalk) (index : Vector3i) : ℤ := (index.sub w.start_index).squaredNorm

/-- Lines 495-534: the decision for an ellipsoid that passed the test of line 464, in
terms of the counters and of sequence_length. -/
def decisionStep (cloud : Cloud) (type : ℕ) (num_rays : ℚ) (self_transient : Bool) (t : Tally)
    (ellipsoid : Ellipsoid) (transients : List Bool) : Ellipsoid × List Bool :=
  if type = 0 ∨ type = 1 then
    if Dbl.lt
        (Dbl.fin ((max (numBefore cloud num_rays self_transient t ellipsoid)
          (numAfter cloud num_rays self_transient t ellipsoid) : ℕ) : ℚ))
        (sequenceLength cloud num_rays self_transient t ellipsoid) then
      (countedEllipsoid cloud num_rays self_transient t ellipsoid, transients)
    else if type = 0 then
      applyRemoval cloud self_transient t
        (Dbl.le (sequenceLength cloud num_rays self_transient t ellipsoid)
          (Dbl.fin (numBefore cloud num_rays self_transient t ellipsoid : ℚ)))
        (countedEllipsoid cloud num_rays self_transient t ellipsoid) transients
    else
      applyRemoval cloud self_transient t
        (Dbl.le (sequenceLength cloud num_rays self_transient t ellipsoid)
          (Dbl.fin (numAfter cloud num_rays self_transient t ellipsoid : ℚ)))
        (countedEllipsoid cloud num_rays self_transient t ellipsoid) transients
  else
    if Dbl.lt
        (Dbl.fin ((numBefore cloud num_rays self_transient t ellipsoid +
          numAfter cloud num_rays self_transient t ellipsoid : ℕ) : ℚ))
        (sequenceLength cloud num_rays self_transient t ellipsoid) then
      (countedEllipsoid cloud num_rays self_transient t ellipsoid, transients)
    else
      applyRemoval cloud self_transient t (decide (type = 2))
        (countedEllipsoid cloud num_rays self_transient t ellipsoid) transients

/-- The counters of nearEllipsoid for the ray of farCloud: no hit, the pass-through ray 0
(see nearEllipsoid_tally). -/
def nearTally : Tally := ⟨0, [0], 10 ^ 10, -(10 ^ 10)⟩

/-- The number of the given pass-through rays whose time is strictly before first. -/
def beforeCount (cloud : Cloud) (passes : List ℕ) (first : ℚ) : ℕ :=
  passes.countP (fun i => decide (cloud.times.getD i default < first))

/-- The number of the given pass-through rays whose time is strictly after last. -/
def afterCount (cloud : Cloud) (passes : List ℕ) (last : ℚ) : ℕ :=
  passes.countP (fun i => decide (cloud.times.getD i default > last))

/-- The number of the given pass-through rays whose time is neither after last nor
before first. -/
def missCount (cloud : Cloud) (passes : List ℕ) (first last : ℚ) : ℕ :=
  passes.countP (fun i => !decide (cloud.times.getD i default > last) &&
    !decide (cloud.times.getD i default < first))

/-- A unit sphere around (1, 0, 0), the end of the ray of farCloud, with opacity 1: the
ray ends in its centre, a hit. -/
def hitEllipsoid : Ellipsoid :=
  { pos := ⟨1, 0, 0⟩, eigen_mat := ⟨⟨1, 0, 0⟩, ⟨0, 1, 0⟩, ⟨0, 0, 1⟩⟩, time := 0,
    extents := ⟨1, 1, 1⟩, opacity := Dbl.fin 1, planarity := Dbl.fin 0, num_rays := 0,
    num_gone := 0, transient := false }

/-- The counters of hitEllipsoid for the ray of farCloud: one hit at time 0, no
pass-through ray (see hitEllipsoid_tally). -/
def hitTally : Tally := ⟨1, [], 0, 0⟩

/-- A cloud of two rays for hitEllipsoid: ray 0 from (0, 0, 0) to (1, 0, 0) ends in the
centre of the sphere at the time 2e10, ray 1 from (3/2, 0, 0) to (5/2, 0, 0) starts inside
the sphere and ends 1/2 behind it at the time 1.5e10. -/
def lateCloud : Cloud :=
  ⟨[⟨0, 0, 0⟩, ⟨3 / 2, 0, 0⟩], [⟨1, 0, 0⟩, ⟨5 / 2, 0, 0⟩], [2 * 10 ^ 10, 15 * 10 ^ 9],
    [⟨0, 0, 0, 255⟩, ⟨0, 0, 0, 255⟩]⟩

/-- A cloud of three rays whose second ray is unbounded (alpha 0). -/
def mixedCloud : Cloud :=
  ⟨[⟨0, 0, 0⟩, ⟨0, 0, 0⟩, ⟨0, 0, 0⟩], [⟨1, 0, 0⟩, ⟨0, 1, 0⟩, ⟨0, 0, 1⟩], [0, 1, 2],
    [⟨255, 0, 0, 255⟩, ⟨0, 0, 0, 0⟩, ⟨0, 0, 255, 255⟩]⟩

/-- The point of the segment from start to endPoint at the fraction s of its length. -/
def segmentPoint (start endPoint : Vector3d) (s : ℚ) : Vector3d :=
  start.add (Vector3d.smul s (endPoint.sub start))

/-- The point p lies inside the ellipsoid: its image under eigen_mat, relative to pos, has
a norm of at most 1. -/
def insideEllipsoid (ellipsoid : Ellipsoid) (p : Vector3d) : Prop :=
  (ellipsoid.eigen_mat.mulVec (p.sub ellipsoid.pos)).squaredNorm ≤ 1

/-- A cloud of one bounded ray from (5, 5, 5) to (6, 5, 5). -/
def awayCloud : Cloud := ⟨[⟨5, 5, 5⟩], [⟨6, 5, 5⟩], [0], [⟨0, 0, 0, 255⟩]⟩

/-- The grid farGrid0 filled with the ray of awayCloud. -/
def awayGrid : Grid := fillGrid farGrid0 awayCloud.starts awayCloud.ends

/-- A unit sphere around (3, 5, 5) with opacity 1: the ray of awayCloud starts one unit
behind it, on a line through its centre, and points away from it. -/
def awayEllipsoid : Ellipsoid :=
  { pos := ⟨3, 5, 5⟩, eigen_mat := ⟨⟨1, 0, 0⟩, ⟨0, 1, 0⟩, ⟨0, 0, 1⟩⟩, time := 0,
    extents := ⟨1, 1, 1⟩, opacity := Dbl.fin 1, planarity := Dbl.fin 0, num_rays := 0,
    num_gone := 0, transient := false }

/-! ## splitPlane (raysplitter.cpp) -/

/-- A point whose coordinates may be non-finite doubles. -/
structure DVector3 where
  x : Dbl
  y : Dbl
  z : Dbl
  deriving DecidableEq

/-- A point with finite coordinates as a DVector3. -/
def DVector3.ofVector (v : Vector3d) : DVector3 := ⟨Dbl.fin v.x, Dbl.fin v.y, Dbl.fin v.z⟩

/-- A ray as splitPlane hands it to Cloud::addRay. -/
structure SplitRay where
  start : DVector3
  endPoint : DVector3
  time : ℚ
  colour : RGBA
  deriving DecidableEq

/-- Line 68 of raysplitter.cpp: plane / plane.dot(plane), for a plane vector that is not
zero. -/
def planeVec (plane : Vector3d) : Vector3d := plane.sdiv (plane.dot plane)

/-- Line 78: the point starts[i] + (ends[i] - starts[i]) * d1 / (d1 - d2), coordinate by
coordinate; the quotient is a double division, whose divisor d1 - d2 may be zero. -/
def cutPoint (start endPoint : Vector3d) (d1 d2 : ℚ) : DVector3 :=
  ⟨Dbl.add (Dbl.fin start.x) (Dbl.div (Dbl.fin ((endPoint.x - start.x) * d1)) (Dbl.fin (d1 - d2))),
    Dbl.add (Dbl.fin start.y) (Dbl.div (Dbl.fin ((endPoint.y - start.y) * d1)) (Dbl.fin (d1 - d2))),
    Dbl.add (Dbl.fin start.z) (Dbl.div (Dbl.fin ((endPoint.z - start.z) * d1)) (Dbl.fin (d1 - d2)))⟩

/-- Lines 71-92 of splitPlane for one ray; the state is in_chunk and out_chunk, and
Cloud::addRay appends one ray to a chunk. -/
def splitPlaneRay (plane_vec : Vector3d) (start endPoint : Vector3d) (time : ℚ)
    (colour : RGBA) (chunks : List SplitRay × List SplitRay) :
    List SplitRay × List SplitRay :=
  let d1 := start.dot plane_vec - 1
  let d2 := endPoint.dot plane_vec - 1
  if d1 * d2 > 0 then
    if d1 > 0 then
      (chunks.1,
        chunks.2 ++ [⟨DVector3.ofVector start, DVector3.ofVector endPoint, time, colour⟩])
    else
      (chunks.1 ++ [⟨DVector3.ofVector start, DVector3.ofVector endPoint, time, colour⟩],
        chunks.2)
  else
    let col : RGBA := { colour with red := 0, green := 0, blue := 0, alpha := 0 }
    let mid := cutPoint start endPoint d1 d2
    if d1 > 0 then
      (chunks.1 ++ [⟨mid, DVector3.ofVector endPoint, time, colour⟩],
        chunks.2 ++ [⟨DVector3.ofVector start, mid, time, col⟩])
    else
      (chunks.1 ++ [⟨DVector3.ofVector start, mid, time, col⟩],
        chunks.2 ++ [⟨mid, DVector3.ofVector endPoint, time, colour⟩])

/-- The function per_chunk of splitPlane (lines 66-93): the rays of one chunk of the
input cloud are distributed to in_chunk and out_chunk, which are empty at the start. The
result is in_chunk and out_chunk as they are handed to the two writers. -/
def splitPlaneChunk (plane : Vector3d) (starts ends : List Vector3d) (times : List ℚ)
    (colours : List RGBA) : List SplitRay × List SplitRay :=
  (List.range ends.length).foldl
    (fun chunks i =>
      splitPlaneRay (planeVec plane) (starts.getD i default) (ends.getD i default)
        (times.getD i default) (colours.getD i default) chunks)
    ([], [])

/-- The value p.dot(plane_vec) - 1 of a point, in double arithmetic: positive outside the
plane, negative inside, 0 on the plane. -/
def planeValue (plane_vec : Vector3d) (p : DVector3) : Dbl :=
  Dbl.sub
    (Dbl.add
      (Dbl.add (Dbl.mul p.x (Dbl.fin plane_vec.x)) (Dbl.mul p.y (Dbl.fin plane_vec.y)))
      (Dbl.mul p.z (Dbl.fin plane_vec.z)))
    (Dbl.fin 1)

/-! ## calculateStarts -/

/-- Modelled from the spec: a node of a Trajectory (raytrajectory.h is not among the
sources), with the two fields that calculateStarts reads, the time and pose.position. -/
structure Node where
  time : ℚ
  position : Vector3d
  deriving DecidableEq

/-- The function std::min(a, b) on doubles: b when b < a, else a. -/
def stdMin (a b : Dbl) : Dbl := if Dbl.lt b a then b else a

/-- The function std::max(a, b) on doubles: b when a < b, else a. -/
def stdMax (a b : Dbl) : Dbl := if Dbl.lt a b then b else a

/-- rayutils.h, clamped: std::max(minValue, std::min(value, maxValue)). -/
def clamped (value minValue maxValue : Dbl) : Dbl := stdMax minValue (stdMin value maxValue)

/-- The while loop of line 85 of calculateStarts, started at n: the value of n after the
loop; none when the loop reads nodes[n] for an n that is not an index of nodes. -/
def advanceNode (nodes : List Node) (time : ℚ) (n : ℕ) : Option ℕ :=
  if h : n < nodes.length then
    if time > (nodes.get ⟨n, h⟩).time ∧ (n : ℤ) < (nodes.length : ℤ) - 1 then
      advanceNode nodes time (n + 1)
    else some n
  else none
termination_by nodes.length - n

/-- Lines 85-90 of calculateStarts for a ray with the given time: the start computed for
the ray and the value of n after it; none when a node is read that does not exist. -/
def calculateStart (nodes : List Node) (time : ℚ) (n : ℕ) : Option (Vector3d × ℕ) :=
  match advanceNode nodes time n with
  | none => none
  | some n2 =>
    match nodes[n2 - 1]?, nodes[n2]? with
    | some a, some b =>
      let blend := Dbl.div (Dbl.fin (time - a.time)) (Dbl.fin (b.time - a.time))
      some
        (a.position.add
          (Vector3d.smul (clamped blend (Dbl.fin 0) (Dbl.fin 1)).toRat
            (b.position.sub a.position)),
          n2)
    | _, _ => none

/-- One round of the loop of lines 83-91; the state is the starts array and n, none after
a read of a node that does not exist. -/
def calculateStartsStep (nodes : List Node) (times : List ℚ)
    (st : Option (List Vector3d × ℕ)) (i : ℕ) : Option (List Vector3d × ℕ) :=
  match st with
  | none => none
  | some s =>
    match calculateStart nodes (times.getD i 0) s.2 with
    | none => none
    | some r => some (s.1.set i r.1, r.2)

/-- Cloud::calculateStarts: the cloud after the call, none when the call reads a node
that does not exist. Without nodes the cloud stays as it is. -/
def Cloud.calculateStarts (c : Cloud) (nodes : List Node) : Option Cloud :=
  if 0 < nodes.length then
    ((List.range c.ends.length).foldl (calculateStartsStep nodes c.times)
      (some (resize c.starts c.ends.length, 1))).map
      (fun s => { c with starts := s.1 })
  else some c

/-! ## Theorems: grid traversal -/

theorem castInt_sgn (q : ℚ) : castInt (sgn q) = 1 ∨ castInt (sgn q) = -1 := by
  unfold sgn castInt
  by_cases h : q > 0
  · left
    simp [h]
  · right
    have h2 : ¬ (0 : ℚ) ≤ -1 := by norm_num
    simp only [h, if_false, h2]
    have : ((-1 : ℚ)) = ((-1 : ℤ) : ℚ) := by norm_num
    rw [this, Int.ceil_intCast]

theorem rayWalk_sign (grid : Grid) (start endPoint : Vector3d) :
    (castInt (rayWalk grid start endPoint).dir_sign.x = 1 ∨
        castInt (rayWalk grid start endPoint).dir_sign.x = -1) ∧
      (castInt (rayWalk grid start endPoint).dir_sign.y = 1 ∨
        castInt (rayWalk grid start endPoint).dir_sign.y = -1) ∧
      (castInt (rayWalk grid start endPoint).dir_sign.z = 1 ∨
        castInt (rayWalk grid start endPoint).dir_sign.z = -1) :=
  ⟨castInt_sgn _, castInt_sgn _, castInt_sgn _⟩

theorem nextIndex_cases (grid : Grid) (w : RayWalk) (index : Vector3i) :
    nextIndex grid w index = { index with x := index.x + castInt w.dir_sign.x } ∨
      nextIndex grid w index = { index with y := index.y + castInt w.dir_sign.y } ∨
      nextIndex grid w index = { index with z := index.z + castInt w.dir_sign.z } := by
  unfold nextIndex
  simp only
  split_ifs <;> simp

theorem nextIndex_adjacent (grid : Grid) (w : RayWalk) (index : Vector3i)
    (hx : castInt w.dir_sign.x = 1 ∨ castInt w.dir_sign.x = -1)
    (hy : castInt w.dir_sign.y = 1 ∨ castInt w.dir_sign.y = -1)
    (hz : castInt w.dir_sign.z = 1 ∨ castInt w.dir_sign.z = -1) :
    Adjacent6 index (nextIndex grid w index) := by
  rcases nextIndex_cases grid w index with h | h | h <;> rw [h] <;> unfold Adjacent6 <;> simp
  · rcases hx with h1 | h1 <;> simp [h1]
  · rcases hy with h1 | h1 <;> simp [h1]
  · rcases hz with h1 | h1 <;> simp [h1]

theorem walk_head_chain (grid : Grid) (w : RayWalk)
    (hx : castInt w.dir_sign.x = 1 ∨ castInt w.dir_sign.x = -1)
    (hy : castInt w.dir_sign.y = 1 ∨ castInt w.dir_sign.y = -1)
    (hz : castInt w.dir_sign.z = 1 ∨ castInt w.dir_sign.z = -1) :
    ∀ (fuel : ℕ) (index : Vector3i) (l : List Vector3i), walk grid w fuel index = some l →
      l.head? = some index ∧ List.Chain' Adjacent6 l := by
  intro fuel
  induction fuel with
  | zero => intro index l h; simp [walk] at h
  | succ n ih =>
    intro index l h
    rw [walk] at h
    split_ifs at h with hc
    · cases h; simp
    · cases hrec : walk grid w n (nextIndex grid w index) with
      | none => simp [hrec] at h
      | some l2 =>
        simp [hrec] at h
        subst h
        obtain ⟨hh, hch⟩ := ih _ _ hrec
        refine ⟨by simp, ?_⟩
        rw [List.chain'_cons']
        refine ⟨?_, hch⟩
        intro y hy2
        rw [hh] at hy2
        cases hy2
        exact nextIndex_adjacent grid w index hx hy hz

theorem int_le_sq_of_unit (a s : ℤ) (hs : s = 1 ∨ s = -1) (h : 0 ≤ a * s) : a * s ≤ a * a := by
  rcases hs with h1 | h1 <;> subst h1
  · rcases (le_iff_eq_or_lt.mp h) with h2 | h2
    · nlinarith
    · nlinarith
  · rcases (le_iff_eq_or_lt.mp h) with h2 | h2
    · nlinarith
    · nlinarith

theorem stepCount_le_squaredNorm (w : RayWalk) (index : Vector3i)
    (hx : castInt w.dir_sign.x = 1 ∨ castInt w.dir_sign.x = -1)
    (hy : castInt w.dir_sign.y = 1 ∨ castInt w.dir_sign.y = -1)
    (hz : castInt w.dir_sign.z = 1 ∨ castInt w.dir_sign.z = -1) (hf : Forward w index) :
    stepCount w index ≤ (index.sub w.start_index).squaredNorm := by
  obtain ⟨h1, h2, h3⟩ := hf
  have a1 := int_le_sq_of_unit _ _ hx h1
  have a2 := int_le_sq_of_unit _ _ hy h2
  have a3 := int_le_sq_of_unit _ _ hz h3
  simp only [stepCount, Vector3i.sub, Vector3i.squaredNorm]
  linarith

theorem nextIndex_forward (grid : Grid) (w : RayWalk) (index : Vector3i)
    (hx : castInt w.dir_sign.x = 1 ∨ castInt w.dir_sign.x = -1)
    (hy : castInt w.dir_sign.y = 1 ∨ castInt w.dir_sign.y = -1)
    (hz : castInt w.dir_sign.z = 1 ∨ castInt w.dir_sign.z = -1) (hf : Forward w index) :
    Forward w (nextIndex grid w index) ∧
      stepCount w (nextIndex grid w index) = stepCount w index + 1 := by
  obtain ⟨h1, h2, h3⟩ := hf
  rcases nextIndex_cases grid w index with h | h | h <;> rw [h] <;>
    simp only [Forward, stepCount]
  · rcases hx with e | e <;> rw [e] at h1 ⊢ <;> refine ⟨⟨?_, h2, h3⟩, ?_⟩ <;> linarith
  · rcases hy with e | e <;> rw [e] at h2 ⊢ <;> refine ⟨⟨h1, ?_, h3⟩, ?_⟩ <;> linarith
  · rcases hz with e | e <;> rw [e] at h3 ⊢ <;> refine ⟨⟨h1, h2, ?_⟩, ?_⟩ <;> linarith

theorem walk_isSome (grid : Grid) (w : RayWalk)
    (hx : castInt w.dir_sign.x = 1 ∨ castInt w.dir_sign.x = -1)
    (hy : castInt w.dir_sign.y = 1 ∨ castInt w.dir_sign.y = -1)
    (hz : castInt w.dir_sign.z = 1 ∨ castInt w.dir_sign.z = -1) :
    ∀ (fuel : ℕ) (index : Vector3i), Forward w index → 1 ≤ fuel →
      w.length_sqr + 2 ≤ (fuel : ℤ) + stepCount w index →
      ∃ l, walk grid w fuel index = some l := by
  intro fuel
  induction fuel with
  | zero => intro index _ h; omega
  | succ n ih =>
    intro index hf _ hb
    rw [walk]
    split_ifs with hc
    · exact ⟨_, rfl⟩
    · have hsq : (index.sub w.start_index).squaredNorm ≤ w.length_sqr := by
        by_contra hgt
        exact hc (Or.inr (not_le.mp hgt))
      have hm := stepCount_le_squaredNorm w index hx hy hz hf
      obtain ⟨hf2, hs2⟩ := nextIndex_forward grid w index hx hy hz hf
      have hn : 1 ≤ n := by
        push_cast at hb
        omega
      obtain ⟨l, hl⟩ := ih (nextIndex grid w index) hf2 hn (by rw [hs2]; push_cast at hb; omega)
      exact ⟨index :: l, by simp [hl]⟩

theorem rayVoxels_isSome (grid : Grid) (start endPoint : Vector3d) :
    ∃ l, rayVoxels grid start endPoint = some l := by
  obtain ⟨hx, hy, hz⟩ := rayWalk_sign grid start endPoint
  unfold rayVoxels
  apply walk_isSome grid _ hx hy hz
  · simp [Forward]
  · omega
  · simp only [stepCount, sub_self, zero_mul, add_zero]
    have := Int.self_le_toNat (rayWalk grid start endPoint).length_sqr
    push_cast
    omega

/-- Claim C3. The voxels into which fillGrid inserts a ray form a 6-connected sequence:
the traversal of every ray ends, and any two consecutive voxels of it differ by exactly one
unit on exactly one axis and agree on the other two. -/
theorem fillGrid_six_connected (grid : Grid) (start endPoint : Vector3d) :
    ∃ l, rayVoxels grid start endPoint = some l ∧ List.Chain' Adjacent6 l := by
  obtain ⟨l, hl⟩ := rayVoxels_isSome grid start endPoint
  obtain ⟨hx, hy, hz⟩ := rayWalk_sign grid start endPoint
  exact ⟨l, hl, (walk_head_chain grid _ hx hy hz _ _ _ hl).2⟩

theorem castInt_one : castInt 1 = 1 := by
  simp [castInt]

theorem castInt_neg_one : castInt (-1) = -1 := by
  have h2 : ¬ (0 : ℚ) ≤ -1 := by norm_num
  have h3 : ((-1 : ℚ)) = ((-1 : ℤ) : ℚ) := by norm_num
  unfold castInt
  rw [if_neg h2, h3, Int.ceil_intCast]

/-- Claim C2, evaluated at two rays. The ray from (0, 0, 0) to (1, 1, 1) in a grid of unit
voxels, whose three next-boundary distances tie, is inserted into the voxels (0, 0, 0),
(0, 0, 1) and (0, 0, 2) only, and the voxel (1, 1, 1) of its end is not among them. The ray
from (0.5, 0.5, 0.5) to (2.5, 0.5, 0.5), whose direction has two zero components, is
inserted into (0, 0, 0), (0, 0, -1), (0, 0, -2) and (0, 0, -3) only, and the voxel (2, 0, 0)
of its end is not among them. -/
theorem fillGrid_misses_end_voxel :
    rayVoxels unitGrid ⟨0, 0, 0⟩ ⟨1, 1, 1⟩ = some [⟨0, 0, 0⟩, ⟨0, 0, 1⟩, ⟨0, 0, 2⟩] ∧
      (rayWalk unitGrid ⟨0, 0, 0⟩ ⟨1, 1, 1⟩).end_index = ⟨1, 1, 1⟩ ∧
      (⟨1, 1, 1⟩ : Vector3i) ∉ [(⟨0, 0, 0⟩ : Vector3i), ⟨0, 0, 1⟩, ⟨0, 0, 2⟩] ∧
      rayVoxels unitGrid ⟨1 / 2, 1 / 2, 1 / 2⟩ ⟨5 / 2, 1 / 2, 1 / 2⟩ =
        some [⟨0, 0, 0⟩, ⟨0, 0, -1⟩, ⟨0, 0, -2⟩, ⟨0, 0, -3⟩] ∧
      (rayWalk unitGrid ⟨1 / 2, 1 / 2, 1 / 2⟩ ⟨5 / 2, 1 / 2, 1 / 2⟩).end_index = ⟨2, 0, 0⟩ ∧
      (⟨2, 0, 0⟩ : Vector3i) ∉
        [(⟨0, 0, 0⟩ : Vector3i), ⟨0, 0, -1⟩, ⟨0, 0, -2⟩, ⟨0, 0, -3⟩] := by
  refine ⟨?_, ?_, by decide, ?_, ?_, by decide⟩
  · simp [rayVoxels, rayWalk, walk, nextIndex, unitGrid, Vector3d.sub, Vector3d.sdiv,
      Vector3i.sub, Vector3i.squaredNorm, Vector3d.add, Vector3d.smul, sgn, Dbl.div, Dbl.lt,
      castInt]
  · simp [rayWalk, unitGrid, Vector3d.sub, Vector3d.sdiv]
  · simp [rayVoxels, rayWalk, walk, nextIndex, unitGrid, Vector3d.sub, Vector3d.sdiv,
      Vector3i.sub, Vector3i.squaredNorm, Vector3d.add, Vector3d.smul, sgn, Dbl.div, Dbl.lt,
      castInt_one, castInt_neg_one]
    norm_num [Dbl.lt, castInt_neg_one, walk, nextIndex, Vector3i.sub, Vector3i.squaredNorm,
      Vector3d.add, Vector3d.smul, Vector3d.sub, Dbl.div]
  · simp [rayWalk, unitGrid, Vector3d.sub, Vector3d.sdiv]
    norm_num

/-! ## Theorems: clouds and lists of rays -/

theorem Cloud.ofRays_WF (l : List Ray) : (Cloud.ofRays l).WF := by
  simp [Cloud.WF, Cloud.ofRays]

theorem Cloud.ofRays_rays (l : List Ray) : (Cloud.ofRays l).rays = l := by
  apply List.ext_getElem
  · simp [Cloud.rays, Cloud.ofRays]
  · intro i h1 h2
    simp [Cloud.rays, Cloud.ofRays, Cloud.rayAt, List.getD_eq_getElem, h2]

theorem Cloud.ofRays_of_WF (c : Cloud) (h : c.WF) : Cloud.ofRays c.rays = c := by
  obtain ⟨h1, h2, h3⟩ := h
  cases c with
  | mk starts ends times colours =>
    simp only at h1 h2 h3
    simp only [Cloud.ofRays, Cloud.rays, List.map_map, Cloud.mk.injEq]
    refine ⟨?_, ?_, ?_, ?_⟩
    · apply List.ext_getElem
      · simp [h1]
      · intro i hi hj
        simp [Cloud.rayAt, List.getD_eq_getElem, hj]
    · apply List.ext_getElem
      · simp
      · intro i hi hj
        simp [Cloud.rayAt, List.getD_eq_getElem, hj]
    · apply List.ext_getElem
      · simp [h2]
      · intro i hi hj
        simp [Cloud.rayAt, List.getD_eq_getElem, hj]
    · apply List.ext_getElem
      · simp [h3]
      · intro i hi hj
        simp [Cloud.rayAt, List.getD_eq_getElem, hj]

theorem Cloud.ofRays_push (l : List Ray) (r : Ray) :
    (Cloud.ofRays l).push r.start r.endPoint r.time r.colour = Cloud.ofRays (l ++ [r]) := by
  simp [Cloud.ofRays, Cloud.push]

theorem Cloud.ofRays_append (l m : List Ray) :
    (Cloud.ofRays l).append (Cloud.ofRays m) = Cloud.ofRays (l ++ m) := by
  simp [Cloud.ofRays, Cloud.append]

theorem swapRemoveAt_map {α β : Type} [Inhabited α] [Inhabited β] (f : α → β)
    (hf : f default = default) (l : List α) (i : ℕ) :
    swapRemoveAt (l.map f) i = (swapRemoveAt l i).map f := by
  unfold swapRemoveAt
  have : (l.map f).getLastD default = f (l.getLastD default) := by
    induction l using List.reverseRecOn with
    | nil => simp [hf]
    | append_singleton l a _ => simp
  rw [this, ← List.map_set, List.map_dropLast]

theorem Cloud.ofRays_swapRemove (l : List Ray) (i : ℕ) :
    (Cloud.ofRays l).swapRemove i = Cloud.ofRays (swapRemoveAt l i) := by
  simp only [Cloud.ofRays, Cloud.swapRemove]
  rw [swapRemoveAt_map (fun r : Ray => r.start) rfl,
    swapRemoveAt_map (fun r : Ray => r.endPoint) rfl,
    swapRemoveAt_map (fun r : Ray => r.time) rfl,
    swapRemoveAt_map (fun r : Ray => r.colour) rfl]

theorem Cloud.ofRays_rayAt (l : List Ray) (i : ℕ) (h : i < l.length) :
    (Cloud.ofRays l).rayAt i = l[i] := by
  simp [Cloud.ofRays, Cloud.rayAt, List.getD_eq_getElem, h]

theorem swapRemoveAt_last {α : Type} [Inhabited α] (A : List α) (x : α) :
    swapRemoveAt (A ++ [x]) A.length = A := by
  simp [swapRemoveAt]

theorem swapRemoveAt_mid {α : Type} [Inhabited α] (A B : List α) (x y : α) :
    swapRemoveAt (A ++ x :: (B ++ [y])) A.length = A ++ y :: B := by
  have h1 : (A ++ x :: (B ++ [y])).getLastD default = y := by
    rw [show A ++ x :: (B ++ [y]) = (A ++ x :: B) ++ [y] by simp, List.getLastD_concat]
  unfold swapRemoveAt
  rw [h1]
  rw [List.set_append_right _ _ (le_refl _)]
  simp
  rw [show y :: (B ++ [y]) = (y :: B) ++ [y] by simp, List.dropLast_concat]

/-! ## Theorems: the filter loops of threeWayMerge -/

theorem getD_append_cons {α : Type} (A : List α) (x : α) (rest : List α) (d : α) :
    (A ++ x :: rest).getD A.length d = x := by
  induction A with
  | nil => simp
  | cons a A ih => simpa using ih

theorem getD_map_append_cons {α β : Type} (f : α → β) (A : List α) (x : α) (rest : List α)
    (d : β) : ((A ++ x :: rest).map f).getD A.length d = f x := by
  have := getD_append_cons (A.map f) (f x) (rest.map f) d
  simpa using this

theorem preFilterLoop_done (o b : List Vector6i) (p : Bool) (A : List Ray) (res : Cloud) :
    preFilterLoop o b p (Cloud.ofRays A) res A.length = (Cloud.ofRays A, res) := by
  rw [preFilterLoop]
  simp [Cloud.ofRays]

theorem pushShared_append (o : List Vector6i) (p : Bool) (res0 : Cloud) (r : List Ray)
    (x : Ray) :
    pushShared o p (res0.append (Cloud.ofRays r)) x =
      res0.append (Cloud.ofRays (r ++ [x].filter (fun y => decide (y.key ∈ o) && p))) := by
  unfold pushShared
  by_cases h : x.key ∈ o ∧ p = true
  · rw [if_pos h]
    simp [Cloud.append, Cloud.push, Cloud.ofRays, h.1, h.2]
  · rw [if_neg h]
    have : (decide (x.key ∈ o) && p) = false := by
      simpa using h
    simp [this]

theorem preFilterLoop_step (o b : List Vector6i) (p : Bool) (A rest : List Ray) (res : Cloud)
    (x : Ray) :
    preFilterLoop o b p (Cloud.ofRays (A ++ x :: rest)) res A.length =
      if x.key ∈ b then
        preFilterLoop o b p (Cloud.ofRays (swapRemoveAt (A ++ x :: rest) A.length))
          (pushShared o p res x) A.length
      else
        preFilterLoop o b p (Cloud.ofRays (A ++ x :: rest)) (pushShared o p res x)
          (A.length + 1) := by
  rw [preFilterLoop]
  have hlt : A.length < (Cloud.ofRays (A ++ x :: rest)).ends.length := by
    simp [Cloud.ofRays]
  rw [dif_pos hlt]
  have e1 : (Cloud.ofRays (A ++ x :: rest)).ends.getD A.length default = x.endPoint :=
    getD_map_append_cons _ A x rest default
  have e2 : (Cloud.ofRays (A ++ x :: rest)).starts.getD A.length default = x.start :=
    getD_map_append_cons _ A x rest default
  have e3 : (Cloud.ofRays (A ++ x :: rest)).times.getD A.length default = x.time :=
    getD_map_append_cons _ A x rest default
  have e4 : (Cloud.ofRays (A ++ x :: rest)).colours.getD A.length default = x.colour :=
    getD_map_append_cons _ A x rest default
  simp only [e1, e2, e3, e4, Cloud.ofRays_swapRemove]
  rfl

theorem preFilterLoop_cloud (o b : List Vector6i) (p : Bool) :
    ∀ (n : ℕ) (A R : List Ray) (res : Cloud), R.length = n →
      ∃ l2,
        (preFilterLoop o b p (Cloud.ofRays (A ++ R)) res A.length).1 = Cloud.ofRays l2 ∧
        l2.Perm (A ++ R.filter (fun x => decide (x.key ∉ b))) := by
  intro n
  induction n with
  | zero =>
    intro A R res hR
    have : R = [] := List.length_eq_zero.mp hR
    subst this
    refine ⟨A, ?_, by simp⟩
    rw [List.append_nil, preFilterLoop_done]
  | succ n ih =>
    intro A R res hR
    cases R with
    | nil => simp at hR
    | cons x rest =>
      have hrest : rest.length = n := by simpa using hR
      rw [preFilterLoop_step]
      by_cases hb : x.key ∈ b
      · rw [if_pos hb]
        rcases List.eq_nil_or_concat rest with h0 | ⟨B, y, hBy⟩
        · subst h0
          rw [swapRemoveAt_last, preFilterLoop_done]
          exact ⟨A, rfl, by simp [hb]⟩
        · subst hBy
          rw [List.concat_eq_append] at hrest ⊢
          rw [swapRemoveAt_mid]
          have hlen : (y :: B).length = n := by simpa using hrest
          obtain ⟨l2, he, hl⟩ := ih A (y :: B) (pushShared o p res x) hlen
          refine ⟨l2, he, hl.trans ?_⟩
          apply List.Perm.append_left
          have hp : (y :: B).Perm (B ++ [y]) := by
            simpa using (List.perm_append_singleton y B).symm
          simpa [hb] using hp.filter (fun x => decide (x.key ∉ b))
      · rw [if_neg hb]
        have hA : (A ++ [x]).length = A.length + 1 := by simp
        obtain ⟨l2, he, hl⟩ := ih (A ++ [x]) rest (pushShared o p res x) hrest
        rw [hA, List.append_assoc] at he
        refine ⟨l2, he, hl.trans ?_⟩
        simp [hb]

theorem preFilterLoop_result (o b : List Vector6i) (p : Bool) (res0 : Cloud) :
    ∀ (n : ℕ) (A R r : List Ray), R.length = n →
      ∃ r2,
        (preFilterLoop o b p (Cloud.ofRays (A ++ R)) (res0.append (Cloud.ofRays r))
            A.length).2 = res0.append (Cloud.ofRays r2) ∧
        r2.Perm (r ++ R.filter (fun x => decide (x.key ∈ o) && p)) := by
  intro n
  induction n with
  | zero =>
    intro A R r hR
    have : R = [] := List.length_eq_zero.mp hR
    subst this
    refine ⟨r, ?_, by simp⟩
    rw [List.append_nil, preFilterLoop_done]
  | succ n ih =>
    intro A R r hR
    cases R with
    | nil => simp at hR
    | cons x rest =>
      have hrest : rest.length = n := by simpa using hR
      rw [preFilterLoop_step, pushShared_append]
      by_cases hb : x.key ∈ b
      · rw [if_pos hb]
        rcases List.eq_nil_or_concat rest with h0 | ⟨B, y, hBy⟩
        · subst h0
          rw [swapRemoveAt_last, preFilterLoop_done]
          exact ⟨_, rfl, by simp⟩
        · subst hBy
          rw [List.concat_eq_append] at hrest ⊢
          rw [swapRemoveAt_mid]
          have hlen : (y :: B).length = n := by simpa using hrest
          obtain ⟨r2, he, hr⟩ := ih A (y :: B)
            (r ++ [x].filter (fun y => decide (y.key ∈ o) && p)) hlen
          refine ⟨r2, he, hr.trans ?_⟩
          rw [List.append_assoc]
          apply List.Perm.append_left
          have hp : (y :: B).Perm (B ++ [y]) := by
            simpa using (List.perm_append_singleton y B).symm
          have := hp.filter (fun x => decide (x.key ∈ o) && p)
          rw [show x :: (B ++ [y]) = [x] ++ (B ++ [y]) by rfl, List.filter_append]
          exact List.Perm.append_left _ this
      · rw [if_neg hb]
        have hA : (A ++ [x]).length = A.length + 1 := by simp
        obtain ⟨r2, he, hr⟩ := ih (A ++ [x]) rest
          (r ++ [x].filter (fun y => decide (y.key ∈ o) && p)) hrest
        rw [hA, List.append_assoc] at he
        refine ⟨r2, he, hr.trans ?_⟩
        rw [List.append_assoc]
        apply List.Perm.append_left
        rw [show x :: rest = [x] ++ rest by rfl, List.filter_append]

theorem rayLookup_mem (c : Cloud) (k : Vector6i) :
    ∀ (n : ℕ) (s : List Vector6i),
      k ∈ (List.range n).foldl
          (fun s i =>
            let ray := rayKey (c.starts.getD i default) (c.ends.getD i default)
            if ray ∈ s then s else s ++ [ray]) s ↔
        k ∈ s ∨ ∃ i, i < n ∧ (c.rayAt i).key = k := by
  intro n
  induction n with
  | zero => intro s; simp
  | succ n ih =>
    intro s
    rw [List.range_succ, List.foldl_append]
    simp only [List.foldl_cons, List.foldl_nil]
    split_ifs with hm
    · rw [ih]
      constructor
      · rintro (h | ⟨i, hi, hk⟩)
        · exact Or.inl h
        · exact Or.inr ⟨i, by omega, hk⟩
      · rintro (h | ⟨i, hi, hk⟩)
        · exact Or.inl h
        · rcases Nat.lt_succ_iff_lt_or_eq.mp hi with h2 | h2
          · exact Or.inr ⟨i, h2, hk⟩
          · subst h2
            subst hk
            exact (ih s).mp hm
    · rw [List.mem_append, ih]
      constructor
      · rintro ((h | ⟨i, hi, hk⟩) | h)
        · exact Or.inl h
        · exact Or.inr ⟨i, by omega, hk⟩
        · refine Or.inr ⟨n, by omega, ?_⟩
          simp only [List.mem_singleton] at h
          simp [Cloud.rayAt, Ray.key, h]
      · rintro (h | ⟨i, hi, hk⟩)
        · exact Or.inl (Or.inl h)
        · rcases Nat.lt_succ_iff_lt_or_eq.mp hi with h2 | h2
          · exact Or.inl (Or.inr ⟨i, h2, hk⟩)
          · subst h2
            right
            simp only [List.mem_singleton]
            simpa [Cloud.rayAt, Ray.key] using hk.symm

theorem mem_rayLookup (c : Cloud) (k : Vector6i) : k ∈ rayLookup c [] ↔ k ∈ c.keys := by
  unfold rayLookup
  rw [rayLookup_mem]
  simp [Cloud.keys, Cloud.rays]

theorem filter_notMem_rayLookup (base : Cloud) (l : List Ray) :
    l.filter (fun x => decide (x.key ∉ rayLookup base [])) =
      l.filter (fun x => decide (x.key ∉ base.keys)) := by
  apply List.filter_congr
  intro x _
  simp [mem_rayLookup]

theorem filter_mem_rayLookup (other : Cloud) (p : Bool) (l : List Ray) :
    l.filter (fun x => decide (x.key ∈ rayLookup other []) && p) =
      l.filter (fun x => decide (x.key ∈ other.keys) && p) := by
  apply List.filter_congr
  intro x _
  simp [mem_rayLookup]

theorem Cloud.append_ofRays_nil (c : Cloud) : c.append (Cloud.ofRays []) = c := by
  simp [Cloud.append, Cloud.ofRays]

theorem Cloud.append_assoc_ofRays (c : Cloud) (l m : List Ray) :
    (c.append (Cloud.ofRays l)).append (Cloud.ofRays m) = c.append (Cloud.ofRays (l ++ m)) := by
  simp [Cloud.append, Cloud.ofRays]

theorem Cloud.empty_append (c : Cloud) : Cloud.empty.append c = c := by
  simp [Cloud.append, Cloud.empty]

theorem preFilter_spec (this base cloud1 cloud2 : Cloud) (h1 : cloud1.WF) (h2 : cloud2.WF)
    (t0 t1 : ℚ) (ht0 : cloud1.times.head? = some t0) (ht1 : cloud2.times.head? = some t1) :
    ∃ m2 l1 l2,
      preFilter this base cloud1 cloud2 =
        some (this.append (Cloud.ofRays m2), Cloud.ofRays l1, Cloud.ofRays l2) ∧
      l1.Perm (cloud1.rays.filter (fun x => decide (x.key ∉ base.keys))) ∧
      l2.Perm (cloud2.rays.filter (fun x => decide (x.key ∉ base.keys))) ∧
      m2.Perm
        (cloud1.rays.filter (fun x => decide (x.key ∈ cloud2.keys) && decide (t0 > t1)) ++
          cloud2.rays.filter (fun x => decide (x.key ∈ cloud1.keys) && !decide (t0 > t1))) := by
  have hp0 : decide (0 = (if t0 > t1 then 0 else 1 : ℕ)) = decide (t0 > t1) := by
    by_cases h : t0 > t1 <;> simp [h]
  have hp1 : decide (1 = (if t0 > t1 then 0 else 1 : ℕ)) = !decide (t0 > t1) := by
    by_cases h : t0 > t1 <;> simp [h]
  unfold preFilter
  simp only [ht0, ht1, hp0, hp1]
  obtain ⟨l1, e1, p1⟩ := preFilterLoop_cloud (rayLookup cloud2 []) (rayLookup base [])
    (decide (t0 > t1)) _ [] cloud1.rays this rfl
  rw [List.nil_append, Cloud.ofRays_of_WF _ h1] at e1
  rw [List.nil_append, filter_notMem_rayLookup] at p1
  obtain ⟨l2, e2, p2⟩ := preFilterLoop_cloud (rayLookup cloud1 []) (rayLookup base [])
    (!decide (t0 > t1)) _ [] cloud2.rays
    (preFilterLoop (rayLookup cloud2 []) (rayLookup base []) (decide (t0 > t1)) cloud1 this
      0).2 rfl
  rw [List.nil_append, Cloud.ofRays_of_WF _ h2] at e2
  rw [List.nil_append, filter_notMem_rayLookup] at p2
  simp only [List.length_nil] at e1 e2
  obtain ⟨r1, f1, q1⟩ := preFilterLoop_result (rayLookup cloud2 []) (rayLookup base [])
    (decide (t0 > t1)) this _ [] cloud1.rays [] rfl
  rw [List.nil_append, Cloud.ofRays_of_WF _ h1, Cloud.append_ofRays_nil] at f1
  simp only [List.length_nil] at f1
  obtain ⟨r2, f2, q2⟩ := preFilterLoop_result (rayLookup cloud1 []) (rayLookup base [])
    (!decide (t0 > t1)) this _ [] cloud2.rays r1 rfl
  rw [List.nil_append, Cloud.ofRays_of_WF _ h2] at f2
  simp only [List.length_nil] at f2
  refine ⟨r2, l1, l2, ?_, p1, p2, ?_⟩
  · rw [← e1, ← e2, ← f2, ← f1]
  · refine q2.trans ?_
    rw [filter_mem_rayLookup] at q1 ⊢
    rw [List.nil_append] at q1
    exact List.Perm.append_right _ q1

theorem times_head_of_WF (c : Cloud) (h : c.WF) (hn : c.ends ≠ []) :
    c.times.head? = some (c.times.getD 0 0) := by
  cases hc : c.times with
  | nil =>
    have := h.2.1
    rw [hc] at this
    exact absurd (List.length_eq_zero.mp this.symm) hn
  | cons a _ => rfl

/-- Claim C9. After the filter loops of threeWayMerge, cloud1 and cloud2 each hold exactly
those of their original rays whose quantised key is absent from the base cloud, as a
multiset of (start, end, time, colour) tuples, and their four arrays still have the same
length. -/
theorem preFilter_keeps_changed_rays (this base cloud1 cloud2 : Cloud) (h1 : cloud1.WF)
    (h2 : cloud2.WF) (hn1 : cloud1.ends ≠ []) (hn2 : cloud2.ends ≠ []) :
    ∃ m c1 c2,
      preFilter this base cloud1 cloud2 = some (m, c1, c2) ∧ c1.WF ∧ c2.WF ∧
      c1.rays.Perm (cloud1.rays.filter (fun x => decide (x.key ∉ base.keys))) ∧
      c2.rays.Perm (cloud2.rays.filter (fun x => decide (x.key ∉ base.keys))) := by
  obtain ⟨m, l1, l2, he, p1, p2, _⟩ := preFilter_spec this base cloud1 cloud2 h1 h2 _ _
    (times_head_of_WF _ h1 hn1) (times_head_of_WF _ h2 hn2)
  refine ⟨_, _, _, he, Cloud.ofRays_WF _, Cloud.ofRays_WF _, ?_, ?_⟩
  · rw [Cloud.ofRays_rays]; exact p1
  · rw [Cloud.ofRays_rays]; exact p2

/-! ## Theorems: lengths of the arrays that the classification passes hand back -/

theorem removeRays_length (cloud : Cloud) (t : Tally) (opacity : Dbl) (self_transient : Bool) :
    ∀ (ids : List ℕ) (st : Dbl × List Bool),
      (ids.foldl (removeRaysStep cloud t opacity self_transient) st).2.length = st.2.length := by
  intro ids
  induction ids with
  | nil => intro st; rfl
  | cons i ids ih =>
    intro st
    rw [List.foldl_cons, ih]
    unfold removeRaysStep
    simp only
    split_ifs <;> simp

theorem applyRemoval_length (cloud : Cloud) (self_transient : Bool) (t : Tally)
    (remove_ellipsoid : Bool) (ellipsoid : Ellipsoid) (transients : List Bool) :
    (applyRemoval cloud self_transient t remove_ellipsoid ellipsoid transients).2.length =
      transients.length := by
  unfold applyRemoval
  split_ifs
  · rfl
  · exact removeRays_length cloud t _ self_transient _ _

theorem decideEllipsoid_length (cloud : Cloud) (type : ℕ) (num_rays : ℚ) (self_transient : Bool)
    (t : Tally) (ellipsoid : Ellipsoid) (transients : List Bool) :
    (decideEllipsoid cloud type num_rays self_transient t ellipsoid transients).2.length =
      transients.length := by
  unfold decideEllipsoid
  simp only
  split_ifs <;> first | rfl | exact applyRemoval_length _ _ _ _ _ _

theorem markEllipsoid_length (X : Libs) (cloud : Cloud) (grid : Grid) (type : ℕ) (num_rays : ℚ)
    (self_transient : Bool) (st : List Bool × List Bool) (ellipsoid : Ellipsoid) :
    (markEllipsoid X cloud grid type num_rays self_transient st ellipsoid).2.1.length =
      st.1.length := by
  unfold markEllipsoid
  split_ifs
  · rfl
  · rfl
  · cases cellRange grid ellipsoid with
    | none => rfl
    | some b => exact decideEllipsoid_length _ _ _ _ _ _ _

theorem markLoop_length (X : Libs) (cloud : Cloud) (grid : Grid) (type : ℕ) (num_rays : ℚ)
    (self_transient : Bool) :
    ∀ (ellipsoids : List Ellipsoid) (st : List Bool × List Bool),
      (markLoop X cloud grid type num_rays self_transient ellipsoids st).2.1.length =
          st.1.length ∧
        (markLoop X cloud grid type num_rays self_transient ellipsoids st).1.length =
          ellipsoids.length := by
  intro ellipsoids
  induction ellipsoids with
  | nil => intro st; exact ⟨rfl, rfl⟩
  | cons e es ih =>
    intro st
    simp only [markLoop, List.length_cons]
    obtain ⟨h1, h2⟩ := ih (markEllipsoid X cloud grid type num_rays self_transient st e).2
    exact ⟨by rw [h1, markEllipsoid_length], by rw [h2]⟩

theorem markIntersectedEllipsoids_length (X : Libs) (cloud : Cloud) (grid : Grid)
    (transients : List Bool) (ellipsoids : List Ellipsoid) (merge_type : String) (num_rays : ℚ)
    (self_transient : Bool) :
    (markIntersectedEllipsoids X cloud grid transients ellipsoids merge_type num_rays
        self_transient).1.length = transients.length ∧
      (markIntersectedEllipsoids X cloud grid transients ellipsoids merge_type num_rays
        self_transient).2.length = ellipsoids.length := by
  unfold markIntersectedEllipsoids
  exact markLoop_length X cloud grid _ num_rays self_transient ellipsoids _

theorem copyMarks_length (n : ℕ) (ellipsoids : List Ellipsoid) (transients : List Bool) :
    (copyMarks n ellipsoids transients).length = transients.length := by
  unfold copyMarks
  induction n with
  | zero => rfl
  | succ n ih =>
    rw [List.range_succ, List.foldl_append]
    simp only [List.foldl_cons, List.foldl_nil]
    split_ifs
    · rw [List.length_set, ih]
    · exact ih

theorem generateEllipsoids_length (X : Libs) (c : Cloud) :
    (generateEllipsoids X c).length = c.ends.length := by
  simp [generateEllipsoids]

theorem threeWayPass_length (X : Libs) (cloud_c cloud_d : Cloud) (grid_c grid_d : Grid)
    (transients_c transients_d : List Bool) (merge_type : String) (num_rays : ℚ) :
    (threeWayPass X cloud_c cloud_d grid_c grid_d transients_c transients_d merge_type
        num_rays).1.length = transients_c.length ∧
      (threeWayPass X cloud_c cloud_d grid_c grid_d transients_c transients_d merge_type
        num_rays).2.length = transients_d.length := by
  unfold threeWayPass
  split_ifs
  · exact ⟨rfl, rfl⟩
  · simp only
    refine ⟨?_, ?_⟩
    · rw [copyMarks_length]
      exact (markIntersectedEllipsoids_length _ _ _ _ _ _ _ _).1
    · exact (markIntersectedEllipsoids_length _ _ _ _ _ _ _ _).1

theorem threeWayTransients_length (X : Libs) (cloud1 cloud2 : Cloud) (merge_type : String)
    (num_rays : ℚ) :
    (threeWayTransients X cloud1 cloud2 merge_type num_rays).1.length = cloud1.ends.length ∧
      (threeWayTransients X cloud1 cloud2 merge_type num_rays).2.length =
        cloud2.ends.length := by
  unfold threeWayTransients
  simp only
  refine ⟨?_, ?_⟩
  · rw [(threeWayPass_length _ _ _ _ _ _ _ _ _).2, (threeWayPass_length _ _ _ _ _ _ _ _ _).1]
    simp
  · rw [(threeWayPass_length _ _ _ _ _ _ _ _ _).1, (threeWayPass_length _ _ _ _ _ _ _ _ _).2]
    simp

/-! ## Theorems: loops that hand out rays -/

theorem foldl_push (f : ℕ → Bool) (g : ℕ → Ray) :
    ∀ (is : List ℕ) (c : Cloud),
      is.foldl
          (fun r i => if f i then r.push (g i).start (g i).endPoint (g i).time (g i).colour else r)
          c =
        c.append (Cloud.ofRays ((is.filter f).map g)) := by
  intro is
  induction is with
  | nil => intro c; simp [Cloud.append_ofRays_nil]
  | cons i is ih =>
    intro c
    rw [List.foldl_cons, ih]
    by_cases h : f i
    · simp [h, Cloud.append, Cloud.push, Cloud.ofRays]
    · simp [h]

theorem foldl_push_pair (f : ℕ → Bool) (g : ℕ → Ray) :
    ∀ (is : List ℕ) (a b : Cloud),
      is.foldl
          (fun (out : Cloud × Cloud) i =>
            if f i then (out.1.push (g i).start (g i).endPoint (g i).time (g i).colour, out.2)
            else (out.1, out.2.push (g i).start (g i).endPoint (g i).time (g i).colour))
          (a, b) =
        (a.append (Cloud.ofRays ((is.filter f).map g)),
          b.append (Cloud.ofRays ((is.filter (fun i => !f i)).map g))) := by
  intro is
  induction is with
  | nil => intro a b; simp [Cloud.append_ofRays_nil]
  | cons i is ih =>
    intro a b
    rw [List.foldl_cons]
    by_cases h : f i
    · simp only [h, if_true]
      rw [ih]
      simp [h, Cloud.append, Cloud.push, Cloud.ofRays]
    · simp only [h]
      rw [ih]
      simp [h, Cloud.append, Cloud.push, Cloud.ofRays]

theorem emitFixed_eq (cloud : Cloud) (transients : List Bool) (result : Cloud) :
    emitFixed cloud transients result =
      result.append
        (Cloud.ofRays
          (((List.range transients.length).filter (fun i => !transients.getD i false)).map
            cloud.rayAt)) :=
  foldl_push (fun i => !transients.getD i false) cloud.rayAt _ result

theorem rayAt_mem_rays (c : Cloud) (i : ℕ) (h : i < c.ends.length) : c.rayAt i ∈ c.rays := by
  unfold Cloud.rays
  exact List.mem_map.mpr ⟨i, List.mem_range.mpr h, rfl⟩

/-! ## Theorems: threeWayMerge -/

theorem filter_key_filter (Q : Vector6i → Bool) (k : Vector6i) (l : List Ray) :
    (l.filter (fun x => Q x.key)).filter (fun x => decide (x.key = k)) =
      if Q k = true then l.filter (fun x => decide (x.key = k)) else [] := by
  rw [List.filter_filter]
  split_ifs with h
  · apply List.filter_congr
    intro x _
    by_cases hx : x.key = k
    · simp [hx, h]
    · simp [hx]
  · rw [List.filter_eq_nil_iff]
    intro x _
    by_cases hx : x.key = k
    · simp [hx, h]
    · simp [hx]

theorem filter_mem_keys_self (c : Cloud) :
    c.rays.filter (fun x => decide (x.key ∈ c.keys)) = c.rays := by
  rw [List.filter_eq_self]
  intro x hx
  simp only [decide_eq_true_eq, Cloud.keys]
  exact List.mem_map_of_mem _ hx

theorem filter_notMem_keys_self (c : Cloud) :
    c.rays.filter (fun x => decide (x.key ∉ c.keys)) = [] := by
  rw [List.filter_eq_nil_iff]
  intro x hx
  simp only [decide_eq_true_eq, Cloud.keys, not_not]
  exact List.mem_map_of_mem _ hx

theorem mergeChanges_spec (X : Libs) (this0 : Cloud) (m2 l1 l2 : List Ray) (merge_type : String)
    (num_rays : ℚ) :
    ∃ e1 e2,
      mergeChanges X (this0.append (Cloud.ofRays m2)) (Cloud.ofRays l1) (Cloud.ofRays l2)
          merge_type num_rays = this0.append (Cloud.ofRays (m2 ++ (e1 ++ e2))) ∧
        (∀ x ∈ e1, x ∈ l1) ∧ (∀ x ∈ e2, x ∈ l2) ∧ (merge_type = "all" → e1 = l1 ∧ e2 = l2) := by
  unfold mergeChanges
  by_cases h : merge_type = "all"
  · rw [if_pos h]
    refine ⟨l1, l2, ?_, fun _ hx => hx, fun _ hx => hx, fun _ => ⟨rfl, rfl⟩⟩
    rw [Cloud.append_assoc_ofRays, Cloud.append_assoc_ofRays]
  · rw [if_neg h]
    simp only
    rw [emitFixed_eq, emitFixed_eq, Cloud.append_assoc_ofRays, Cloud.append_assoc_ofRays]
    obtain ⟨t1, t2⟩ := threeWayTransients_length X (Cloud.ofRays l1) (Cloud.ofRays l2)
      merge_type num_rays
    refine ⟨_, _, rfl, ?_, ?_, fun h2 => absurd h2 h⟩
    · intro x hx
      obtain ⟨i, hi, rfl⟩ := List.mem_map.mp hx
      have hi2 := List.mem_range.mp (List.mem_filter.mp hi).1
      rw [t1] at hi2
      have := rayAt_mem_rays _ i hi2
      rwa [Cloud.ofRays_rays] at this
    · intro x hx
      obtain ⟨i, hi, rfl⟩ := List.mem_map.mp hx
      have hi2 := List.mem_range.mp (List.mem_filter.mp hi).1
      rw [t2] at hi2
      have := rayAt_mem_rays _ i hi2
      rwa [Cloud.ofRays_rays] at this

theorem threeWayMerge_spec (X : Libs) (this base cloud1 cloud2 : Cloud) (merge_type : String)
    (num_rays : ℚ) (h1 : cloud1.WF) (h2 : cloud2.WF) (hn1 : cloud1.ends ≠ [])
    (hn2 : cloud2.ends ≠ []) :
    ∃ m2 l1 l2 e1 e2,
      threeWayMerge X this base cloud1 cloud2 merge_type num_rays =
        some (this.append (Cloud.ofRays (m2 ++ (e1 ++ e2))), Cloud.ofRays l1, Cloud.ofRays l2) ∧
      l1.Perm (cloud1.rays.filter (fun x => decide (x.key ∉ base.keys))) ∧
      l2.Perm (cloud2.rays.filter (fun x => decide (x.key ∉ base.keys))) ∧
      m2.Perm
        (cloud1.rays.filter
            (fun x => decide (x.key ∈ cloud2.keys) &&
              decide (cloud1.times.getD 0 0 > cloud2.times.getD 0 0)) ++
          cloud2.rays.filter
            (fun x => decide (x.key ∈ cloud1.keys) &&
              !decide (cloud1.times.getD 0 0 > cloud2.times.getD 0 0))) ∧
      (∀ x ∈ e1, x ∈ l1) ∧ (∀ x ∈ e2, x ∈ l2) ∧ (merge_type = "all" → e1 = l1 ∧ e2 = l2) := by
  obtain ⟨m2, l1, l2, he, p1, p2, pm⟩ := preFilter_spec this base cloud1 cloud2 h1 h2 _ _
    (times_head_of_WF _ h1 hn1) (times_head_of_WF _ h2 hn2)
  obtain ⟨e1, e2, hm, s1, s2, ha⟩ := mergeChanges_spec X this m2 l1 l2 merge_type num_rays
  refine ⟨m2, l1, l2, e1, e2, ?_, p1, p2, pm, s1, s2, ha⟩
  unfold threeWayMerge
  rw [he]
  simp only [Option.map_some']
  rw [hm]

/-- Claim C1. For a non-empty base cloud, threeWayMerge called on an empty result cloud
with cloud1 and cloud2 both equal to the base returns, for every merge type and every
num_rays, a merged cloud that holds exactly the rays of the base: every (start, end, time,
colour) tuple as often as the base holds it. -/
theorem threeWayMerge_unchanged (X : Libs) (base : Cloud) (merge_type : String) (num_rays : ℚ)
    (hwf : base.WF) (hne : base.ends ≠ []) :
    ∃ merged c1 c2,
      threeWayMerge X Cloud.empty base base base merge_type num_rays = some (merged, c1, c2) ∧
        merged.WF ∧ merged.rays.Perm base.rays := by
  obtain ⟨m2, l1, l2, e1, e2, he, p1, p2, pm, s1, s2, _⟩ :=
    threeWayMerge_spec X Cloud.empty base base base merge_type num_rays hwf hwf hne hne
  rw [filter_notMem_keys_self] at p1 p2
  have hl1 : l1 = [] := List.Perm.eq_nil p1
  have hl2 : l2 = [] := List.Perm.eq_nil p2
  subst hl1 hl2
  have he1 : e1 = [] := List.eq_nil_iff_forall_not_mem.mpr (fun x hx => by simpa using s1 x hx)
  have he2 : e2 = [] := List.eq_nil_iff_forall_not_mem.mpr (fun x hx => by simpa using s2 x hx)
  subst he1 he2
  rw [Cloud.empty_append, List.append_nil, List.append_nil] at he
  refine ⟨_, _, _, he, Cloud.ofRays_WF _, ?_⟩
  rw [Cloud.ofRays_rays]
  refine pm.trans ?_
  have hlt : ¬ (base.times.getD 0 0 > base.times.getD 0 0) := lt_irrefl _
  simp only [hlt, decide_False, Bool.and_false, Bool.not_false, Bool.and_true,
    List.filter_false, List.nil_append]
  rw [filter_mem_keys_self]

theorem ends_ne_nil_of_mem_keys (c : Cloud) (k : Vector6i) (h : k ∈ c.keys) : c.ends ≠ [] := by
  intro h0
  simp [Cloud.keys, Cloud.rays, h0] at h

theorem filter_key_of_subset_changed (base : Cloud) (k : Vector6i) (hb : k ∈ base.keys)
    (e l : List Ray) (orig : List Ray)
    (hp : l.Perm (orig.filter (fun x => decide (x.key ∉ base.keys)))) (hs : ∀ x ∈ e, x ∈ l) :
    e.filter (fun r => decide (r.key = k)) = [] := by
  rw [List.filter_eq_nil_iff]
  intro x hx
  have h1 := (hp.mem_iff).mp (hs x hx)
  have h2 := (List.mem_filter.mp h1).2
  simp only [decide_eq_true_eq] at h2 ⊢
  intro hk
  exact h2 (hk ▸ hb)

theorem shared_rays_eq (cloud1 cloud2 : Cloud) :
    cloud1.rays.filter
          (fun x => decide (x.key ∈ cloud2.keys) &&
            decide (cloud1.times.getD 0 0 > cloud2.times.getD 0 0)) ++
        cloud2.rays.filter
          (fun x => decide (x.key ∈ cloud1.keys) &&
            !decide (cloud1.times.getD 0 0 > cloud2.times.getD 0 0)) =
      (preferredCloud cloud1 cloud2).rays.filter
        (fun x => decide (x.key ∈ (otherCloud cloud1 cloud2).keys)) := by
  unfold preferredCloud otherCloud
  by_cases h : cloud1.times.getD 0 0 > cloud2.times.getD 0 0
  · rw [if_pos h, if_pos h, decide_eq_true h]
    simp
  · rw [if_neg h, if_neg h, decide_eq_false h]
    simp

/-- Claim C8. For a key that occurs in the base cloud, in cloud1 and in cloud2, the rays
with that key that threeWayMerge adds to the merged cloud are exactly the rays with that key
of the preferred cloud (cloud1 if cloud1.times[0] > cloud2.times[0], otherwise cloud2), one
copy per occurrence, for every merge type. -/
theorem threeWayMerge_shared_key (X : Libs) (this base cloud1 cloud2 : Cloud)
    (merge_type : String) (num_rays : ℚ) (k : Vector6i) (h1 : cloud1.WF) (h2 : cloud2.WF)
    (hb : k ∈ base.keys) (hk1 : k ∈ cloud1.keys) (hk2 : k ∈ cloud2.keys) :
    ∃ added c1 c2,
      threeWayMerge X this base cloud1 cloud2 merge_type num_rays =
        some (this.append (Cloud.ofRays added), c1, c2) ∧
      (added.filter (fun r => decide (r.key = k))).Perm
        ((preferredCloud cloud1 cloud2).rays.filter (fun r => decide (r.key = k))) ∧
      added.countP (fun r => decide (r.key = k)) =
        (preferredCloud cloud1 cloud2).rays.countP (fun r => decide (r.key = k)) := by
  obtain ⟨m2, l1, l2, e1, e2, he, p1, p2, pm, s1, s2, _⟩ :=
    threeWayMerge_spec X this base cloud1 cloud2 merge_type num_rays h1 h2
      (ends_ne_nil_of_mem_keys _ k hk1) (ends_ne_nil_of_mem_keys _ k hk2)
  have hperm : ((m2 ++ (e1 ++ e2)).filter (fun r => decide (r.key = k))).Perm
      ((preferredCloud cloud1 cloud2).rays.filter (fun r => decide (r.key = k))) := by
    rw [List.filter_append, List.filter_append,
      filter_key_of_subset_changed base k hb e1 l1 _ p1 s1,
      filter_key_of_subset_changed base k hb e2 l2 _ p2 s2, List.append_nil, List.append_nil]
    refine (pm.filter _).trans ?_
    rw [shared_rays_eq,
      filter_key_filter (fun key => decide (key ∈ (otherCloud cloud1 cloud2).keys)) k]
    have : k ∈ (otherCloud cloud1 cloud2).keys := by
      unfold otherCloud
      split_ifs
      · exact hk2
      · exact hk1
    simp [this]
  refine ⟨_, _, _, he, hperm, ?_⟩
  rw [List.countP_eq_length_filter, List.countP_eq_length_filter]
  exact hperm.length_eq

/-- Claim C10. With merge type all, the rays that threeWayMerge adds to the merged cloud
are, as a multiset, the rays of the preferred cloud whose key occurs in the other cloud,
the rays of cloud1 whose key is absent from the base and the rays of cloud2 whose key is
absent from the base; the number of added copies of a key is the sum of the three counts. -/
theorem threeWayMerge_all (X : Libs) (this base cloud1 cloud2 : Cloud) (num_rays : ℚ)
    (h1 : cloud1.WF) (h2 : cloud2.WF) (hn1 : cloud1.ends ≠ []) (hn2 : cloud2.ends ≠ []) :
    ∃ added c1 c2,
      threeWayMerge X this base cloud1 cloud2 "all" num_rays =
        some (this.append (Cloud.ofRays added), c1, c2) ∧
      added.Perm
        ((preferredCloud cloud1 cloud2).rays.filter
            (fun x => decide (x.key ∈ (otherCloud cloud1 cloud2).keys)) ++
          (cloud1.rays.filter (fun x => decide (x.key ∉ base.keys)) ++
            cloud2.rays.filter (fun x => decide (x.key ∉ base.keys)))) ∧
      ∀ k : Vector6i,
        added.countP (fun r => decide (r.key = k)) =
          (if k ∈ (otherCloud cloud1 cloud2).keys then
              (preferredCloud cloud1 cloud2).rays.countP (fun r => decide (r.key = k))
            else 0) +
            ((if k ∉ base.keys then cloud1.rays.countP (fun r => decide (r.key = k)) else 0) +
              (if k ∉ base.keys then cloud2.rays.countP (fun r => decide (r.key = k))
                else 0)) := by
  obtain ⟨m2, l1, l2, e1, e2, he, p1, p2, pm, _, _, ha⟩ :=
    threeWayMerge_spec X this base cloud1 cloud2 "all" num_rays h1 h2 hn1 hn2
  obtain ⟨ha1, ha2⟩ := ha rfl
  subst ha1 ha2
  rw [shared_rays_eq] at pm
  have hperm := pm.append (p1.append p2)
  refine ⟨_, _, _, he, hperm, ?_⟩
  intro k
  rw [hperm.countP_eq, List.countP_append, List.countP_append]
  simp only [List.countP_eq_length_filter]
  rw [filter_key_filter (fun key => decide (key ∈ (otherCloud cloud1 cloud2).keys)) k,
    filter_key_filter (fun key => decide (key ∉ base.keys)) k,
    filter_key_filter (fun key => decide (key ∉ base.keys)) k]
  simp only [decide_eq_true_eq]
  split_ifs <;> simp

/-! ## Theorems: findTransients and combine hand out every ray once -/

theorem length_filter_add_not {α : Type} (f : α → Bool) (l : List α) :
    (l.filter f).length + (l.filter (fun a => !f a)).length = l.length := by
  induction l with
  | nil => rfl
  | cons a l ih =>
    by_cases h : f a
    · simp [h]; omega
    · simp [h]; omega

/-- Claim C6. The loop of findTransients hands every ray of the cloud to exactly one of the
two output clouds: the transient cloud receives, in index order, the rays whose ellipsoid is
marked transient or whose transients entry is set, the fixed cloud receives the others in
index order; every ray keeps its start, end and time, and its colour when colour_cloud is
false; the two outputs grow by the ray count of the cloud together. -/
theorem findTransients_partition (X : Libs) (cloud transient fixed : Cloud)
    (merge_type : String) (num_rays : ℚ) (colour_cloud : Bool) :
    findTransients X cloud transient fixed merge_type num_rays colour_cloud =
        (transient.append
            (Cloud.ofRays
              (((List.range cloud.ends.length).filter
                (transientFlag X cloud merge_type num_rays)).map
                (transientRay X cloud merge_type num_rays colour_cloud))),
          fixed.append
            (Cloud.ofRays
              (((List.range cloud.ends.length).filter
                (fun i => !transientFlag X cloud merge_type num_rays i)).map
                (transientRay X cloud merge_type num_rays colour_cloud)))) ∧
      (∀ i, (transientRay X cloud merge_type num_rays colour_cloud i).start =
            cloud.starts.getD i default ∧
          (transientRay X cloud merge_type num_rays colour_cloud i).endPoint =
            cloud.ends.getD i default ∧
          (transientRay X cloud merge_type num_rays colour_cloud i).time =
            cloud.times.getD i default ∧
          (colour_cloud = false →
            (transientRay X cloud merge_type num_rays colour_cloud i).colour =
              cloud.colours.getD i default)) ∧
      (((List.range cloud.ends.length).filter (transientFlag X cloud merge_type num_rays)).map
            (transientRay X cloud merge_type num_rays colour_cloud)).length +
          (((List.range cloud.ends.length).filter
            (fun i => !transientFlag X cloud merge_type num_rays i)).map
            (transientRay X cloud merge_type num_rays colour_cloud)).length =
        cloud.ends.length := by
  refine ⟨?_, ?_, ?_⟩
  · have hlen : (findTransientsMarks X cloud merge_type num_rays).2.length =
        cloud.ends.length := by
      unfold findTransientsMarks
      rw [(markIntersectedEllipsoids_length _ _ _ _ _ _ _ _).2, generateEllipsoids_length]
    unfold findTransients
    simp only [hlen]
    exact foldl_push_pair (transientFlag X cloud merge_type num_rays)
      (transientRay X cloud merge_type num_rays colour_cloud) _ transient fixed
  · intro i
    refine ⟨rfl, rfl, rfl, ?_⟩
    intro h
    simp [transientRay, transientColour, h]
  · simp only [List.length_map]
    have := length_filter_add_not (transientFlag X cloud merge_type num_rays)
      (List.range cloud.ends.length)
    simpa using this

theorem combineStep_foldl (cloud : Cloud) (t : List Bool) (a b : Cloud) :
    (List.range cloud.ends.length).foldl (combineStep cloud t) (a, b) =
      (a.append
          (Cloud.ofRays
            (((List.range cloud.ends.length).filter (fun i => !t.getD i false)).map
              cloud.rayAt)),
        b.append
          (Cloud.ofRays
            (((List.range cloud.ends.length).filter (fun i => t.getD i false)).map
              cloud.rayAt))) := by
  have h := foldl_push_pair (fun i => !t.getD i false) cloud.rayAt
    (List.range cloud.ends.length) a b
  simp only [Bool.not_not] at h
  rw [← h]
  congr 1
  funext out i
  unfold combineStep
  cases t.getD i false <;> rfl

theorem combineEmit_foldl (clouds : List Cloud) (transients : List (List Bool)) :
    ∀ (cs : List ℕ) (a b : Cloud),
      cs.foldl
          (fun o c =>
            (List.range (clouds.getD c default).ends.length).foldl
              (combineStep (clouds.getD c default) (transients.getD c [])) o)
          (a, b) =
        (a.append (Cloud.ofRays (cs.flatMap (combineShare clouds transients true))),
          b.append (Cloud.ofRays (cs.flatMap (combineShare clouds transients false)))) := by
  intro cs
  induction cs with
  | nil => intro a b; simp [Cloud.append_ofRays_nil]
  | cons c cs ih =>
    intro a b
    rw [List.foldl_cons, combineStep_foldl, ih, Cloud.append_assoc_ofRays,
      Cloud.append_assoc_ofRays]
    simp [combineShare]

theorem combineShare_length (clouds : List Cloud) (transients : List (List Bool)) :
    ∀ (cs : List ℕ),
      (cs.flatMap (combineShare clouds transients true)).length +
          (cs.flatMap (combineShare clouds transients false)).length =
        (cs.map (fun c => (clouds.getD c default).ends.length)).sum := by
  intro cs
  induction cs with
  | nil => rfl
  | cons c cs ih =>
    have h := length_filter_add_not (fun i => !(transients.getD c []).getD i false)
      (List.range (clouds.getD c default).ends.length)
    simp only [Bool.not_not, List.length_range] at h
    simp only [List.flatMap_cons, List.length_append, List.map_cons, List.sum_cons, combineShare,
      List.length_map, if_true] at ih ⊢
    simp only [Bool.false_eq_true, if_false] at ih ⊢
    omega

theorem combine_eq (X : Libs) (this : Cloud) (clouds : List Cloud) (differences : Cloud)
    (merge_type : String) (num_rays : ℚ) :
    combine X this clouds differences merge_type num_rays =
      (this.append
          (Cloud.ofRays
            ((List.range clouds.length).flatMap
              (combineShare clouds (combineTransients X clouds merge_type num_rays) true))),
        differences.append
          (Cloud.ofRays
            ((List.range clouds.length).flatMap
              (combineShare clouds (combineTransients X clouds merge_type num_rays)
                false)))) := by
  unfold combine combineEmit
  exact combineEmit_foldl clouds _ _ this differences

/-- Claim C7. The last loop of combine hands every ray of every input cloud to exactly one
of the two outputs: to differences if and only if its entry of the transients arrays is set
after the classification passes, otherwise to the merged cloud; within each output the rays
come cloud by cloud in index order, unchanged, and the two outputs grow by the total number
of input rays together. -/
theorem combine_partition (X : Libs) (this : Cloud) (clouds : List Cloud) (differences : Cloud)
    (merge_type : String) (num_rays : ℚ) :
    combine X this clouds differences merge_type num_rays =
        (this.append
            (Cloud.ofRays
              ((List.range clouds.length).flatMap
                (combineShare clouds (combineTransients X clouds merge_type num_rays) true))),
          differences.append
            (Cloud.ofRays
              ((List.range clouds.length).flatMap
                (combineShare clouds (combineTransients X clouds merge_type num_rays)
                  false)))) ∧
      ((List.range clouds.length).flatMap
            (combineShare clouds (combineTransients X clouds merge_type num_rays) true)).length +
          ((List.range clouds.length).flatMap
            (combineShare clouds (combineTransients X clouds merge_type num_rays) false)).length =
        (clouds.map (fun c => c.ends.length)).sum := by
  refine ⟨combine_eq X this clouds differences merge_type num_rays, ?_⟩
  rw [combineShare_length]
  congr 1
  apply List.ext_getElem
  · simp
  · intro i h1 h2
    simp only [List.length_map, List.length_range] at h1
    simp [List.getD_eq_getElem, h1]

/-! ## Theorems: the candidate rays of an ellipsoid -/

theorem getD_set_bool (t : List Bool) (i j : ℕ) (b : Bool) :
    (t.set i b).getD j false = if i = j ∧ i < t.length then b else t.getD j false := by
  simp only [List.getD_eq_getElem?_getD, List.getElem?_set]
  by_cases h : i = j
  · subst h
    by_cases h2 : i < t.length
    · simp [h2]
    · simp [h2]
      rw [List.getElem?_eq_none (by omega)]
      rfl
  · simp [h]

theorem getD_true_lt (t : List Bool) (j : ℕ) (h : t.getD j false = true) : j < t.length := by
  by_contra hn
  rw [List.getD_eq_default _ _ (by omega)] at h
  exact Bool.false_ne_true h

theorem GatherInv.lt {n : ℕ} {st : List Bool × List ℕ} (h : GatherInv n st) :
    ∀ j ∈ st.2, j < n := by
  intro j hj
  have := getD_true_lt _ _ ((h.2.2 j).mp hj)
  rw [h.1] at this
  exact this

theorem gatherCell_inv (n : ℕ) :
    ∀ (list : List ℕ) (st : List Bool × List ℕ), (∀ i ∈ list, i < n) → GatherInv n st →
      GatherInv n (gatherCell list st) := by
  intro list
  induction list with
  | nil => intro st _ h; exact h
  | cons i list ih =>
    intro st hl h
    unfold gatherCell
    rw [List.foldl_cons]
    apply ih _ (fun k hk => hl k (List.mem_cons_of_mem _ hk))
    obtain ⟨h1, h2, h3⟩ := h
    by_cases ht : st.1.getD i false = true
    · simp only [ht, if_true]
      exact ⟨h1, h2, h3⟩
    · simp only [ht]
      have hi : i < st.1.length := by rw [h1]; exact hl i (List.mem_cons_self _ _)
      have hni : i ∉ st.2 := fun hmem => ht ((h3 i).mp hmem)
      refine ⟨by simp [h1], ?_, ?_⟩
      · exact List.Nodup.append h2 (List.nodup_singleton i) (by simpa using hni)
      · intro j
        simp only [Bool.false_eq_true, if_false, List.mem_append, List.mem_singleton,
          getD_set_bool, hi, and_true]
        by_cases hij : i = j
        · simp [hij]
        · simp only [hij, if_false, ← h3 j]
          constructor
          · rintro (h | h)
            · exact h
            · exact absurd h.symm hij
          · exact fun h => Or.inl h

theorem gatherRays_inv (grid : Grid) (n : ℕ) (hg : ∀ v, ∀ i ∈ grid.cells v, i < n)
    (bmin bmax : Vector3i) (ray_tested : List Bool) (h : GatherInv n (ray_tested, [])) :
    GatherInv n (gatherRays grid bmin bmax ray_tested) := by
  unfold gatherRays
  have key : ∀ (xs : List ℤ) (st : List Bool × List ℕ), GatherInv n st →
      GatherInv n (xs.foldl
        (fun st x =>
          (intRange bmin.y bmax.y).foldl
            (fun st y =>
              (intRange bmin.z bmax.z).foldl (fun st z => gatherCell (grid.cell x y z) st) st)
            st) st) := by
    intro xs
    induction xs with
    | nil => intro st h; exact h
    | cons x xs ihx =>
      intro st h
      rw [List.foldl_cons]
      apply ihx
      have keyy : ∀ (ys : List ℤ) (st : List Bool × List ℕ), GatherInv n st →
          GatherInv n (ys.foldl
            (fun st y =>
              (intRange bmin.z bmax.z).foldl (fun st z => gatherCell (grid.cell x y z) st) st)
            st) := by
        intro ys
        induction ys with
        | nil => intro st h; exact h
        | cons y ys ihy =>
          intro st h
          rw [List.foldl_cons]
          apply ihy
          have keyz : ∀ (zs : List ℤ) (st : List Bool × List ℕ), GatherInv n st →
              GatherInv n (zs.foldl (fun st z => gatherCell (grid.cell x y z) st) st) := by
            intro zs
            induction zs with
            | nil => intro st h; exact h
            | cons z zs ihz =>
              intro st h
              rw [List.foldl_cons]
              exact ihz _ (gatherCell_inv n _ _ (hg _) h)
          exact keyz _ _ h
      exact keyy _ _ h
  exact key _ _ h

theorem gatherInv_init (n : ℕ) : GatherInv n (List.replicate n false, []) := by
  refine ⟨by simp, List.nodup_nil, ?_⟩
  intro j
  simp only [List.not_mem_nil, false_iff]
  by_cases hj : j < n
  · simp [List.getD_eq_getElem, hj]
  · rw [List.getD_eq_default _ _ (by simp; omega)]
    simp

theorem resetTested_getD :
    ∀ (ids : List ℕ) (t : List Bool) (j : ℕ),
      (resetTested ids t).length = t.length ∧
        (resetTested ids t).getD j false = if j ∈ ids then false else t.getD j false := by
  intro ids
  induction ids with
  | nil => intro t j; simp [resetTested]
  | cons i ids ih =>
    intro t j
    unfold resetTested at ih ⊢
    rw [List.foldl_cons]
    obtain ⟨h1, h2⟩ := ih (t.set i false) j
    refine ⟨by rw [h1, List.length_set], ?_⟩
    rw [h2, getD_set_bool]
    by_cases hij : i = j
    · subst hij
      by_cases hm : i ∈ ids
      · simp [hm]
      · simp only [hm, if_false, List.mem_cons, true_or, if_true, true_and]
        split_ifs with hlt
        · rfl
        · rw [List.getD_eq_default _ _ (by omega)]
    · have : (j ∈ i :: ids) ↔ j ∈ ids := by
        simp only [List.mem_cons]
        constructor
        · rintro (h | h)
          · exact absurd h.symm hij
          · exact h
        · exact fun h => Or.inr h
      simp only [hij, false_and, if_false, this]

theorem resetTested_inv (n : ℕ) (st : List Bool × List ℕ) (h : GatherInv n st) :
    resetTested st.2 st.1 = List.replicate n false := by
  apply List.ext_getElem
  · rw [(resetTested_getD st.2 st.1 0).1, h.1, List.length_replicate]
  · intro j h1 h2
    have := (resetTested_getD st.2 st.1 j).2
    rw [List.getD_eq_getElem _ _ h1] at this
    rw [this, List.getElem_replicate]
    split_ifs with hm
    · rfl
    · cases hb : st.1.getD j false with
      | false => rfl
      | true => exact absurd ((h.2.2 j).mpr hb) hm

theorem gatherInv_length_le (n : ℕ) (st : List Bool × List ℕ) (h : GatherInv n st) :
    st.2.length ≤ n := by
  have hsub : st.2 ⊆ List.range n := fun j hj => List.mem_range.mpr (h.lt j hj)
  have := (List.subperm_of_subset h.2.1 hsub).length_le
  simpa using this

theorem tally_pass_length (X : Libs) (cloud : Cloud) (ellipsoid : Ellipsoid) :
    ∀ (ids : List ℕ) (t : Tally),
      (ids.foldl (tallyRay X cloud ellipsoid) t).pass_through_ids.length ≤
        t.pass_through_ids.length + ids.length := by
  intro ids
  induction ids with
  | nil => intro t; simp
  | cons i ids ih =>
    intro t
    rw [List.foldl_cons]
    refine (ih _).trans ?_
    unfold tallyRay
    cases classifyRay X cloud ellipsoid i <;> simp
    all_goals omega

/-! ## Theorems: the grid of a cloud holds ray indices of the cloud only -/

theorem insert_cells_lt (n : ℕ) (g : Grid) (x y z : ℤ) (i : ℕ) (hi : i < n)
    (hg : ∀ v, ∀ k ∈ g.cells v, k < n) : ∀ v, ∀ k ∈ (g.insert x y z i).cells v, k < n := by
  intro v k hk
  unfold Grid.insert at hk
  simp only at hk
  split_ifs at hk with hv
  · rcases List.mem_append.mp hk with h | h
    · exact hg v k h
    · rw [List.mem_singleton.mp h]; exact hi
  · exact hg v k hk

theorem insert_voxels_lt (n : ℕ) (i : ℕ) (hi : i < n) :
    ∀ (vs : List Vector3i) (g : Grid), (∀ v, ∀ k ∈ g.cells v, k < n) →
      ∀ v, ∀ k ∈ (vs.foldl (fun g2 u => g2.insert u.x u.y u.z i) g).cells v, k < n := by
  intro vs
  induction vs with
  | nil => intro g hg; exact hg
  | cons u vs ih =>
    intro g hg
    rw [List.foldl_cons]
    exact ih _ (insert_cells_lt n g _ _ _ i hi hg)

theorem fillGrid_cells_lt (grid : Grid) (starts ends : List Vector3d)
    (hg : ∀ v, ∀ k ∈ grid.cells v, k < ends.length) :
    ∀ v, ∀ k ∈ (fillGrid grid starts ends).cells v, k < ends.length := by
  unfold fillGrid
  have key : ∀ (is : List ℕ) (g : Grid), (∀ i ∈ is, i < ends.length) →
      (∀ v, ∀ k ∈ g.cells v, k < ends.length) →
      ∀ v, ∀ k ∈ (is.foldl
        (fun g i =>
          ((rayVoxels grid (starts.getD i default) (ends.getD i default)).getD []).foldl
            (fun g2 v => g2.insert v.x v.y v.z i) g) g).cells v, k < ends.length := by
    intro is
    induction is with
    | nil => intro g _ hg; exact hg
    | cons i is ih =>
      intro g his hg
      rw [List.foldl_cons]
      apply ih _ (fun k hk => his k (List.mem_cons_of_mem _ hk))
      exact insert_voxels_lt _ i (his i (List.mem_cons_self _ _)) _ g hg
  exact key _ grid (fun i hi => List.mem_range.mp hi) hg

theorem cloudGrid_cells_lt (X : Libs) (cloud : Cloud) :
    ∀ v, ∀ k ∈ (cloudGrid X cloud).cells v, k < cloud.ends.length := by
  unfold cloudGrid
  apply fillGrid_cells_lt
  intro v k hk
  simp [Grid.init] at hk

/-! ## Theorems: the decision with num_rays = 0 and the cross-cloud decision that follows -/

theorem decideEllipsoid_zero (cloud : Cloud) (type : ℕ) (self_transient : Bool) (t : Tally)
    (ellipsoid : Ellipsoid) (transients : List Bool) :
    decideEllipsoid cloud type 0 self_transient t ellipsoid transients =
      ({ ellipsoid with
          num_rays := t.hits + t.pass_through_ids.length
          opacity := Dbl.div (Dbl.fin (t.hits : ℚ))
            (Dbl.fin ((t.hits : ℚ) + (t.pass_through_ids.length : ℚ))) },
        transients) := by
  unfold decideEllipsoid
  simp

theorem countBeforeAfter_cross (cloud : Cloud) (t : Tally) (ellipsoid : Ellipsoid) :
    (countBeforeAfter cloud false t ellipsoid).1 = ellipsoid ∧
      (countBeforeAfter cloud false t ellipsoid).2.1 +
          (countBeforeAfter cloud false t ellipsoid).2.2 = t.pass_through_ids.length := by
  unfold countBeforeAfter
  simp only [Bool.false_eq_true, if_false]
  split_ifs with h1 h2
  · exact ⟨rfl, by simp⟩
  · exact ⟨rfl, by simp⟩
  · refine ⟨rfl, ?_⟩
    have : t.pass_through_ids.length = 0 := by omega
    simp [this]

theorem decideEllipsoid_min_large (cloud : Cloud) (num_rays : ℚ) (t : Tally)
    (ellipsoid : Ellipsoid) (transients : List Bool) (htr : ellipsoid.transient = false)
    (hop : ellipsoid.opacity = Dbl.div (Dbl.fin (t.hits : ℚ))
      (Dbl.fin ((t.hits : ℚ) + (t.pass_through_ids.length : ℚ))))
    (hn : (t.pass_through_ids.length : ℚ) < num_rays) :
    (decideEllipsoid cloud 2 num_rays false t ellipsoid transients).2 = transients ∧
      (decideEllipsoid cloud 2 num_rays false t ellipsoid transients).1.transient = false := by
  have hN : 0 < num_rays := lt_of_le_of_lt (Nat.cast_nonneg _) hn
  have hN0 : num_rays ≠ 0 := ne_of_gt hN
  unfold decideEllipsoid
  simp only [hN0, Bool.false_eq_true, or_self, if_false, or_false]
  have hc := countBeforeAfter_cross cloud t
    { ellipsoid with num_rays := t.hits + t.pass_through_ids.length }
  generalize countBeforeAfter cloud false t
    { ellipsoid with num_rays := t.hits + t.pass_through_ids.length } = r at hc ⊢
  obtain ⟨hc1, hc2⟩ := hc
  by_cases hg : t.hits + t.pass_through_ids.length = 0 ∨
      ellipsoid.opacity.eq (Dbl.fin 0) = true
  · rw [if_pos hg]
    exact ⟨rfl, htr⟩
  · rw [if_neg hg, if_neg (by decide : ¬((2 : ℕ) = 0 ∨ (2 : ℕ) = 1))]
    have hz : ((t.hits : ℚ) + (t.pass_through_ids.length : ℚ)) ≠ 0 := by
      intro h0
      apply hg
      left
      have : ((t.hits + t.pass_through_ids.length : ℕ) : ℚ) = 0 := by push_cast; exact h0
      exact_mod_cast this
    have hh : (t.hits : ℚ) ≠ 0 := by
      intro h0
      apply hg
      right
      rw [hop]
      simp only [Dbl.div, hz, if_false]
      simp [Dbl.eq, h0]
    have hhpos : (0 : ℚ) < t.hits := lt_of_le_of_ne (Nat.cast_nonneg _) (Ne.symm hh)
    have hq0 : (t.hits : ℚ) / ((t.hits : ℚ) + (t.pass_through_ids.length : ℚ)) ≠ 0 :=
      div_ne_zero hh hz
    have hp : (0 : ℚ) ≤ (t.pass_through_ids.length : ℚ) := Nat.cast_nonneg _
    have hlt : (Dbl.fin ((r.2.1 + r.2.2 : ℕ) : ℚ)).lt ((Dbl.fin num_rays).div r.1.opacity) =
        true := by
      rw [hc1, hc2]
      simp only [hop, Dbl.div, hz, if_false, hq0, Dbl.lt, decide_eq_true_eq]
      rw [div_div_eq_mul_div, lt_div_iff₀ hhpos]
      nlinarith
    rw [if_pos hlt, hc1]
    exact ⟨rfl, htr⟩

theorem applyRemoval_opacity (cloud : Cloud) (self_transient : Bool) (t : Tally)
    (remove_ellipsoid : Bool) (ellipsoid : Ellipsoid) (transients : List Bool) :
    (applyRemoval cloud self_transient t remove_ellipsoid ellipsoid transients).1.opacity =
      ellipsoid.opacity := by
  unfold applyRemoval
  split_ifs <;> rfl

theorem ratio_mem_unit (a b : ℚ) (ha : 0 ≤ a) (hb : 0 ≤ b) (hab : a + b ≠ 0) :
    Dbl.div (Dbl.fin a) (Dbl.fin (a + b)) = Dbl.fin (a / (a + b)) ∧ 0 ≤ a / (a + b) ∧
      a / (a + b) ≤ 1 := by
  have hpos : 0 < a + b := lt_of_le_of_ne (add_nonneg ha hb) (Ne.symm hab)
  refine ⟨by simp [Dbl.div, hab], div_nonneg ha (le_of_lt hpos), ?_⟩
  rw [div_le_one hpos]
  linarith

/-- The opacity that markIntersectedEllipsoids leaves on an ellipsoid with at least one hit
or pass-through ray lies in [0, 1], given that it did so before. -/
theorem decideEllipsoid_opacity_bound (cloud : Cloud) (type : ℕ) (num_rays : ℚ)
    (self_transient : Bool) (t : Tally) (ellipsoid : Ellipsoid) (transients : List Bool)
    (q0 : ℚ) (he : ellipsoid.opacity = Dbl.fin q0) (h0 : 0 ≤ q0 ∧ q0 ≤ 1)
    (hpos : 0 < t.hits + t.pass_through_ids.length) :
    ∃ q, (decideEllipsoid cloud type num_rays self_transient t ellipsoid transients).1.opacity =
        Dbl.fin q ∧ 0 ≤ q ∧ q ≤ 1 := by
  have hsum : ((t.hits : ℚ) + (t.pass_through_ids.length : ℚ)) ≠ 0 := by
    have : (0 : ℚ) < ((t.hits + t.pass_through_ids.length : ℕ) : ℚ) := by exact_mod_cast hpos
    push_cast at this
    exact ne_of_gt this
  have hr0 := ratio_mem_unit (t.hits : ℚ) (t.pass_through_ids.length : ℚ) (Nat.cast_nonneg _)
    (Nat.cast_nonneg _) hsum
  unfold decideEllipsoid
  simp only
  by_cases hm : num_rays = 0 ∨ self_transient = true
  · simp only [hm, if_true]
    by_cases hg : t.hits + t.pass_through_ids.length = 0 ∨
        Dbl.eq (Dbl.div (Dbl.fin (t.hits : ℚ))
          (Dbl.fin ((t.hits : ℚ) + (t.pass_through_ids.length : ℚ)))) (Dbl.fin 0) = true ∨
        num_rays = 0
    · rw [if_pos hg]
      exact ⟨_, hr0.1, hr0.2⟩
    · rw [if_neg hg]
      have hself : self_transient = true := by
        rcases hm with h | h
        · exact absurd (Or.inr (Or.inr h)) hg
        · exact h
      have hhits : (t.hits : ℚ) ≠ 0 := by
        intro hz
        apply hg
        right; left
        rw [hr0.1]
        simp [Dbl.eq, hz]
      have hh1 : (1 : ℚ) ≤ t.hits := by
        have : t.hits ≠ 0 := by exact_mod_cast hhits
        exact_mod_cast Nat.one_le_iff_ne_zero.mpr this
      have hr : ∃ q, (countBeforeAfter cloud self_transient t
          { ellipsoid with
            num_rays := t.hits + t.pass_through_ids.length
            opacity := Dbl.div (Dbl.fin (t.hits : ℚ))
              (Dbl.fin ((t.hits : ℚ) + (t.pass_through_ids.length : ℚ))) }).1.opacity =
          Dbl.fin q ∧ 0 ≤ q ∧ q ≤ 1 := by
        unfold countBeforeAfter
        simp only [hself, if_true]
        have hpos2 : (0 : ℚ) ≤ (t.hits : ℚ) + 1 / 10 ^ 8 - 1 := by
          have : (0 : ℚ) < 1 / 10 ^ 8 := by norm_num
          linarith
        have hne : ((t.hits : ℚ) + 1 / 10 ^ 8 - 1) +
            (((t.pass_through_ids.foldl (passStatsStep cloud t) ⟨0, 0, 0⟩).misses : ℕ) : ℚ) ≠
              0 := by
          have h1 : (0 : ℚ) < 1 / 10 ^ 8 := by norm_num
          have h2 : (0 : ℚ) ≤
              (((t.pass_through_ids.foldl (passStatsStep cloud t) ⟨0, 0, 0⟩).misses : ℕ) : ℚ) :=
            Nat.cast_nonneg _
          intro hz
          linarith
        have := ratio_mem_unit _ _ hpos2 (Nat.cast_nonneg
          (t.pass_through_ids.foldl (passStatsStep cloud t) ⟨0, 0, 0⟩).misses) hne
        exact ⟨_, this.1, this.2⟩
      generalize countBeforeAfter cloud self_transient t
          { ellipsoid with
            num_rays := t.hits + t.pass_through_ids.length
            opacity := Dbl.div (Dbl.fin (t.hits : ℚ))
              (Dbl.fin ((t.hits : ℚ) + (t.pass_through_ids.length : ℚ))) } = r at hr ⊢
      split_ifs <;> first | exact hr | (rw [applyRemoval_opacity]; exact hr)
  · simp only [hm, if_false]
    have hself : self_transient = false := by
      cases self_transient
      · rfl
      · exact absurd (Or.inr rfl) hm
    subst hself
    split_ifs <;>
      first
        | exact ⟨q0, he, h0⟩
        | (rw [(countBeforeAfter_cross _ _ _).1]; exact ⟨q0, he, h0⟩)
        | (rw [applyRemoval_opacity, (countBeforeAfter_cross _ _ _).1]; exact ⟨q0, he, h0⟩)

theorem cellTally_pass_le (X : Libs) (cloud : Cloud) (grid : Grid)
    (hg : ∀ v, ∀ i ∈ grid.cells v, i < cloud.ends.length) (ellipsoid : Ellipsoid)
    (b : Vector3i × Vector3i) :
    (cellTally X cloud grid ellipsoid b).pass_through_ids.length ≤ cloud.ends.length := by
  unfold cellTally
  have h1 := tally_pass_length X cloud ellipsoid
    (gatherRays grid b.1 b.2 (List.replicate cloud.ends.length false)).2 Tally.init
  have h2 := gatherInv_length_le _ _
    (gatherRays_inv grid _ hg b.1 b.2 _ (gatherInv_init cloud.ends.length))
  have h0 : Tally.init.pass_through_ids.length = 0 := rfl
  rw [h0] at h1
  omega

theorem markEllipsoid_some (X : Libs) (cloud : Cloud) (grid : Grid)
    (hg : ∀ v, ∀ i ∈ grid.cells v, i < cloud.ends.length) (type : ℕ) (num_rays : ℚ)
    (self_transient : Bool) (transients : List Bool) (ellipsoid : Ellipsoid)
    (b : Vector3i × Vector3i) (h1 : ellipsoid.transient = false)
    (h2 : ellipsoid.extents ≠ Vector3d.zero) (h3 : cellRange grid ellipsoid = some b) :
    markEllipsoid X cloud grid type num_rays self_transient
        (transients, List.replicate cloud.ends.length false) ellipsoid =
      ((decideEllipsoid cloud type num_rays self_transient (cellTally X cloud grid ellipsoid b)
          ellipsoid transients).1,
        ((decideEllipsoid cloud type num_rays self_transient (cellTally X cloud grid ellipsoid b)
          ellipsoid transients).2, List.replicate cloud.ends.length false)) := by
  unfold markEllipsoid
  rw [if_neg (by simp [h1]), if_neg h2, h3]
  simp only
  rw [resetTested_inv cloud.ends.length _
    (gatherRays_inv grid _ hg b.1 b.2 _ (gatherInv_init cloud.ends.length))]
  rfl

theorem markEllipsoid_zero_state (X : Libs) (cloud : Cloud) (grid : Grid)
    (hg : ∀ v, ∀ i ∈ grid.cells v, i < cloud.ends.length) (type : ℕ) (self_transient : Bool)
    (transients : List Bool) (ellipsoid : Ellipsoid) :
    (markEllipsoid X cloud grid type 0 self_transient
        (transients, List.replicate cloud.ends.length false) ellipsoid).2 =
      (transients, List.replicate cloud.ends.length false) := by
  by_cases h1 : ellipsoid.transient = true
  · unfold markEllipsoid
    rw [if_pos h1]
  · by_cases h2 : ellipsoid.extents = Vector3d.zero
    · unfold markEllipsoid
      rw [if_neg h1, if_pos h2]
    · cases h3 : cellRange grid ellipsoid with
      | none =>
        unfold markEllipsoid
        rw [if_neg h1, if_neg h2, h3]
      | some b =>
        rw [markEllipsoid_some X cloud grid hg type 0 self_transient transients ellipsoid b
          (by simpa using h1) h2 h3, decideEllipsoid_zero]

theorem markEllipsoid_zero_then_min (X : Libs) (cloud : Cloud) (grid : Grid)
    (hg : ∀ v, ∀ i ∈ grid.cells v, i < cloud.ends.length) (type : ℕ) (num_rays : ℚ)
    (hn : (cloud.ends.length : ℚ) < num_rays) (t1 t2 : List Bool) (ellipsoid : Ellipsoid)
    (h1 : ellipsoid.transient = false) :
    (markEllipsoid X cloud grid 2 num_rays false
          (t2, List.replicate cloud.ends.length false)
          (markEllipsoid X cloud grid type 0 false
            (t1, List.replicate cloud.ends.length false) ellipsoid).1).2 =
        (t2, List.replicate cloud.ends.length false) ∧
      (markEllipsoid X cloud grid 2 num_rays false
          (t2, List.replicate cloud.ends.length false)
          (markEllipsoid X cloud grid type 0 false
            (t1, List.replicate cloud.ends.length false) ellipsoid).1).1.transient = false := by
  by_cases h2 : ellipsoid.extents = Vector3d.zero
  · have e1 : (markEllipsoid X cloud grid type 0 false
        (t1, List.replicate cloud.ends.length false) ellipsoid).1 = ellipsoid := by
      unfold markEllipsoid
      rw [if_neg (by simp [h1]), if_pos h2]
    rw [e1]
    unfold markEllipsoid
    rw [if_neg (by simp [h1]), if_pos h2]
    exact ⟨rfl, h1⟩
  · cases h3 : cellRange grid ellipsoid with
    | none =>
      have e1 : (markEllipsoid X cloud grid type 0 false
          (t1, List.replicate cloud.ends.length false) ellipsoid).1 = ellipsoid := by
        unfold markEllipsoid
        rw [if_neg (by simp [h1]), if_neg h2, h3]
      rw [e1]
      unfold markEllipsoid
      rw [if_neg (by simp [h1]), if_neg h2, h3]
      exact ⟨rfl, h1⟩
    | some b =>
      rw [markEllipsoid_some X cloud grid hg type 0 false t1 ellipsoid b h1 h2 h3,
        decideEllipsoid_zero]
      simp only
      have hle := cellTally_pass_le X cloud grid hg ellipsoid b
      have hcast : ((cellTally X cloud grid ellipsoid b).pass_through_ids.length : ℚ) <
          num_rays := lt_of_le_of_lt (by exact_mod_cast hle) hn
      have key : ∀ e1 : Ellipsoid, e1.transient = false → e1.extents ≠ Vector3d.zero →
          cellRange grid e1 = some b →
          cellTally X cloud grid e1 b = cellTally X cloud grid ellipsoid b →
          e1.opacity = Dbl.div (Dbl.fin ((cellTally X cloud grid ellipsoid b).hits : ℚ))
            (Dbl.fin (((cellTally X cloud grid ellipsoid b).hits : ℚ) +
              ((cellTally X cloud grid ellipsoid b).pass_through_ids.length : ℚ))) →
          (markEllipsoid X cloud grid 2 num_rays false
              (t2, List.replicate cloud.ends.length false) e1).2 =
            (t2, List.replicate cloud.ends.length false) ∧
          (markEllipsoid X cloud grid 2 num_rays false
              (t2, List.replicate cloud.ends.length false) e1).1.transient = false := by
        intro e1 g1 g2 g3 g4 g5
        rw [markEllipsoid_some X cloud grid hg 2 num_rays false t2 e1 b g1 g2 g3, g4]
        have := decideEllipsoid_min_large cloud num_rays (cellTally X cloud grid ellipsoid b)
          e1 t2 g1 g5 hcast
        exact ⟨by rw [this.1], this.2⟩
      exact key _ h1 h2 h3 rfl rfl

theorem markLoop_zero (X : Libs) (cloud : Cloud) (grid : Grid)
    (hg : ∀ v, ∀ i ∈ grid.cells v, i < cloud.ends.length) (type : ℕ) (self_transient : Bool)
    (transients : List Bool) :
    ∀ (ellipsoids : List Ellipsoid),
      markLoop X cloud grid type 0 self_transient ellipsoids
          (transients, List.replicate cloud.ends.length false) =
        (ellipsoids.map
            (fun e =>
              (markEllipsoid X cloud grid type 0 self_transient
                (transients, List.replicate cloud.ends.length false) e).1),
          (transients, List.replicate cloud.ends.length false)) := by
  intro ellipsoids
  induction ellipsoids with
  | nil => rfl
  | cons e es ih =>
    simp only [markLoop, List.map_cons]
    rw [markEllipsoid_zero_state X cloud grid hg, ih]

theorem markLoop_zero_then_min (X : Libs) (cloud : Cloud) (grid : Grid)
    (hg : ∀ v, ∀ i ∈ grid.cells v, i < cloud.ends.length) (type : ℕ) (num_rays : ℚ)
    (hn : (cloud.ends.length : ℚ) < num_rays) (t1 t2 : List Bool) :
    ∀ (ellipsoids : List Ellipsoid), (∀ e ∈ ellipsoids, e.transient = false) →
      (markLoop X cloud grid 2 num_rays false
            (ellipsoids.map
              (fun e =>
                (markEllipsoid X cloud grid type 0 false
                  (t1, List.replicate cloud.ends.length false) e).1))
            (t2, List.replicate cloud.ends.length false)).2 =
          (t2, List.replicate cloud.ends.length false) ∧
        ∀ e ∈ (markLoop X cloud grid 2 num_rays false
            (ellipsoids.map
              (fun e =>
                (markEllipsoid X cloud grid type 0 false
                  (t1, List.replicate cloud.ends.length false) e).1))
            (t2, List.replicate cloud.ends.length false)).1, e.transient = false := by
  intro ellipsoids
  induction ellipsoids with
  | nil => intro _; exact ⟨rfl, by simp [markLoop]⟩
  | cons e es ih =>
    intro h
    obtain ⟨a1, a2⟩ := markEllipsoid_zero_then_min X cloud grid hg type num_rays hn t1 t2 e
      (h e (List.mem_cons_self _ _))
    obtain ⟨b1, b2⟩ := ih (fun x hx => h x (List.mem_cons_of_mem _ hx))
    simp only [List.map_cons, markLoop]
    rw [a1]
    refine ⟨b1, ?_⟩
    intro x hx
    rcases List.mem_cons.mp hx with hx1 | hx1
    · rw [hx1]; exact a2
    · exact b2 x hx1

theorem mergeTypeCode_min : mergeTypeCode "min" = 2 := by decide

theorem mark_zero_then_min (X : Libs) (cloud : Cloud) (grid : Grid)
    (hg : ∀ v, ∀ i ∈ grid.cells v, i < cloud.ends.length) (merge_type : String) (num_rays : ℚ)
    (hn : (cloud.ends.length : ℚ) < num_rays) (t1 t2 : List Bool) (ellipsoids : List Ellipsoid)
    (h : ∀ e ∈ ellipsoids, e.transient = false) :
    (markIntersectedEllipsoids X cloud grid t1 ellipsoids merge_type 0 false).1 = t1 ∧
      (markIntersectedEllipsoids X cloud grid t2
          (markIntersectedEllipsoids X cloud grid t1 ellipsoids merge_type 0 false).2 "min"
          num_rays false).1 = t2 ∧
      ∀ e ∈ (markIntersectedEllipsoids X cloud grid t2
          (markIntersectedEllipsoids X cloud grid t1 ellipsoids merge_type 0 false).2 "min"
          num_rays false).2, e.transient = false := by
  unfold markIntersectedEllipsoids
  simp only [markLoop_zero X cloud grid hg, mergeTypeCode_min]
  obtain ⟨a, b⟩ := markLoop_zero_then_min X cloud grid hg (mergeTypeCode merge_type) num_rays hn
    t1 t2 ellipsoids h
  exact ⟨trivial, by rw [a], b⟩

theorem copyMarks_none (n : ℕ) (ellipsoids : List Ellipsoid) (transients : List Bool)
    (h : ∀ e ∈ ellipsoids, e.transient = false) : copyMarks n ellipsoids transients = transients := by
  unfold copyMarks
  induction n with
  | zero => rfl
  | succ n ih =>
    rw [List.range_succ, List.foldl_append, ih]
    simp only [List.foldl_cons, List.foldl_nil]
    have : (ellipsoids.getD n default).transient = false := by
      by_cases hn : n < ellipsoids.length
      · rw [List.getD_eq_getElem _ _ hn]
        exact h _ (List.getElem_mem _)
      · rw [List.getD_eq_default _ _ (by omega)]
        rfl
    rw [if_neg (by rw [this]; exact Bool.false_ne_true)]

theorem generateEllipsoids_not_transient (X : Libs) (c : Cloud) :
    ∀ e ∈ generateEllipsoids X c, e.transient = false := by
  intro e he
  unfold generateEllipsoids at he
  obtain ⟨i, _, rfl⟩ := List.mem_map.mp he
  unfold generateEllipsoid
  simp only
  split_ifs <;> rfl

theorem combinePass_self_min (X : Libs) (C : Cloud) (num_rays : ℚ)
    (hn : (C.ends.length : ℚ) < num_rays) (c : ℕ) (hc : c < 2) :
    combinePass X [C, C] [cloudGrid X C, cloudGrid X C] "min" num_rays
        [List.replicate C.ends.length false, List.replicate C.ends.length false] c =
      [List.replicate C.ends.length false, List.replicate C.ends.length false] := by
  have hK := mark_zero_then_min X C (cloudGrid X C) (cloudGrid_cells_lt X C) "min" num_rays hn
    (List.replicate C.ends.length false) (List.replicate C.ends.length false)
    (generateEllipsoids X C) (generateEllipsoids_not_transient X C)
  obtain ⟨k1, k2, k3⟩ := hK
  have hc2 : c = 0 ∨ c = 1 := by omega
  rcases hc2 with rfl | rfl
  · unfold combinePass
    simp only [List.getD_cons_zero, List.length_cons, List.length_nil, List.range_succ,
      List.range_zero, List.nil_append, List.cons_append, List.foldl_cons, List.foldl_nil,
      combineCross, if_true, k1, List.set_cons_zero]
    simp only [show ¬ (1 = 0) by decide, if_false, List.getD_cons_succ, List.getD_cons_zero, k2,
      List.set_cons_succ, List.set_cons_zero]
    rw [copyMarks_none _ _ _ k3]
  · unfold combinePass
    simp only [List.getD_cons_zero, List.getD_cons_succ, List.length_cons, List.length_nil,
      List.range_succ, List.range_zero, List.nil_append, List.cons_append, List.foldl_cons,
      List.foldl_nil, combineCross, if_true, k1, List.set_cons_zero, List.set_cons_succ]
    simp only [show ¬ (0 = 1) by decide, if_false, List.getD_cons_succ, List.getD_cons_zero, k2,
      List.set_cons_succ, List.set_cons_zero]
    rw [copyMarks_none _ _ _ k3]

/-- Claim C5. Combining a cloud with an identical copy of itself with merge type min and
num_rays above the number of rays of the cloud sets no entry of the transients arrays and
puts no ray into differences. -/
theorem combine_self_min (X : Libs) (this C differences : Cloud) (num_rays : ℚ)
    (hn : (C.ends.length : ℚ) < num_rays) :
    combineTransients X [C, C] "min" num_rays =
        [List.replicate C.ends.length false, List.replicate C.ends.length false] ∧
      (combine X this [C, C] differences "min" num_rays).2 = differences := by
  have ht : combineTransients X [C, C] "min" num_rays =
      [List.replicate C.ends.length false, List.replicate C.ends.length false] := by
    unfold combineTransients
    simp only [List.length_cons, List.length_nil, List.range_succ, List.range_zero,
      List.nil_append, List.cons_append, List.foldl_cons, List.foldl_nil, List.map_cons,
      List.map_nil, zero_add]
    rw [combinePass_self_min X C num_rays hn 0 (by decide),
      combinePass_self_min X C num_rays hn 1 (by decide)]
  refine ⟨ht, ?_⟩
  rw [combine_eq X this [C, C] differences "min" num_rays, ht]
  simp only
  have : ∀ c, combineShare [C, C]
      [List.replicate C.ends.length false, List.replicate C.ends.length false] false c = [] := by
    intro c
    unfold combineShare
    simp only [Bool.false_eq_true, if_false, List.map_eq_nil_iff, List.filter_eq_nil_iff]
    intro i _
    have h2 : ∀ (l : List (List Bool)), (∀ t ∈ l, ∀ b ∈ t, b = false) →
        (l.getD c []).getD i false = false := by
      intro l hl
      have h3 : ∀ b ∈ l.getD c [], b = false := by
        by_cases h1 : c < l.length
        · rw [List.getD_eq_getElem _ _ h1]
          exact hl _ (List.getElem_mem _)
        · rw [List.getD_eq_default _ _ (by omega)]
          simp
      by_cases h4 : i < (l.getD c []).length
      · rw [List.getD_eq_getElem _ _ h4]
        exact h3 _ (List.getElem_mem _)
      · rw [List.getD_eq_default _ _ (by omega)]
    rw [h2]
    · simp
    · intro t ht2 b hb
      simp only [List.mem_cons, List.mem_singleton, List.not_mem_nil, or_false, or_self] at ht2
      subst ht2
      exact List.eq_of_mem_replicate hb
  rw [List.flatMap_eq_nil_iff.mpr (fun c _ => this c), Cloud.append_ofRays_nil]

/-! ## Theorems: an ellipsoid without hits and without pass-through rays -/

theorem farGrid_voxels : rayVoxels farGrid0 ⟨0, 0, 0⟩ ⟨1, 0, 0⟩ = some [⟨0, 0, 0⟩] := by
  simp [rayVoxels, rayWalk, walk, farGrid0, Vector3d.sub, Vector3d.sdiv, Vector3i.sub,
    Vector3i.squaredNorm]
  norm_num

theorem farGrid_eq : farGrid = farGrid0.insert 0 0 0 0 := by
  have r1 : List.range 1 = [0] := rfl
  unfold farGrid fillGrid farCloud
  simp only [List.length_singleton, r1, List.foldl_cons, List.foldl_nil, List.getD_cons_zero]
  rw [farGrid_voxels]
  rfl

theorem farGrid_cell : farGrid.cell 0 0 0 = [0] := by
  rw [farGrid_eq]
  simp [Grid.cell, Grid.insert, farGrid0]

theorem farEllipsoid_cellRange :
    cellRange farGrid farEllipsoid = some (⟨0, 0, 0⟩, ⟨0, 0, 0⟩) := by
  rw [farGrid_eq]
  unfold cellRange
  simp only [Grid.insert, farGrid0, farEllipsoid, Vector3d.sub, Vector3d.add, Vector3d.sdiv,
    Vector3i.maxVector, Vector3i.minVector, castInt]
  norm_num

theorem farEllipsoid_classify : classifyRay sampleLibs farCloud farEllipsoid 0 = RayClass.miss := by
  simp [classifyRay, farCloud, farEllipsoid, sampleLibs, Matrix3d.mulVec, Vector3d.sub,
    Vector3d.dot, Vector3d.squaredNorm, Dbl.div, Dbl.mul, Dbl.sub, Dbl.add, Dbl.neg, Dbl.lt]
  norm_num

/-- Claim C4, evaluated at an ellipsoid without hits and without pass-through rays: the
ellipsoid farEllipsoid has non-zero extents and opacity 1, its only candidate ray misses
it, and markIntersectedEllipsoids leaves it with the opacity 0/0 = NaN, in self-comparison
mode and in cross-cloud mode with num_rays = 0; NaN is neither at least 0 nor at most 1. -/
theorem markIntersectedEllipsoids_opacity_nan :
    (markIntersectedEllipsoids sampleLibs farCloud farGrid [false] [farEllipsoid] "min" 1
        true).2 = [{ farEllipsoid with opacity := Dbl.nan }] ∧
      (markIntersectedEllipsoids sampleLibs farCloud farGrid [false] [farEllipsoid] "min" 0
        false).2 = [{ farEllipsoid with opacity := Dbl.nan }] ∧
      farEllipsoid.extents ≠ Vector3d.zero ∧
      Dbl.le (Dbl.fin 0) Dbl.nan = false ∧ Dbl.le Dbl.nan (Dbl.fin 1) = false := by
  have r0 : intRange 0 0 = [0] := by decide
  have hrep : List.replicate farCloud.ends.length false = [false] := rfl
  have hg : (gatherRays farGrid ⟨0, 0, 0⟩ ⟨0, 0, 0⟩ [false]) = ([true], [0]) := by
    simp only [gatherRays, r0, List.foldl_cons, List.foldl_nil, farGrid_cell, gatherCell]
    rfl
  have ht : cellTally sampleLibs farCloud farGrid farEllipsoid (⟨0, 0, 0⟩, ⟨0, 0, 0⟩) =
      Tally.init := by
    unfold cellTally
    rw [hrep, hg]
    simp only [List.foldl_cons, List.foldl_nil]
    unfold tallyRay
    rw [farEllipsoid_classify]
  have hx : farEllipsoid.extents ≠ Vector3d.zero := by
    simp [farEllipsoid, Vector3d.zero]
  have hc : ∀ v, ∀ i ∈ farGrid.cells v, i < farCloud.ends.length := by
    apply fillGrid_cells_lt
    intro v k hk
    simp [farGrid0] at hk
  have hm : ∀ (num_rays : ℚ) (self_transient : Bool),
      (markIntersectedEllipsoids sampleLibs farCloud farGrid [false] [farEllipsoid] "min"
        num_rays self_transient).2 =
      [(decideEllipsoid farCloud 2 num_rays self_transient Tally.init farEllipsoid [false]).1] := by
    intro num_rays self_transient
    unfold markIntersectedEllipsoids
    simp only [markLoop, mergeTypeCode_min]
    rw [markEllipsoid_some sampleLibs farCloud farGrid hc 2 num_rays self_transient [false]
      farEllipsoid _ rfl hx farEllipsoid_cellRange, ht]
  refine ⟨?_, ?_, hx, rfl, rfl⟩
  · rw [hm]
    simp [farEllipsoid, decideEllipsoid, Tally.init, Dbl.div]
  · rw [hm]
    simp [farEllipsoid, decideEllipsoid, Tally.init, Dbl.div]

/-! ## Theorems at concrete inputs -/

theorem sampleCloud_WF : sampleCloud.WF := by decide

theorem sampleCloud_ne : sampleCloud.ends ≠ [] := by simp [sampleCloud]

theorem sampleCloud_key_mem : (sampleCloud.rayAt 0).key ∈ sampleCloud.keys :=
  List.mem_map_of_mem _ (rayAt_mem_rays sampleCloud 0 (by decide))

/-- Claim C1 at the cloud sampleCloud, merge type min and num_rays 1. -/
theorem threeWayMerge_unchanged_witness :
    sampleCloud.WF ∧ sampleCloud.ends ≠ [] ∧
      ∃ merged c1 c2,
        threeWayMerge sampleLibs Cloud.empty sampleCloud sampleCloud sampleCloud "min" 1 =
          some (merged, c1, c2) ∧
        merged.WF ∧ merged.rays.Perm sampleCloud.rays :=
  ⟨sampleCloud_WF, sampleCloud_ne,
    threeWayMerge_unchanged sampleLibs sampleCloud "min" 1 sampleCloud_WF sampleCloud_ne⟩

/-- Claim C5 at the cloud sampleCloud of two rays and num_rays 3. -/
theorem combine_self_min_witness :
    ((sampleCloud.ends.length : ℚ) < 3) ∧
      combineTransients sampleLibs [sampleCloud, sampleCloud] "min" 3 =
        [List.replicate sampleCloud.ends.length false,
          List.replicate sampleCloud.ends.length false] ∧
      (combine sampleLibs Cloud.empty [sampleCloud, sampleCloud] Cloud.empty "min" 3).2 =
        Cloud.empty :=
  ⟨by simp [sampleCloud]; norm_num,
    combine_self_min sampleLibs Cloud.empty sampleCloud Cloud.empty 3
      (by simp [sampleCloud]; norm_num)⟩

/-- Claim C8 at three copies of sampleCloud and the key of its first ray. -/
theorem threeWayMerge_shared_key_witness :
    sampleCloud.WF ∧ (sampleCloud.rayAt 0).key ∈ sampleCloud.keys ∧
      ∃ added c1 c2,
        threeWayMerge sampleLibs Cloud.empty sampleCloud sampleCloud sampleCloud "oldest" 1 =
          some (Cloud.empty.append (Cloud.ofRays added), c1, c2) ∧
        (added.filter (fun r => decide (r.key = (sampleCloud.rayAt 0).key))).Perm
          ((preferredCloud sampleCloud sampleCloud).rays.filter
            (fun r => decide (r.key = (sampleCloud.rayAt 0).key))) ∧
        added.countP (fun r => decide (r.key = (sampleCloud.rayAt 0).key)) =
          (preferredCloud sampleCloud sampleCloud).rays.countP
            (fun r => decide (r.key = (sampleCloud.rayAt 0).key)) :=
  ⟨sampleCloud_WF, sampleCloud_key_mem,
    threeWayMerge_shared_key sampleLibs Cloud.empty sampleCloud sampleCloud sampleCloud "oldest"
      1 (sampleCloud.rayAt 0).key sampleCloud_WF sampleCloud_WF sampleCloud_key_mem
      sampleCloud_key_mem sampleCloud_key_mem⟩

/-- Claim C9 at three copies of sampleCloud. -/
theorem preFilter_keeps_changed_rays_witness :
    sampleCloud.WF ∧ sampleCloud.ends ≠ [] ∧
      ∃ m c1 c2,
        preFilter Cloud.empty sampleCloud sampleCloud sampleCloud = some (m, c1, c2) ∧
        c1.WF ∧ c2.WF ∧
        c1.rays.Perm (sampleCloud.rays.filter (fun x => decide (x.key ∉ sampleCloud.keys))) ∧
        c2.rays.Perm (sampleCloud.rays.filter (fun x => decide (x.key ∉ sampleCloud.keys))) :=
  ⟨sampleCloud_WF, sampleCloud_ne,
    preFilter_keeps_changed_rays Cloud.empty sampleCloud sampleCloud sampleCloud sampleCloud_WF
      sampleCloud_WF sampleCloud_ne sampleCloud_ne⟩

/-- Claim C10 at an empty base cloud and two copies of sampleCloud. -/
theorem threeWayMerge_all_witness :
    sampleCloud.WF ∧ sampleCloud.ends ≠ [] ∧
      ∃ added c1 c2,
        threeWayMerge sampleLibs Cloud.empty Cloud.empty sampleCloud sampleCloud "all" 1 =
          some (Cloud.empty.append (Cloud.ofRays added), c1, c2) ∧
        added.Perm
          ((preferredCloud sampleCloud sampleCloud).rays.filter
              (fun x => decide (x.key ∈ (otherCloud sampleCloud sampleCloud).keys)) ++
            (sampleCloud.rays.filter (fun x => decide (x.key ∉ Cloud.empty.keys)) ++
              sampleCloud.rays.filter (fun x => decide (x.key ∉ Cloud.empty.keys)))) ∧
        ∀ k : Vector6i,
          added.countP (fun r => decide (r.key = k)) =
            (if k ∈ (otherCloud sampleCloud sampleCloud).keys then
                (preferredCloud sampleCloud sampleCloud).rays.countP
                  (fun r => decide (r.key = k))
              else 0) +
              ((if k ∉ Cloud.empty.keys then
                  sampleCloud.rays.countP (fun r => decide (r.key = k)) else 0) +
                (if k ∉ Cloud.empty.keys then
                  sampleCloud.rays.countP (fun r => decide (r.key = k)) else 0)) :=
  ⟨sampleCloud_WF, sampleCloud_ne,
    threeWayMerge_all sampleLibs Cloud.empty Cloud.empty sampleCloud sampleCloud 1
      sampleCloud_WF sampleCloud_WF sampleCloud_ne sampleCloud_ne⟩

/-! ## Theorems: one round of the loop over the ellipsoids, for any grid -/

theorem gatherCell_guard (n : ℕ) :
    ∀ (list : List ℕ) (st : List Bool × List ℕ), GuardInv n st →
      GuardInv n (gatherCell list st) := by
  intro list
  induction list with
  | nil => intro st h; exact h
  | cons i list ih =>
    intro st h
    unfold gatherCell
    rw [List.foldl_cons]
    apply ih
    obtain ⟨h1, h2⟩ := h
    by_cases ht : st.1.getD i false = true
    · simp only [ht, if_true]
      exact ⟨h1, h2⟩
    · simp only [ht]
      refine ⟨by simp [h1], ?_⟩
      intro j
      simp only [Bool.false_eq_true, if_false, List.mem_append, List.mem_singleton,
        getD_set_bool]
      intro hj
      split_ifs at hj with hc
      · exact Or.inr hc.1.symm
      · exact Or.inl (h2 j hj)

theorem gatherRays_preserves (P : List Bool × List ℕ → Prop)
    (hP : ∀ (list : List ℕ) (st : List Bool × List ℕ), P st → P (gatherCell list st))
    (grid : Grid) (bmin bmax : Vector3i) (ray_tested : List Bool) (h : P (ray_tested, [])) :
    P (gatherRays grid bmin bmax ray_tested) := by
  unfold gatherRays
  have keyz : ∀ (x y : ℤ) (zs : List ℤ) (st : List Bool × List ℕ), P st →
      P (zs.foldl (fun st z => gatherCell (grid.cell x y z) st) st) := by
    intro x y zs
    induction zs with
    | nil => intro st h; exact h
    | cons z zs ihz => intro st h; rw [List.foldl_cons]; exact ihz _ (hP _ _ h)
  have keyy : ∀ (x : ℤ) (ys : List ℤ) (st : List Bool × List ℕ), P st →
      P (ys.foldl
        (fun st y =>
          (intRange bmin.z bmax.z).foldl (fun st z => gatherCell (grid.cell x y z) st) st)
        st) := by
    intro x ys
    induction ys with
    | nil => intro st h; exact h
    | cons y ys ihy => intro st h; rw [List.foldl_cons]; exact ihy _ (keyz x y _ _ h)
  have keyx : ∀ (xs : List ℤ) (st : List Bool × List ℕ), P st →
      P (xs.foldl
        (fun st x =>
          (intRange bmin.y bmax.y).foldl
            (fun st y =>
              (intRange bmin.z bmax.z).foldl (fun st z => gatherCell (grid.cell x y z) st) st)
            st) st) := by
    intro xs
    induction xs with
    | nil => intro st h; exact h
    | cons x xs ihx => intro st h; rw [List.foldl_cons]; exact ihx _ (keyy x _ _ h)
  exact keyx _ _ h

theorem guardInv_init (n : ℕ) : GuardInv n (List.replicate n false, []) := by
  refine ⟨by simp, ?_⟩
  intro j hj
  exfalso
  by_cases h : j < n
  · simp [List.getD_eq_getElem, h] at hj
  · rw [List.getD_eq_default _ _ (by simp; omega)] at hj
    exact Bool.false_ne_true hj

theorem resetTested_guard (n : ℕ) (st : List Bool × List ℕ) (h : GuardInv n st) :
    resetTested st.2 st.1 = List.replicate n false := by
  apply List.ext_getElem
  · rw [(resetTested_getD st.2 st.1 0).1, h.1, List.length_replicate]
  · intro j h1 h2
    have := (resetTested_getD st.2 st.1 j).2
    rw [List.getD_eq_getElem _ _ h1] at this
    rw [this, List.getElem_replicate]
    split_ifs with hm
    · rfl
    · cases hb : st.1.getD j false with
      | false => rfl
      | true => exact absurd (h.2 j hb) hm

theorem markEllipsoid_eq (X : Libs) (cloud : Cloud) (grid : Grid) (type : ℕ) (num_rays : ℚ)
    (self_transient : Bool) (transients : List Bool) (ellipsoid : Ellipsoid)
    (b : Vector3i × Vector3i) (h1 : ellipsoid.transient = false)
    (h2 : ellipsoid.extents ≠ Vector3d.zero) (h3 : cellRange grid ellipsoid = some b) :
    markEllipsoid X cloud grid type num_rays self_transient
        (transients, List.replicate cloud.ends.length false) ellipsoid =
      ((decideEllipsoid cloud type num_rays self_transient (cellTally X cloud grid ellipsoid b)
          ellipsoid transients).1,
        ((decideEllipsoid cloud type num_rays self_transient (cellTally X cloud grid ellipsoid b)
          ellipsoid transients).2, List.replicate cloud.ends.length false)) := by
  unfold markEllipsoid
  rw [if_neg (by simp [h1]), if_neg h2, h3]
  simp only
  rw [resetTested_guard cloud.ends.length _
    (gatherRays_preserves (GuardInv cloud.ends.length) (gatherCell_guard _) grid b.1 b.2 _
      (guardInv_init cloud.ends.length))]
  rfl

theorem setAll_append (a b : List ℕ) (t : List Bool) :
    setAll (a ++ b) t = setAll b (setAll a t) := by
  simp [setAll, List.foldl_append]

theorem removeRays_shape (cloud : Cloud) (t : Tally) (opacity : Dbl) (self_transient : Bool) :
    ∀ (ids : List ℕ) (d : Dbl), ∃ (S : List ℕ) (d2 : Dbl), ∀ T : List Bool,
      ids.foldl (removeRaysStep cloud t opacity self_transient) (d, T) = (d2, setAll S T) := by
  intro ids
  induction ids with
  | nil => intro d; exact ⟨[], d, fun T => rfl⟩
  | cons i ids ih =>
    intro d
    have hstep : ∃ (S0 : List ℕ) (d1 : Dbl), ∀ T : List Bool,
        removeRaysStep cloud t opacity self_transient (d, T) i = (d1, setAll S0 T) := by
      unfold removeRaysStep
      simp only
      split_ifs
      · exact ⟨[i], _, fun T => rfl⟩
      · exact ⟨[], _, fun T => rfl⟩
      · exact ⟨[], _, fun T => rfl⟩
    obtain ⟨S0, d1, h0⟩ := hstep
    obtain ⟨S, d2, h⟩ := ih d1
    refine ⟨S0 ++ S, d2, fun T => ?_⟩
    rw [List.foldl_cons, h0, h, setAll_append]

theorem applyRemoval_shape (cloud : Cloud) (self_transient : Bool) (t : Tally)
    (remove_ellipsoid : Bool) (ellipsoid : Ellipsoid) :
    ∃ (e2 : Ellipsoid) (S : List ℕ), ∀ T : List Bool,
      applyRemoval cloud self_transient t remove_ellipsoid ellipsoid T = (e2, setAll S T) := by
  unfold applyRemoval
  split_ifs
  · exact ⟨_, [], fun T => rfl⟩
  · obtain ⟨S, d2, h⟩ := removeRays_shape cloud t ellipsoid.opacity self_transient
      t.pass_through_ids (Dbl.fin 0)
    exact ⟨ellipsoid, S, fun T => by rw [h]⟩

theorem decideEllipsoid_shape (cloud : Cloud) (type : ℕ) (num_rays : ℚ) (self_transient : Bool)
    (t : Tally) (ellipsoid : Ellipsoid) :
    ∃ (e2 : Ellipsoid) (S : List ℕ), ∀ T : List Bool,
      decideEllipsoid cloud type num_rays self_transient t ellipsoid T = (e2, setAll S T) := by
  unfold decideEllipsoid
  simp only
  split_ifs <;>
    first
      | exact ⟨_, [], fun T => rfl⟩
      | exact applyRemoval_shape _ _ _ _ _

theorem markEllipsoid_shape (X : Libs) (cloud : Cloud) (grid : Grid) (type : ℕ) (num_rays : ℚ)
    (self_transient : Bool) (ellipsoid : Ellipsoid) :
    ∃ (S : List ℕ), ∀ T : List Bool,
      markEllipsoid X cloud grid type num_rays self_transient
          (T, List.replicate cloud.ends.length false) ellipsoid =
        (markedEllipsoid X cloud grid type num_rays self_transient ellipsoid,
          (setAll S T, List.replicate cloud.ends.length false)) := by
  have hskip : ∀ (c : Prop), (∀ T : List Bool,
      markEllipsoid X cloud grid type num_rays self_transient
          (T, List.replicate cloud.ends.length false) ellipsoid =
        (ellipsoid, (T, List.replicate cloud.ends.length false))) →
      ∃ (S : List ℕ), ∀ T : List Bool,
        markEllipsoid X cloud grid type num_rays self_transient
            (T, List.replicate cloud.ends.length false) ellipsoid =
          (markedEllipsoid X cloud grid type num_rays self_transient ellipsoid,
            (setAll S T, List.replicate cloud.ends.length false)) := by
    intro _ h
    refine ⟨[], fun T => ?_⟩
    unfold markedEllipsoid
    rw [h T, h []]
    rfl
  by_cases h1 : ellipsoid.transient = true
  · apply hskip True
    intro T
    unfold markEllipsoid
    rw [if_pos h1]
  · by_cases h2 : ellipsoid.extents = Vector3d.zero
    · apply hskip True
      intro T
      unfold markEllipsoid
      rw [if_neg h1, if_pos h2]
    · cases h3 : cellRange grid ellipsoid with
      | none =>
        apply hskip True
        intro T
        unfold markEllipsoid
        rw [if_neg h1, if_neg h2, h3]
      | some b =>
        have h1f : ellipsoid.transient = false := by simpa using h1
        obtain ⟨e2, S, h⟩ := decideEllipsoid_shape cloud type num_rays self_transient
          (cellTally X cloud grid ellipsoid b) ellipsoid
        refine ⟨S, fun T => ?_⟩
        unfold markedEllipsoid
        rw [markEllipsoid_eq X cloud grid type num_rays self_transient T ellipsoid b h1f h2 h3,
          markEllipsoid_eq X cloud grid type num_rays self_transient [] ellipsoid b h1f h2 h3,
          h T, h []]

theorem markLoop_shape (X : Libs) (cloud : Cloud) (grid : Grid) (type : ℕ) (num_rays : ℚ)
    (self_transient : Bool) :
    ∃ (S : Ellipsoid → List ℕ), ∀ (ellipsoids : List Ellipsoid) (T : List Bool),
      markLoop X cloud grid type num_rays self_transient ellipsoids
          (T, List.replicate cloud.ends.length false) =
        (ellipsoids.map (markedEllipsoid X cloud grid type num_rays self_transient),
          (setAll (ellipsoids.flatMap S) T, List.replicate cloud.ends.length false)) := by
  choose S hS using markEllipsoid_shape X cloud grid type num_rays self_transient
  refine ⟨S, ?_⟩
  intro ellipsoids
  induction ellipsoids with
  | nil => intro T; rfl
  | cons e es ih =>
    intro T
    simp only [markLoop, List.map_cons, List.flatMap_cons]
    rw [hS e T]
    simp only
    rw [ih (setAll (S e) T), setAll_append]

/-! ## Theorems: the decision for an eligible ellipsoid -/

theorem talliedEllipsoid_num_rays (num_rays : ℚ) (self_transient : Bool) (t : Tally)
    (ellipsoid : Ellipsoid) :
    (talliedEllipsoid num_rays self_transient t ellipsoid).num_rays =
        t.hits + t.pass_through_ids.length ∧
      (talliedEllipsoid num_rays self_transient t ellipsoid).transient = ellipsoid.transient := by
  unfold talliedEllipsoid
  simp only
  split_ifs <;> exact ⟨rfl, rfl⟩

theorem countBeforeAfter_fields (cloud : Cloud) (self_transient : Bool) (t : Tally)
    (ellipsoid : Ellipsoid) :
    ∃ (o : Dbl) (g : ℕ), (countBeforeAfter cloud self_transient t ellipsoid).1 =
      { ellipsoid with opacity := o, num_gone := g } := by
  unfold countBeforeAfter
  split_ifs
  · exact ⟨_, _, rfl⟩
  · exact ⟨ellipsoid.opacity, ellipsoid.num_gone, rfl⟩
  · exact ⟨ellipsoid.opacity, ellipsoid.num_gone, rfl⟩
  · exact ⟨ellipsoid.opacity, ellipsoid.num_gone, rfl⟩

theorem countBeforeAfter_transient (cloud : Cloud) (self_transient : Bool) (t : Tally)
    (ellipsoid : Ellipsoid) :
    (countBeforeAfter cloud self_transient t ellipsoid).1.transient = ellipsoid.transient := by
  obtain ⟨o, g, h⟩ := countBeforeAfter_fields cloud self_transient t ellipsoid
  rw [h]

theorem countedEllipsoid_transient (cloud : Cloud) (num_rays : ℚ) (self_transient : Bool)
    (t : Tally) (ellipsoid : Ellipsoid) :
    (countedEllipsoid cloud num_rays self_transient t ellipsoid).transient =
      ellipsoid.transient := by
  unfold countedEllipsoid
  rw [countBeforeAfter_transient, (talliedEllipsoid_num_rays _ _ _ _).2]

theorem decideEllipsoid_eligible (cloud : Cloud) (type : ℕ) (num_rays : ℚ)
    (self_transient : Bool) (t : Tally) (ellipsoid : Ellipsoid) (transients : List Bool)
    (hc : t.hits + t.pass_through_ids.length ≠ 0)
    (ho : Dbl.eq (talliedEllipsoid num_rays self_transient t ellipsoid).opacity (Dbl.fin 0) =
      false)
    (hn : num_rays ≠ 0) :
    decideEllipsoid cloud type num_rays self_transient t ellipsoid transients =
      if type = 0 ∨ type = 1 then
        if Dbl.lt
            (Dbl.fin ((max (numBefore cloud num_rays self_transient t ellipsoid)
              (numAfter cloud num_rays self_transient t ellipsoid) : ℕ) : ℚ))
            (sequenceLength cloud num_rays self_transient t ellipsoid) then
          (countedEllipsoid cloud num_rays self_transient t ellipsoid, transients)
        else if type = 0 then
          applyRemoval cloud self_transient t
            (Dbl.le (sequenceLength cloud num_rays self_transient t ellipsoid)
              (Dbl.fin (numBefore cloud num_rays self_transient t ellipsoid : ℚ)))
            (countedEllipsoid cloud num_rays self_transient t ellipsoid) transients
        else
          applyRemoval cloud self_transient t
            (Dbl.le (sequenceLength cloud num_rays self_transient t ellipsoid)
              (Dbl.fin (numAfter cloud num_rays self_transient t ellipsoid : ℚ)))
            (countedEllipsoid cloud num_rays self_transient t ellipsoid) transients
      else
        if Dbl.lt
            (Dbl.fin ((numBefore cloud num_rays self_transient t ellipsoid +
              numAfter cloud num_rays self_transient t ellipsoid : ℕ) : ℚ))
            (sequenceLength cloud num_rays self_transient t ellipsoid) then
          (countedEllipsoid cloud num_rays self_transient t ellipsoid, transients)
        else
          applyRemoval cloud self_transient t (decide (type = 2))
            (countedEllipsoid cloud num_rays self_transient t ellipsoid) transients := by
  have hdef : decideEllipsoid cloud type num_rays self_transient t ellipsoid transients =
      if (talliedEllipsoid num_rays self_transient t ellipsoid).num_rays = 0 ∨
          Dbl.eq (talliedEllipsoid num_rays self_transient t ellipsoid).opacity (Dbl.fin 0) =
            true ∨ num_rays = 0 then
        (talliedEllipsoid num_rays self_transient t ellipsoid, transients)
      else
        if type = 0 ∨ type = 1 then
          if Dbl.lt
              (Dbl.fin ((max (numBefore cloud num_rays self_transient t ellipsoid)
                (numAfter cloud num_rays self_transient t ellipsoid) : ℕ) : ℚ))
              (sequenceLength cloud num_rays self_transient t ellipsoid) then
            (countedEllipsoid cloud num_rays self_transient t ellipsoid, transients)
          else if type = 0 then
            applyRemoval cloud self_transient t
              (Dbl.le (sequenceLength cloud num_rays self_transient t ellipsoid)
                (Dbl.fin (numBefore cloud num_rays self_transient t ellipsoid : ℚ)))
              (countedEllipsoid cloud num_rays self_transient t ellipsoid) transients
          else
            applyRemoval cloud self_transient t
              (Dbl.le (sequenceLength cloud num_rays self_transient t ellipsoid)
                (Dbl.fin (numAfter cloud num_rays self_transient t ellipsoid : ℚ)))
              (countedEllipsoid cloud num_rays self_transient t ellipsoid) transients
        else
          if Dbl.lt
              (Dbl.fin ((numBefore cloud num_rays self_transient t ellipsoid +
                numAfter cloud num_rays self_transient t ellipsoid : ℕ) : ℚ))
              (sequenceLength cloud num_rays self_transient t ellipsoid) then
            (countedEllipsoid cloud num_rays self_transient t ellipsoid, transients)
          else
            applyRemoval cloud self_transient t (decide (type = 2))
              (countedEllipsoid cloud num_rays self_transient t ellipsoid) transients := rfl
  rw [hdef, if_neg]
  rw [(talliedEllipsoid_num_rays _ _ _ _).1, ho]
  intro h
  rcases h with h | h | h
  · exact hc h
  · exact Bool.false_ne_true h
  · exact hn h

theorem applyRemoval_transient (cloud : Cloud) (self_transient : Bool) (t : Tally)
    (remove_ellipsoid : Bool) (ellipsoid : Ellipsoid) (transients : List Bool)
    (h : ellipsoid.transient = false) :
    (applyRemoval cloud self_transient t remove_ellipsoid ellipsoid transients).1.transient =
      remove_ellipsoid := by
  unfold applyRemoval
  cases remove_ellipsoid with
  | true => rfl
  | false => simpa using h

theorem dbl_le_not_lt_max (s : Dbl) (a b : ℕ) :
    (Dbl.le s (Dbl.fin (a : ℚ)) = true → Dbl.lt (Dbl.fin ((max a b : ℕ) : ℚ)) s = false) ∧
      (Dbl.le s (Dbl.fin (b : ℚ)) = true → Dbl.lt (Dbl.fin ((max a b : ℕ) : ℚ)) s = false) := by
  cases s with
  | nan => exact ⟨fun h => rfl, fun h => rfl⟩
  | ninf => exact ⟨fun h => rfl, fun h => rfl⟩
  | pinf => constructor <;> intro h <;> simp [Dbl.le] at h
  | fin q =>
    simp only [Dbl.le, Dbl.lt, decide_eq_true_eq, decide_eq_false_iff_not, not_lt]
    constructor
    · intro h
      exact le_trans h (by exact_mod_cast le_max_left a b)
    · intro h
      exact le_trans h (by exact_mod_cast le_max_right a b)

theorem dbl_not_lt_iff_le (s : Dbl) (q : ℚ) (h : s ≠ Dbl.nan) :
    Dbl.lt (Dbl.fin q) s = false ↔ Dbl.le s (Dbl.fin q) = true := by
  cases s with
  | nan => exact absurd rfl h
  | ninf => simp [Dbl.lt, Dbl.le]
  | pinf => simp [Dbl.lt, Dbl.le]
  | fin r => simp [Dbl.lt, Dbl.le]

/-- Claim C11. An eligible ellipsoid (not transient, extents not zero, a cell range b in
the grid, at least one candidate ray counted as hit or pass-through, opacity not 0 at line
464, num_rays above 0), with sequence_length = num_rays / opacity of line 495: for merge
type oldest the round of the loop marks it transient if and only if
num_before >= sequence_length, for newest if and only if num_after >= sequence_length, and
for both, when max(num_before, num_after) < sequence_length, the round leaves the
ellipsoid as the counting left it, not transient, and leaves the transients array and the
guard as they were. -/
theorem markEllipsoid_oldest_newest (X : Libs) (cloud : Cloud) (grid : Grid) (num_rays : ℚ)
    (self_transient : Bool) (transients : List Bool) (ellipsoid : Ellipsoid)
    (b : Vector3i × Vector3i) (h1 : ellipsoid.transient = false)
    (h2 : ellipsoid.extents ≠ Vector3d.zero) (h3 : cellRange grid ellipsoid = some b)
    (hc : (cellTally X cloud grid ellipsoid b).hits +
      (cellTally X cloud grid ellipsoid b).pass_through_ids.length ≠ 0)
    (ho : Dbl.eq (talliedEllipsoid num_rays self_transient (cellTally X cloud grid ellipsoid b)
      ellipsoid).opacity (Dbl.fin 0) = false)
    (hn : 0 < num_rays) :
    ((markEllipsoid X cloud grid 0 num_rays self_transient
          (transients, List.replicate cloud.ends.length false) ellipsoid).1.transient = true ↔
        Dbl.le
          (sequenceLength cloud num_rays self_transient (cellTally X cloud grid ellipsoid b)
            ellipsoid)
          (Dbl.fin (numBefore cloud num_rays self_transient (cellTally X cloud grid ellipsoid b)
            ellipsoid : ℚ)) = true) ∧
      ((markEllipsoid X cloud grid 1 num_rays self_transient
          (transients, List.replicate cloud.ends.length false) ellipsoid).1.transient = true ↔
        Dbl.le
          (sequenceLength cloud num_rays self_transient (cellTally X cloud grid ellipsoid b)
            ellipsoid)
          (Dbl.fin (numAfter cloud num_rays self_transient (cellTally X cloud grid ellipsoid b)
            ellipsoid : ℚ)) = true) ∧
      (Dbl.lt
          (Dbl.fin ((max
            (numBefore cloud num_rays self_transient (cellTally X cloud grid ellipsoid b)
              ellipsoid)
            (numAfter cloud num_rays self_transient (cellTally X cloud grid ellipsoid b)
              ellipsoid) : ℕ) : ℚ))
          (sequenceLength cloud num_rays self_transient (cellTally X cloud grid ellipsoid b)
            ellipsoid) = true →
        (countedEllipsoid cloud num_rays self_transient (cellTally X cloud grid ellipsoid b)
          ellipsoid).transient = false ∧
        ∀ type : ℕ, type = 0 ∨ type = 1 →
          markEllipsoid X cloud grid type num_rays self_transient
              (transients, List.replicate cloud.ends.length false) ellipsoid =
            (countedEllipsoid cloud num_rays self_transient
                (cellTally X cloud grid ellipsoid b) ellipsoid,
              (transients, List.replicate cloud.ends.length false))) := by
  have hct := countedEllipsoid_transient cloud num_rays self_transient
    (cellTally X cloud grid ellipsoid b) ellipsoid
  rw [h1] at hct
  have hmax := dbl_le_not_lt_max
    (sequenceLength cloud num_rays self_transient (cellTally X cloud grid ellipsoid b) ellipsoid)
    (numBefore cloud num_rays self_transient (cellTally X cloud grid ellipsoid b) ellipsoid)
    (numAfter cloud num_rays self_transient (cellTally X cloud grid ellipsoid b) ellipsoid)
  refine ⟨?_, ?_, ?_⟩
  · rw [markEllipsoid_eq X cloud grid 0 num_rays self_transient transients ellipsoid b h1 h2 h3,
      decideEllipsoid_eligible cloud 0 num_rays self_transient _ ellipsoid transients hc ho
        (ne_of_gt hn)]
    simp only [true_or, if_true]
    split_ifs with hlt
    · simp only [hct, Bool.false_eq_true, false_iff]
      intro hle
      rw [hmax.1 hle] at hlt
      exact Bool.false_ne_true hlt
    · rw [applyRemoval_transient _ _ _ _ _ _ hct]
  · rw [markEllipsoid_eq X cloud grid 1 num_rays self_transient transients ellipsoid b h1 h2 h3,
      decideEllipsoid_eligible cloud 1 num_rays self_transient _ ellipsoid transients hc ho
        (ne_of_gt hn)]
    simp only [or_true, if_true, one_ne_zero, if_false]
    split_ifs with hlt
    · simp only [hct, Bool.false_eq_true, false_iff]
      intro hle
      rw [hmax.2 hle] at hlt
      exact Bool.false_ne_true hlt
    · rw [applyRemoval_transient _ _ _ _ _ _ hct]
  · intro hlt
    refine ⟨hct, ?_⟩
    intro type htype
    rw [markEllipsoid_eq X cloud grid type num_rays self_transient transients ellipsoid b h1 h2
        h3,
      decideEllipsoid_eligible cloud type num_rays self_transient _ ellipsoid transients hc ho
        (ne_of_gt hn), if_pos htype, if_pos hlt]

/-- Claim C12, as the code has it. An eligible ellipsoid (not transient, extents not zero,
a cell range b in the grid, at least one candidate ray counted as hit or pass-through,
opacity not 0 at line 464, num_rays above 0) is marked transient by the round of the loop
with merge type min if and only if num_before + num_after < sequence_length does not hold;
for a sequence_length that is not NaN this is num_before + num_after >= sequence_length,
equality included. -/
theorem markEllipsoid_min (X : Libs) (cloud : Cloud) (grid : Grid) (num_rays : ℚ)
    (self_transient : Bool) (transients : List Bool) (ellipsoid : Ellipsoid)
    (b : Vector3i × Vector3i) (h1 : ellipsoid.transient = false)
    (h2 : ellipsoid.extents ≠ Vector3d.zero) (h3 : cellRange grid ellipsoid = some b)
    (hc : (cellTally X cloud grid ellipsoid b).hits +
      (cellTally X cloud grid ellipsoid b).pass_through_ids.length ≠ 0)
    (ho : Dbl.eq (talliedEllipsoid num_rays self_transient (cellTally X cloud grid ellipsoid b)
      ellipsoid).opacity (Dbl.fin 0) = false)
    (hn : 0 < num_rays) :
    ((markEllipsoid X cloud grid 2 num_rays self_transient
          (transients, List.replicate cloud.ends.length false) ellipsoid).1.transient = true ↔
        Dbl.lt
          (Dbl.fin ((numBefore cloud num_rays self_transient (cellTally X cloud grid ellipsoid b)
              ellipsoid +
            numAfter cloud num_rays self_transient (cellTally X cloud grid ellipsoid b)
              ellipsoid : ℕ) : ℚ))
          (sequenceLength cloud num_rays self_transient (cellTally X cloud grid ellipsoid b)
            ellipsoid) = false) ∧
      (sequenceLength cloud num_rays self_transient (cellTally X cloud grid ellipsoid b)
          ellipsoid ≠ Dbl.nan →
        ((markEllipsoid X cloud grid 2 num_rays self_transient
            (transients, List.replicate cloud.ends.length false) ellipsoid).1.transient = true ↔
          Dbl.le
            (sequenceLength cloud num_rays self_transient (cellTally X cloud grid ellipsoid b)
              ellipsoid)
            (Dbl.fin ((numBefore cloud num_rays self_transient
                (cellTally X cloud grid ellipsoid b) ellipsoid +
              numAfter cloud num_rays self_transient (cellTally X cloud grid ellipsoid b)
                ellipsoid : ℕ) : ℚ)) = true)) := by
  have hct := countedEllipsoid_transient cloud num_rays self_transient
    (cellTally X cloud grid ellipsoid b) ellipsoid
  rw [h1] at hct
  have key : (markEllipsoid X cloud grid 2 num_rays self_transient
        (transients, List.replicate cloud.ends.length false) ellipsoid).1.transient = true ↔
      Dbl.lt
        (Dbl.fin ((numBefore cloud num_rays self_transient (cellTally X cloud grid ellipsoid b)
            ellipsoid +
          numAfter cloud num_rays self_transient (cellTally X cloud grid ellipsoid b)
            ellipsoid : ℕ) : ℚ))
        (sequenceLength cloud num_rays self_transient (cellTally X cloud grid ellipsoid b)
          ellipsoid) = false := by
    rw [markEllipsoid_eq X cloud grid 2 num_rays self_transient transients ellipsoid b h1 h2 h3,
      decideEllipsoid_eligible cloud 2 num_rays self_transient _ ellipsoid transients hc ho
        (ne_of_gt hn), if_neg (by decide : ¬((2 : ℕ) = 0 ∨ (2 : ℕ) = 1))]
    split_ifs with hlt
    · constructor
      · intro h
        have h2 : (countedEllipsoid cloud num_rays self_transient
            (cellTally X cloud grid ellipsoid b) ellipsoid).transient = true := h
        rw [hct] at h2
        exact absurd h2 Bool.false_ne_true
      · intro h
        rw [hlt] at h
        exact absurd h.symm Bool.false_ne_true
    · rw [applyRemoval_transient _ _ _ _ _ _ hct]
      constructor
      · intro _
        exact Bool.eq_false_iff.mpr hlt
      · intro _
        rfl
  refine ⟨key, ?_⟩
  intro hnan
  rw [key]
  exact dbl_not_lt_iff_le _ _ hnan

/-! ## Theorems: an ellipsoid with one pass-through ray -/

theorem castInt_small_neg (q : ℚ) (h1 : -1 < q) (h2 : q < 0) : castInt q = 0 := by
  unfold castInt
  rw [if_neg (not_le.mpr h2), Int.ceil_eq_iff]
  constructor
  · simpa using h1
  · simpa using le_of_lt h2

theorem castInt_small_pos (q : ℚ) (h1 : 0 ≤ q) (h2 : q < 1) : castInt q = 0 := by
  unfold castInt
  rw [if_pos h1, Int.floor_eq_iff]
  constructor
  · simpa using h1
  · simpa using h2

theorem nearEllipsoid_cellRange :
    cellRange farGrid nearEllipsoid = some (⟨0, 0, 0⟩, ⟨0, 0, 0⟩) := by
  rw [farGrid_eq]
  unfold cellRange
  simp only [Grid.insert, farGrid0, nearEllipsoid, Vector3d.sub, Vector3d.add, Vector3d.sdiv,
    Vector3i.maxVector, Vector3i.minVector]
  rw [castInt_small_neg ((-1 / 2 - 1 - 0) / 10) (by norm_num) (by norm_num),
    castInt_small_neg ((0 - 1 - 0) / 10) (by norm_num) (by norm_num),
    castInt_small_pos ((-1 / 2 + 1 - 0) / 10) (by norm_num) (by norm_num),
    castInt_small_pos ((0 + 1 - 0) / 10) (by norm_num) (by norm_num)]
  norm_num

theorem nearEllipsoid_classify :
    classifyRay sampleLibs farCloud nearEllipsoid 0 = RayClass.pass := by
  simp [classifyRay, farCloud, nearEllipsoid, sampleLibs, Matrix3d.mulVec, Vector3d.sub,
    Vector3d.dot, Vector3d.squaredNorm, Dbl.div, Dbl.mul, Dbl.sub, Dbl.add, Dbl.neg, Dbl.lt,
    Dbl.sqrt]
  norm_num

theorem farGrid_gather :
    gatherRays farGrid ⟨0, 0, 0⟩ ⟨0, 0, 0⟩ [false] = ([true], [0]) := by
  have r0 : intRange 0 0 = [0] := by decide
  simp only [gatherRays, r0, List.foldl_cons, List.foldl_nil, farGrid_cell, gatherCell]
  rfl

theorem nearEllipsoid_tally :
    cellTally sampleLibs farCloud farGrid nearEllipsoid (⟨0, 0, 0⟩, ⟨0, 0, 0⟩) =
      ⟨0, [0], 10 ^ 10, -(10 ^ 10)⟩ := by
  have hrep : List.replicate farCloud.ends.length false = [false] := rfl
  unfold cellTally
  rw [hrep, farGrid_gather]
  simp only [List.foldl_cons, List.foldl_nil]
  unfold tallyRay
  rw [nearEllipsoid_classify]
  rfl

theorem nearEllipsoid_extents : nearEllipsoid.extents ≠ Vector3d.zero := by
  simp [nearEllipsoid, Vector3d.zero]

theorem nearEllipsoid_counted :
    talliedEllipsoid 1 false ⟨0, [0], 10 ^ 10, -(10 ^ 10)⟩ nearEllipsoid =
        { nearEllipsoid with num_rays := 1 } ∧
      countedEllipsoid farCloud 1 false ⟨0, [0], 10 ^ 10, -(10 ^ 10)⟩ nearEllipsoid =
        { nearEllipsoid with num_rays := 1 } ∧
      numBefore farCloud 1 false ⟨0, [0], 10 ^ 10, -(10 ^ 10)⟩ nearEllipsoid = 1 ∧
      numAfter farCloud 1 false ⟨0, [0], 10 ^ 10, -(10 ^ 10)⟩ nearEllipsoid = 0 ∧
      sequenceLength farCloud 1 false ⟨0, [0], 10 ^ 10, -(10 ^ 10)⟩ nearEllipsoid =
        Dbl.fin 1 := by
  have h1 : talliedEllipsoid 1 false ⟨0, [0], 10 ^ 10, -(10 ^ 10)⟩ nearEllipsoid =
      { nearEllipsoid with num_rays := 1 } := by
    simp [talliedEllipsoid]
  have h2 : countBeforeAfter farCloud false ⟨0, [0], 10 ^ 10, -(10 ^ 10)⟩
      { nearEllipsoid with num_rays := 1 } = ({ nearEllipsoid with num_rays := 1 }, 1, 0) := by
    simp [countBeforeAfter, farCloud, nearEllipsoid]
  refine ⟨h1, ?_, ?_, ?_, ?_⟩
  · rw [countedEllipsoid, h1, h2]
  · rw [numBefore, h1, h2]
  · rw [numAfter, h1, h2]
  · rw [sequenceLength, countedEllipsoid, h1, h2]
    simp [nearEllipsoid, Dbl.div]

/-! ## Theorems: the decision at the ellipsoid nearEllipsoid -/

theorem nearEllipsoid_candidates :
    (cellTally sampleLibs farCloud farGrid nearEllipsoid (⟨0, 0, 0⟩, ⟨0, 0, 0⟩)).hits +
      (cellTally sampleLibs farCloud farGrid nearEllipsoid
        (⟨0, 0, 0⟩, ⟨0, 0, 0⟩)).pass_through_ids.length ≠ 0 := by
  rw [nearEllipsoid_tally]
  simp

theorem nearEllipsoid_opacity :
    Dbl.eq (talliedEllipsoid 1 false
      (cellTally sampleLibs farCloud farGrid nearEllipsoid (⟨0, 0, 0⟩, ⟨0, 0, 0⟩))
      nearEllipsoid).opacity (Dbl.fin 0) = false := by
  rw [nearEllipsoid_tally, nearEllipsoid_counted.1]
  simp [nearEllipsoid, Dbl.eq]

/-- Claim C11 at the cloud farCloud of one ray, its grid farGrid, the ellipsoid
nearEllipsoid that this ray passes through, and num_rays 1 in cross-cloud mode. -/
theorem markEllipsoid_oldest_newest_witness :
    nearEllipsoid.transient = false ∧ nearEllipsoid.extents ≠ Vector3d.zero ∧
      cellRange farGrid nearEllipsoid = some (⟨0, 0, 0⟩, ⟨0, 0, 0⟩) ∧
      (cellTally sampleLibs farCloud farGrid nearEllipsoid (⟨0, 0, 0⟩, ⟨0, 0, 0⟩)).hits +
        (cellTally sampleLibs farCloud farGrid nearEllipsoid
          (⟨0, 0, 0⟩, ⟨0, 0, 0⟩)).pass_through_ids.length ≠ 0 ∧
      Dbl.eq (talliedEllipsoid 1 false
        (cellTally sampleLibs farCloud farGrid nearEllipsoid (⟨0, 0, 0⟩, ⟨0, 0, 0⟩))
        nearEllipsoid).opacity (Dbl.fin 0) = false ∧
      (0 : ℚ) < 1 ∧
      (((markEllipsoid sampleLibs farCloud farGrid 0 1 false
          ([false], List.replicate farCloud.ends.length false) nearEllipsoid).1.transient = true ↔
        Dbl.le
          (sequenceLength farCloud 1 false (cellTally sampleLibs farCloud farGrid nearEllipsoid
              (⟨0, 0, 0⟩, ⟨0, 0, 0⟩))
            nearEllipsoid)
          (Dbl.fin (numBefore farCloud 1 false (cellTally sampleLibs farCloud farGrid nearEllipsoid
              (⟨0, 0, 0⟩, ⟨0, 0, 0⟩))
            nearEllipsoid : ℚ)) = true) ∧
      ((markEllipsoid sampleLibs farCloud farGrid 1 1 false
          ([false], List.replicate farCloud.ends.length false) nearEllipsoid).1.transient = true ↔
        Dbl.le
          (sequenceLength farCloud 1 false (cellTally sampleLibs farCloud farGrid nearEllipsoid
              (⟨0, 0, 0⟩, ⟨0, 0, 0⟩))
            nearEllipsoid)
          (Dbl.fin (numAfter farCloud 1 false (cellTally sampleLibs farCloud farGrid nearEllipsoid
              (⟨0, 0, 0⟩, ⟨0, 0, 0⟩))
            nearEllipsoid : ℚ)) = true) ∧
      (Dbl.lt
          (Dbl.fin ((max
            (numBefore farCloud 1 false (cellTally sampleLibs farCloud farGrid nearEllipsoid (⟨0,
                0, 0⟩, ⟨0, 0, 0⟩))
              nearEllipsoid)
            (numAfter farCloud 1 false (cellTally sampleLibs farCloud farGrid nearEllipsoid (⟨0, 0,
                0⟩, ⟨0, 0, 0⟩))
              nearEllipsoid) : ℕ) : ℚ))
          (sequenceLength farCloud 1 false (cellTally sampleLibs farCloud farGrid nearEllipsoid
              (⟨0, 0, 0⟩, ⟨0, 0, 0⟩))
            nearEllipsoid) = true →
        (countedEllipsoid farCloud 1 false (cellTally sampleLibs farCloud farGrid nearEllipsoid
            (⟨0, 0, 0⟩, ⟨0, 0, 0⟩))
          nearEllipsoid).transient = false ∧
        ∀ type : ℕ, type = 0 ∨ type = 1 →
          markEllipsoid sampleLibs farCloud farGrid type 1 false
              ([false], List.replicate farCloud.ends.length false) nearEllipsoid =
            (countedEllipsoid farCloud 1 false
                (cellTally sampleLibs farCloud farGrid nearEllipsoid (⟨0, 0, 0⟩, ⟨0, 0, 0⟩))
                    nearEllipsoid,
              ([false], List.replicate farCloud.ends.length false)))) :=
  ⟨rfl, nearEllipsoid_extents, nearEllipsoid_cellRange, nearEllipsoid_candidates,
    nearEllipsoid_opacity, by norm_num,
    markEllipsoid_oldest_newest sampleLibs farCloud farGrid 1 false [false] nearEllipsoid
      (⟨0, 0, 0⟩, ⟨0, 0, 0⟩) rfl nearEllipsoid_extents nearEllipsoid_cellRange
      nearEllipsoid_candidates nearEllipsoid_opacity (by norm_num)⟩

/-- Claim C12, as the code has it, at the cloud farCloud of one ray, its grid farGrid, the ellipsoid
nearEllipsoid that this ray passes through, and num_rays 1 in cross-cloud mode. -/
theorem markEllipsoid_min_witness :
    nearEllipsoid.transient = false ∧ nearEllipsoid.extents ≠ Vector3d.zero ∧
      cellRange farGrid nearEllipsoid = some (⟨0, 0, 0⟩, ⟨0, 0, 0⟩) ∧
      (cellTally sampleLibs farCloud farGrid nearEllipsoid (⟨0, 0, 0⟩, ⟨0, 0, 0⟩)).hits +
        (cellTally sampleLibs farCloud farGrid nearEllipsoid
          (⟨0, 0, 0⟩, ⟨0, 0, 0⟩)).pass_through_ids.length ≠ 0 ∧
      Dbl.eq (talliedEllipsoid 1 false
        (cellTally sampleLibs farCloud farGrid nearEllipsoid (⟨0, 0, 0⟩, ⟨0, 0, 0⟩))
        nearEllipsoid).opacity (Dbl.fin 0) = false ∧
      (0 : ℚ) < 1 ∧
      (((markEllipsoid sampleLibs farCloud farGrid 2 1 false
          ([false], List.replicate farCloud.ends.length false) nearEllipsoid).1.transient = true ↔
        Dbl.lt
          (Dbl.fin ((numBefore farCloud 1 false (cellTally sampleLibs farCloud farGrid
              nearEllipsoid (⟨0, 0, 0⟩, ⟨0, 0, 0⟩))
              nearEllipsoid +
            numAfter farCloud 1 false (cellTally sampleLibs farCloud farGrid nearEllipsoid (⟨0, 0,
                0⟩, ⟨0, 0, 0⟩))
              nearEllipsoid : ℕ) : ℚ))
          (sequenceLength farCloud 1 false (cellTally sampleLibs farCloud farGrid nearEllipsoid
              (⟨0, 0, 0⟩, ⟨0, 0, 0⟩))
            nearEllipsoid) = false) ∧
      (sequenceLength farCloud 1 false (cellTally sampleLibs farCloud farGrid nearEllipsoid (⟨0, 0,
          0⟩, ⟨0, 0, 0⟩))
          nearEllipsoid ≠ Dbl.nan →
        ((markEllipsoid sampleLibs farCloud farGrid 2 1 false
            ([false], List.replicate farCloud.ends.length false) nearEllipsoid).1.transient = true ↔
          Dbl.le
            (sequenceLength farCloud 1 false (cellTally sampleLibs farCloud farGrid nearEllipsoid
                (⟨0, 0, 0⟩, ⟨0, 0, 0⟩))
              nearEllipsoid)
            (Dbl.fin ((numBefore farCloud 1 false
                (cellTally sampleLibs farCloud farGrid nearEllipsoid (⟨0, 0, 0⟩, ⟨0, 0, 0⟩))
                    nearEllipsoid +
              numAfter farCloud 1 false (cellTally sampleLibs farCloud farGrid nearEllipsoid (⟨0,
                  0, 0⟩, ⟨0, 0, 0⟩))
                nearEllipsoid : ℕ) : ℚ)) = true))) :=
  ⟨rfl, nearEllipsoid_extents, nearEllipsoid_cellRange, nearEllipsoid_candidates,
    nearEllipsoid_opacity, by norm_num,
    markEllipsoid_min sampleLibs farCloud farGrid 1 false [false] nearEllipsoid
      (⟨0, 0, 0⟩, ⟨0, 0, 0⟩) rfl nearEllipsoid_extents nearEllipsoid_cellRange
      nearEllipsoid_candidates nearEllipsoid_opacity (by norm_num)⟩

theorem nearEllipsoid_min_decision :
    decideEllipsoid farCloud 2 1 false ⟨0, [0], 10 ^ 10, -(10 ^ 10)⟩ nearEllipsoid [false] =
      ({ nearEllipsoid with num_rays := 1, transient := true }, [false]) := by
  have hc := nearEllipsoid_candidates
  have ho := nearEllipsoid_opacity
  rw [nearEllipsoid_tally] at hc ho
  rw [decideEllipsoid_eligible farCloud 2 1 false _ nearEllipsoid [false] hc ho one_ne_zero,
    if_neg (by decide : ¬((2 : ℕ) = 0 ∨ (2 : ℕ) = 1)), nearEllipsoid_counted.2.1,
    nearEllipsoid_counted.2.2.1, nearEllipsoid_counted.2.2.2.1, nearEllipsoid_counted.2.2.2.2]
  simp [Dbl.lt, applyRemoval]

/-- Claim C12 at equality: the ellipsoid nearEllipsoid is eligible (not transient, extents
not zero, one candidate ray, which passes through, opacity 1, num_rays = 1), and
num_before + num_after = 1 does not exceed sequence_length = 1/1 = 1, yet
markIntersectedEllipsoids with merge type min marks the ellipsoid transient. -/
theorem markIntersectedEllipsoids_min_at_equality :
    nearEllipsoid.transient = false ∧ nearEllipsoid.extents ≠ Vector3d.zero ∧
      cellRange farGrid nearEllipsoid = some (⟨0, 0, 0⟩, ⟨0, 0, 0⟩) ∧
      cellTally sampleLibs farCloud farGrid nearEllipsoid (⟨0, 0, 0⟩, ⟨0, 0, 0⟩) =
        ⟨0, [0], 10 ^ 10, -(10 ^ 10)⟩ ∧
      (talliedEllipsoid 1 false ⟨0, [0], 10 ^ 10, -(10 ^ 10)⟩ nearEllipsoid).opacity =
        Dbl.fin 1 ∧
      numBefore farCloud 1 false ⟨0, [0], 10 ^ 10, -(10 ^ 10)⟩ nearEllipsoid +
        numAfter farCloud 1 false ⟨0, [0], 10 ^ 10, -(10 ^ 10)⟩ nearEllipsoid = 1 ∧
      sequenceLength farCloud 1 false ⟨0, [0], 10 ^ 10, -(10 ^ 10)⟩ nearEllipsoid =
        Dbl.fin 1 ∧
      Dbl.lt (Dbl.fin 1) (Dbl.fin ((1 : ℕ) : ℚ)) = false ∧
      markIntersectedEllipsoids sampleLibs farCloud farGrid [false] [nearEllipsoid] "min" 1
          false =
        ([false], [{ nearEllipsoid with num_rays := 1, transient := true }]) := by
  refine ⟨rfl, nearEllipsoid_extents, nearEllipsoid_cellRange, nearEllipsoid_tally, ?_, ?_,
    nearEllipsoid_counted.2.2.2.2, ?_, ?_⟩
  · rw [nearEllipsoid_counted.1]
    rfl
  · rw [nearEllipsoid_counted.2.2.1, nearEllipsoid_counted.2.2.2.1]
  · simp [Dbl.lt]
  · have hm := markEllipsoid_eq sampleLibs farCloud farGrid 2 1 false [false] nearEllipsoid _ rfl
      nearEllipsoid_extents nearEllipsoid_cellRange
    rw [nearEllipsoid_tally, nearEllipsoid_min_decision] at hm
    unfold markIntersectedEllipsoids
    simp only [markLoop, mergeTypeCode_min]
    rw [hm]

/-! ## Theorems: markIntersectedEllipsoids with num_rays = 0, and the order of the ellipsoids -/

theorem markEllipsoid_zeroPass (X : Libs) (cloud : Cloud) (grid : Grid) (type : ℕ)
    (self_transient : Bool) (transients : List Bool) (ellipsoid : Ellipsoid) :
    markEllipsoid X cloud grid type 0 self_transient
        (transients, List.replicate cloud.ends.length false) ellipsoid =
      (zeroPass X cloud grid ellipsoid,
        (transients, List.replicate cloud.ends.length false)) := by
  by_cases h1 : ellipsoid.transient = true
  · unfold markEllipsoid zeroPass
    rw [if_pos h1, if_pos h1]
  · by_cases h2 : ellipsoid.extents = Vector3d.zero
    · unfold markEllipsoid zeroPass
      rw [if_neg h1, if_pos h2, if_neg h1, if_pos h2]
    · cases h3 : cellRange grid ellipsoid with
      | none =>
        unfold markEllipsoid zeroPass
        rw [if_neg h1, if_neg h2, h3, if_neg h1, if_neg h2]
      | some b =>
        rw [markEllipsoid_eq X cloud grid type 0 self_transient transients ellipsoid b
          (by simpa using h1) h2 h3, decideEllipsoid_zero]
        unfold zeroPass
        rw [if_neg h1, if_neg h2, h3]

theorem markLoop_zeroPass (X : Libs) (cloud : Cloud) (grid : Grid) (type : ℕ)
    (self_transient : Bool) :
    ∀ (ellipsoids : List Ellipsoid) (transients : List Bool),
      markLoop X cloud grid type 0 self_transient ellipsoids
          (transients, List.replicate cloud.ends.length false) =
        (ellipsoids.map (zeroPass X cloud grid),
          (transients, List.replicate cloud.ends.length false)) := by
  intro ellipsoids
  induction ellipsoids with
  | nil => intro transients; rfl
  | cons e es ih =>
    intro transients
    simp only [markLoop, List.map_cons]
    rw [markEllipsoid_zeroPass]
    simp only
    rw [ih]

theorem zeroPass_fields (X : Libs) (cloud : Cloud) (grid : Grid) (ellipsoid : Ellipsoid) :
    ∃ (n : ℕ) (o : Dbl),
      zeroPass X cloud grid ellipsoid = { ellipsoid with num_rays := n, opacity := o } := by
  unfold zeroPass
  split_ifs
  · exact ⟨ellipsoid.num_rays, ellipsoid.opacity, rfl⟩
  · exact ⟨ellipsoid.num_rays, ellipsoid.opacity, rfl⟩
  · split
    · exact ⟨ellipsoid.num_rays, ellipsoid.opacity, rfl⟩
    · exact ⟨_, _, rfl⟩

/-- Claim C14. Called with num_rays = 0, for every cloud, grid, transients array,
ellipsoid list, merge type and mode, markIntersectedEllipsoids returns the transients
array as it was and maps every ellipsoid to zeroPass of it: an ellipsoid that is skipped
(transient, zero extents, box outside the grid) is returned as it was, every other one
gets num_rays = hits + pass_throughs and opacity = hits / (hits + pass_throughs) of its
candidate rays; pos, eigen_mat, time, extents, planarity, num_gone and transient of every
ellipsoid stay as they were. -/
theorem markIntersectedEllipsoids_zero_frame (X : Libs) (cloud : Cloud) (grid : Grid)
    (transients : List Bool) (ellipsoids : List Ellipsoid) (merge_type : String)
    (self_transient : Bool) :
    (markIntersectedEllipsoids X cloud grid transients ellipsoids merge_type 0
        self_transient).1 = transients ∧
      (markIntersectedEllipsoids X cloud grid transients ellipsoids merge_type 0
        self_transient).2 = ellipsoids.map (zeroPass X cloud grid) ∧
      ∀ e : Ellipsoid,
        (zeroPass X cloud grid e).transient = e.transient ∧
        (zeroPass X cloud grid e).pos = e.pos ∧
        (zeroPass X cloud grid e).eigen_mat = e.eigen_mat ∧
        (zeroPass X cloud grid e).time = e.time ∧
        (zeroPass X cloud grid e).extents = e.extents ∧
        (zeroPass X cloud grid e).planarity = e.planarity ∧
        (zeroPass X cloud grid e).num_gone = e.num_gone := by
  refine ⟨?_, ?_, ?_⟩
  · unfold markIntersectedEllipsoids
    simp only [markLoop_zeroPass]
  · unfold markIntersectedEllipsoids
    simp only [markLoop_zeroPass]
  · intro e
    obtain ⟨n, o, h⟩ := zeroPass_fields X cloud grid e
    rw [h]
    exact ⟨rfl, rfl, rfl, rfl, rfl, rfl, rfl⟩

theorem setAll_perm (a b : List ℕ) (h : a.Perm b) :
    ∀ t : List Bool, setAll a t = setAll b t := by
  induction h with
  | nil => intro t; rfl
  | cons x _ ih => intro t; exact ih (t.set x true)
  | swap x y l =>
    intro t
    show setAll l ((t.set y true).set x true) = setAll l ((t.set x true).set y true)
    by_cases hxy : y = x
    · rw [hxy]
    · rw [List.set_comm true true t hxy]
  | trans _ _ ih1 ih2 => intro t; rw [ih1, ih2]

/-- Claim C16. Within one call of markIntersectedEllipsoids, for every cloud, grid,
transients array, merge type, num_rays and mode: each ellipsoid is mapped to
markedEllipsoid of it, a function of that ellipsoid alone (so its opacity, num_rays,
num_gone and transient do not depend on its place in the list nor on the other
ellipsoids), and for every permutation of the ellipsoid list the final transients array is
the same. -/
theorem markIntersectedEllipsoids_order (X : Libs) (cloud : Cloud) (grid : Grid)
    (transients : List Bool) (merge_type : String) (num_rays : ℚ) (self_transient : Bool)
    (ellipsoids permuted : List Ellipsoid) (h : ellipsoids.Perm permuted) :
    (markIntersectedEllipsoids X cloud grid transients ellipsoids merge_type num_rays
        self_transient).2 =
        ellipsoids.map
          (markedEllipsoid X cloud grid (mergeTypeCode merge_type) num_rays self_transient) ∧
      (markIntersectedEllipsoids X cloud grid transients permuted merge_type num_rays
        self_transient).2 =
        permuted.map
          (markedEllipsoid X cloud grid (mergeTypeCode merge_type) num_rays self_transient) ∧
      (markIntersectedEllipsoids X cloud grid transients ellipsoids merge_type num_rays
        self_transient).1 =
        (markIntersectedEllipsoids X cloud grid transients permuted merge_type num_rays
          self_transient).1 := by
  obtain ⟨S, hS⟩ := markLoop_shape X cloud grid (mergeTypeCode merge_type) num_rays
    self_transient
  unfold markIntersectedEllipsoids
  simp only [hS]
  exact ⟨trivial, trivial, setAll_perm _ _ (h.flatMap_right S) transients⟩

/-- Claim C16 at the ellipsoids farEllipsoid and nearEllipsoid in both orders, for the
cloud farCloud and its grid, merge type max and num_rays 1. -/
theorem markIntersectedEllipsoids_order_witness :
    [farEllipsoid, nearEllipsoid].Perm [nearEllipsoid, farEllipsoid] ∧
      ((markIntersectedEllipsoids sampleLibs farCloud farGrid [false]
          [farEllipsoid, nearEllipsoid] "max" 1 false).2 =
          [farEllipsoid, nearEllipsoid].map
            (markedEllipsoid sampleLibs farCloud farGrid (mergeTypeCode "max") 1 false) ∧
        (markIntersectedEllipsoids sampleLibs farCloud farGrid [false]
          [nearEllipsoid, farEllipsoid] "max" 1 false).2 =
          [nearEllipsoid, farEllipsoid].map
            (markedEllipsoid sampleLibs farCloud farGrid (mergeTypeCode "max") 1 false) ∧
        (markIntersectedEllipsoids sampleLibs farCloud farGrid [false]
          [farEllipsoid, nearEllipsoid] "max" 1 false).1 =
          (markIntersectedEllipsoids sampleLibs farCloud farGrid [false]
            [nearEllipsoid, farEllipsoid] "max" 1 false).1) :=
  ⟨List.Perm.swap _ _ _,
    markIntersectedEllipsoids_order sampleLibs farCloud farGrid [false] "max" 1 false
      [farEllipsoid, nearEllipsoid] [nearEllipsoid, farEllipsoid] (List.Perm.swap _ _ _)⟩

/-! ## Theorems: generateEllipsoids, and threeWayMerge on an empty cloud -/

theorem generateEllipsoid_fields (X : Libs) (c : Cloud) (indices : List (List ℤ)) (i : ℕ) :
    (generateEllipsoid X c indices i).opacity = Dbl.fin 1 ∧
      (generateEllipsoid X c indices i).transient = false ∧
      (c.rayBounded i = false → (generateEllipsoid X c indices i).extents = Vector3d.zero) ∧
      (((neighbourColumn indices 16 i).filter c.rayBounded).length < 4 →
        (generateEllipsoid X c indices i).extents = Vector3d.zero) := by
  unfold generateEllipsoid
  simp only
  by_cases hb : (!c.rayBounded i) = true
  · rw [if_pos hb]
    exact ⟨rfl, rfl, fun _ => rfl, fun _ => rfl⟩
  · rw [if_neg hb]
    by_cases hn : ((((neighbourColumn indices 16 i).filter c.rayBounded).length : ℕ) : ℚ) < 4
    · rw [if_pos hn]
      exact ⟨rfl, rfl, fun _ => rfl, fun _ => rfl⟩
    · rw [if_neg hn]
      refine ⟨rfl, rfl, ?_, ?_⟩
      · intro h
        rw [h] at hb
        exact absurd rfl hb
      · intro h
        exfalso
        apply hn
        exact_mod_cast h

/-- Claim C17. For every cloud and every neighbour table that the nearest-neighbour query
returns, generateEllipsoids returns one ellipsoid per ray, and the ellipsoid at the index
i of a ray is the one that the loop body builds for ray i: its opacity is 1 and its
transient mark false; its extents are zero when ray i is unbounded, and when fewer than 4
of the neighbours that the table returns for ray i are bounded rays. -/
theorem generateEllipsoids_spec (X : Libs) (c : Cloud) (i : ℕ) (hi : i < c.ends.length) :
    (generateEllipsoids X c).length = c.ends.length ∧
      (generateEllipsoids X c).getD i default = generateEllipsoid X c (X.knn c.ends 16) i ∧
      ((generateEllipsoids X c).getD i default).opacity = Dbl.fin 1 ∧
      ((generateEllipsoids X c).getD i default).transient = false ∧
      (c.rayBounded i = false →
        ((generateEllipsoids X c).getD i default).extents = Vector3d.zero) ∧
      (((neighbourColumn (X.knn c.ends 16) 16 i).filter c.rayBounded).length < 4 →
        ((generateEllipsoids X c).getD i default).extents = Vector3d.zero) := by
  have hget : (generateEllipsoids X c).getD i default =
      generateEllipsoid X c (X.knn c.ends 16) i := by
    unfold generateEllipsoids
    rw [List.getD_eq_getElem _ _ (by simpa using hi)]
    simp
  rw [hget]
  exact ⟨generateEllipsoids_length X c, rfl, generateEllipsoid_fields X c _ i⟩

/-- Claim C17 at the first ray of sampleCloud, a bounded ray for which the neighbour table
of sampleLibs returns no neighbour. -/
theorem generateEllipsoids_spec_witness :
    0 < sampleCloud.ends.length ∧
      ((generateEllipsoids sampleLibs sampleCloud).length = sampleCloud.ends.length ∧
        (generateEllipsoids sampleLibs sampleCloud).getD 0 default =
          generateEllipsoid sampleLibs sampleCloud (sampleLibs.knn sampleCloud.ends 16) 0 ∧
        ((generateEllipsoids sampleLibs sampleCloud).getD 0 default).opacity = Dbl.fin 1 ∧
        ((generateEllipsoids sampleLibs sampleCloud).getD 0 default).transient = false ∧
        (sampleCloud.rayBounded 0 = false →
          ((generateEllipsoids sampleLibs sampleCloud).getD 0 default).extents =
            Vector3d.zero) ∧
        (((neighbourColumn (sampleLibs.knn sampleCloud.ends 16) 16 0).filter
            sampleCloud.rayBounded).length < 4 →
          ((generateEllipsoids sampleLibs sampleCloud).getD 0 default).extents =
            Vector3d.zero)) :=
  ⟨by decide, generateEllipsoids_spec sampleLibs sampleCloud 0 (by decide)⟩

/-- Claim C18, evaluated at an empty input cloud. Line 648 of threeWayMerge reads
times[0] of cloud1 and of cloud2 before anything else is decided from them: with an empty
cloud1, and with an empty cloud2, for every base cloud, other cloud, merge type and
num_rays, the call has no time stamp to read (the result none of the model), while the
loop of line 723 does guard against a cloud without rays. -/
theorem threeWayMerge_empty_reads_missing_time (X : Libs) (this base_cloud other : Cloud)
    (merge_type : String) (num_rays : ℚ) :
    Cloud.empty.times.head? = none ∧
      threeWayMerge X this base_cloud Cloud.empty other merge_type num_rays = none ∧
      threeWayMerge X this base_cloud other Cloud.empty merge_type num_rays = none := by
  refine ⟨rfl, ?_, ?_⟩
  · unfold threeWayMerge preFilter
    simp [Cloud.empty]
  · unfold threeWayMerge preFilter
    cases h : other.times.head? <;> simp [Cloud.empty, h]

/-! ## Theorems: the four arrays of a cloud keep one length -/

theorem resize_length {α : Type} [Inhabited α] (l : List α) (n : ℕ) :
    (resize l n).length = n := by
  unfold resize
  rw [List.length_append, List.length_take, List.length_replicate]
  omega

theorem Cloud.compact_WF (c : Cloud) (ids : List ℕ) : (c.compact ids).WF := by
  unfold Cloud.compact Cloud.WF
  simp only [resize_length]
  exact ⟨trivial, trivial, trivial⟩

theorem Cloud.append_ofRays_WF (c : Cloud) (l : List Ray) (h : c.WF) :
    (c.append (Cloud.ofRays l)).WF := by
  obtain ⟨h1, h2, h3⟩ := h
  unfold Cloud.append Cloud.ofRays Cloud.WF
  simp only [List.length_append, List.length_map]
  omega

theorem Cloud.split_foldl (c : Cloud) (fptr : ℕ → Bool) :
    ∀ (is : List ℕ) (a b : Cloud),
      is.foldl
          (fun (out : Cloud × Cloud) i =>
            if fptr i then
              (out.1,
                out.2.push (c.starts.getD i default) (c.ends.getD i default)
                  (c.times.getD i default) (c.colours.getD i default))
            else
              (out.1.push (c.starts.getD i default) (c.ends.getD i default)
                  (c.times.getD i default) (c.colours.getD i default),
                out.2))
          (a, b) =
        (a.append (Cloud.ofRays ((is.filter (fun i => !fptr i)).map c.rayAt)),
          b.append (Cloud.ofRays ((is.filter fptr).map c.rayAt))) := by
  intro is
  induction is with
  | nil =>
    intro a b
    simp [Cloud.append, Cloud.ofRays]
  | cons i is ih =>
    intro a b
    rw [List.foldl_cons]
    by_cases hf : fptr i = true
    · simp only [hf, if_true]
      rw [ih]
      simp [hf, Cloud.append, Cloud.ofRays, Cloud.push, Cloud.rayAt]
    · have hf2 : fptr i = false := by simpa using hf
      simp only [hf2, Bool.false_eq_true, if_false]
      rw [ih]
      simp [hf2, Cloud.append, Cloud.ofRays, Cloud.push, Cloud.rayAt]

theorem Cloud.split_eq (c cloud1 cloud2 : Cloud) (fptr : ℕ → Bool) :
    c.split cloud1 cloud2 fptr =
      (cloud1.append
          (Cloud.ofRays (((List.range c.ends.length).filter (fun i => !fptr i)).map c.rayAt)),
        cloud2.append
          (Cloud.ofRays (((List.range c.ends.length).filter fptr).map c.rayAt))) := by
  unfold Cloud.split
  exact Cloud.split_foldl c fptr _ cloud1 cloud2

theorem findTransients_appends (X : Libs) (cloud transient fixed : Cloud)
    (merge_type : String) (num_rays : ℚ) (colour_cloud : Bool) :
    ∃ l1 l2, findTransients X cloud transient fixed merge_type num_rays colour_cloud =
      (transient.append (Cloud.ofRays l1), fixed.append (Cloud.ofRays l2)) := by
  unfold findTransients
  exact ⟨_, _, foldl_push_pair (transientFlag X cloud merge_type num_rays)
    (transientRay X cloud merge_type num_rays colour_cloud) _ transient fixed⟩

/-- Claim C15. The operations that insert or remove rays keep the four arrays at one
length. removeUnboundedRays and decimate resize the four arrays to one size; split,
findTransients and combine append whole rays to clouds whose arrays had one length;
threeWayMerge, for two input clouds with at least one ray each, returns a merged cloud and
leaves both input clouds with four arrays of one length. -/
theorem cloud_arrays_one_length (X : Libs) (c cloud1 cloud2 this base_cloud out1 out2 : Cloud)
    (clouds : List Cloud) (voxel_width : ℚ) (fptr : ℕ → Bool) (merge_type : String)
    (num_rays : ℚ) (colour_cloud : Bool) (h1 : cloud1.WF) (h2 : cloud2.WF) (ht : this.WF)
    (ho1 : out1.WF) (ho2 : out2.WF) (hn1 : cloud1.ends ≠ []) (hn2 : cloud2.ends ≠ []) :
    c.removeUnboundedRays.WF ∧ (c.decimate voxel_width).WF ∧
      (c.split out1 out2 fptr).1.WF ∧ (c.split out1 out2 fptr).2.WF ∧
      (findTransients X c out1 out2 merge_type num_rays colour_cloud).1.WF ∧
      (findTransients X c out1 out2 merge_type num_rays colour_cloud).2.WF ∧
      (∃ merged c1 c2,
        threeWayMerge X this base_cloud cloud1 cloud2 merge_type num_rays =
          some (merged, c1, c2) ∧ merged.WF ∧ c1.WF ∧ c2.WF) ∧
      (combine X this clouds out1 merge_type num_rays).1.WF ∧
      (combine X this clouds out1 merge_type num_rays).2.WF := by
  refine ⟨Cloud.compact_WF _ _, Cloud.compact_WF _ _, ?_, ?_, ?_, ?_, ?_, ?_, ?_⟩
  · rw [Cloud.split_eq]
    exact Cloud.append_ofRays_WF _ _ ho1
  · rw [Cloud.split_eq]
    exact Cloud.append_ofRays_WF _ _ ho2
  · obtain ⟨l1, l2, h⟩ := findTransients_appends X c out1 out2 merge_type num_rays colour_cloud
    rw [h]
    exact Cloud.append_ofRays_WF _ _ ho1
  · obtain ⟨l1, l2, h⟩ := findTransients_appends X c out1 out2 merge_type num_rays colour_cloud
    rw [h]
    exact Cloud.append_ofRays_WF _ _ ho2
  · obtain ⟨m2, l1, l2, e1, e2, h, _⟩ :=
      threeWayMerge_spec X this base_cloud cloud1 cloud2 merge_type num_rays h1 h2 hn1 hn2
    exact ⟨_, _, _, h, Cloud.append_ofRays_WF _ _ ht, Cloud.ofRays_WF _, Cloud.ofRays_WF _⟩
  · rw [combine_eq]
    exact Cloud.append_ofRays_WF _ _ ht
  · rw [combine_eq]
    exact Cloud.append_ofRays_WF _ _ ho1

/-- Claim C15 at the cloud sampleCloud in every place, with voxel width 1 and the split
test that holds for ray 0 only. -/
theorem cloud_arrays_one_length_witness :
    sampleCloud.WF ∧ sampleCloud.ends ≠ [] ∧
      (sampleCloud.removeUnboundedRays.WF ∧ (sampleCloud.decimate 1).WF ∧
        (sampleCloud.split sampleCloud sampleCloud (fun i => decide (i = 0))).1.WF ∧
        (sampleCloud.split sampleCloud sampleCloud (fun i => decide (i = 0))).2.WF ∧
        (findTransients sampleLibs sampleCloud sampleCloud sampleCloud "min" 1 false).1.WF ∧
        (findTransients sampleLibs sampleCloud sampleCloud sampleCloud "min" 1 false).2.WF ∧
        (∃ merged c1 c2,
          threeWayMerge sampleLibs sampleCloud sampleCloud sampleCloud sampleCloud "min" 1 =
            some (merged, c1, c2) ∧ merged.WF ∧ c1.WF ∧ c2.WF) ∧
        (combine sampleLibs sampleCloud [sampleCloud, sampleCloud] sampleCloud "min" 1).1.WF ∧
        (combine sampleLibs sampleCloud [sampleCloud, sampleCloud] sampleCloud "min" 1).2.WF) :=
  ⟨sampleCloud_WF, sampleCloud_ne,
    cloud_arrays_one_length sampleLibs sampleCloud sampleCloud sampleCloud sampleCloud
      sampleCloud sampleCloud sampleCloud [sampleCloud, sampleCloud] 1
      (fun i => decide (i = 0)) "min" 1 false sampleCloud_WF sampleCloud_WF sampleCloud_WF
      sampleCloud_WF sampleCloud_WF sampleCloud_ne sampleCloud_ne⟩

/-! ## Theorems: voxelSubsample and decimate -/

theorem firstInVoxel_iff (points : List Vector3d) (voxelWidth : ℚ) (i : ℕ) :
    firstInVoxel points voxelWidth i = true ↔
      ∀ j, j < i →
        voxelPlace voxelWidth (points.getD j default) ≠
          voxelPlace voxelWidth (points.getD i default) := by
  unfold firstInVoxel
  simp [List.all_eq_true]

theorem voxelSubsample_fold (points : List Vector3d) (voxelWidth : ℚ) :
    ∀ k : ℕ, ∃ set : List Vector3i,
      (List.range k).foldl (voxelSubsampleStep points voxelWidth) ([], []) =
          ((List.range k).filter (firstInVoxel points voxelWidth), set) ∧
        ∀ v, v ∈ set ↔ ∃ j, j < k ∧ voxelPlace voxelWidth (points.getD j default) = v := by
  intro k
  induction k with
  | zero => exact ⟨[], rfl, fun v => by simp⟩
  | succ k ih =>
    obtain ⟨set, h1, h2⟩ := ih
    rw [List.range_succ, List.foldl_append, h1, List.filter_append]
    simp only [List.foldl_cons, List.foldl_nil]
    unfold voxelSubsampleStep
    simp only
    by_cases hm : voxelPlace voxelWidth (points.getD k default) ∈ set
    · have hf : firstInVoxel points voxelWidth k = false := by
        rw [Bool.eq_false_iff]
        intro hf
        obtain ⟨j, hj, he⟩ := (h2 _).1 hm
        exact (firstInVoxel_iff points voxelWidth k).1 hf j hj he
      refine ⟨set, ?_, ?_⟩
      · rw [if_pos hm]
        simp [hf]
      · intro v
        rw [h2]
        constructor
        · rintro ⟨j, hj, he⟩
          exact ⟨j, by omega, he⟩
        · rintro ⟨j, hj, he⟩
          by_cases hjk : j = k
          · subst hjk
            rw [← he]
            exact (h2 _).1 hm
          · exact ⟨j, by omega, he⟩
    · have hf : firstInVoxel points voxelWidth k = true := by
        rw [firstInVoxel_iff]
        intro j hj he
        exact hm ((h2 _).2 ⟨j, hj, he⟩)
      refine ⟨voxelPlace voxelWidth (points.getD k default) :: set, ?_, ?_⟩
      · rw [if_neg hm]
        simp [hf]
      · intro v
        rw [List.mem_cons, h2]
        constructor
        · rintro (he | ⟨j, hj, he⟩)
          · exact ⟨k, by omega, he.symm⟩
          · exact ⟨j, by omega, he⟩
        · rintro ⟨j, hj, he⟩
          by_cases hjk : j = k
          · subst hjk
            exact Or.inl he.symm
          · exact Or.inr ⟨j, by omega, he⟩

theorem voxelSubsample_eq (points : List Vector3d) (voxelWidth : ℚ) :
    voxelSubsample points voxelWidth =
      (List.range points.length).filter (firstInVoxel points voxelWidth) := by
  obtain ⟨set, h, _⟩ := voxelSubsample_fold points voxelWidth points.length
  unfold voxelSubsample
  rw [h]

theorem getD_set_eq {α : Type} (l : List α) (i j : ℕ) (x d : α) :
    (l.set i x).getD j d = if i = j ∧ i < l.length then x else l.getD j d := by
  simp only [List.getD_eq_getElem?_getD, List.getElem?_set]
  by_cases h : i = j
  · subst h
    by_cases h2 : i < l.length
    · simp [h2]
    · simp [h2]
      rw [List.getElem?_eq_none (by omega)]
      rfl
  · simp [h]

theorem le_getD_of_increasing (ids : List ℕ) (h : ids.Pairwise (fun a b => a < b)) :
    ∀ k, k < ids.length → k ≤ ids.getD k 0 := by
  intro k
  induction k with
  | zero => intro _; exact Nat.zero_le _
  | succ k ih =>
    intro hk
    have h1 := ih (by omega)
    have h2 : ids.getD k 0 < ids.getD (k + 1) 0 := by
      rw [List.getD_eq_getElem _ _ (by omega : k < ids.length), List.getD_eq_getElem _ _ hk]
      exact List.pairwise_iff_getElem.mp h k (k + 1) (by omega) hk (by omega)
    omega

theorem compact_list_inv {α : Type} [Inhabited α] (ids : List ℕ) (l : List α)
    (hs : ids.Pairwise (fun a b => a < b)) :
    ∀ k, k ≤ ids.length →
      ((List.range k).foldl (fun a i => a.set i (a.getD (ids.getD i 0) default)) l).length =
          l.length ∧
        ∀ j,
          ((List.range k).foldl (fun a i => a.set i (a.getD (ids.getD i 0) default)) l).getD j
              default =
            if j < k then l.getD (ids.getD j 0) default else l.getD j default := by
  intro k
  induction k with
  | zero => intro _; exact ⟨rfl, fun j => by simp⟩
  | succ k ih =>
    intro hk
    obtain ⟨h1, h2⟩ := ih (by omega)
    rw [List.range_succ, List.foldl_append]
    simp only [List.foldl_cons, List.foldl_nil]
    refine ⟨by rw [List.length_set, h1], ?_⟩
    intro j
    rw [getD_set_eq, h1, h2 (ids.getD k 0), h2 j]
    have hle := le_getD_of_increasing ids hs k (by omega)
    rw [if_neg (by omega : ¬ ids.getD k 0 < k)]
    by_cases hjk : k = j
    · subst hjk
      by_cases hlt : k < l.length
      · rw [if_pos ⟨rfl, hlt⟩, if_pos (by omega)]
      · rw [if_neg (fun h => hlt h.2), if_neg (by omega), if_pos (by omega)]
        rw [List.getD_eq_default _ _ (by omega), List.getD_eq_default _ _ (by omega)]
    · rw [if_neg (fun h => hjk h.1)]
      by_cases hj : j < k
      · rw [if_pos hj, if_pos (by omega)]
      · rw [if_neg hj, if_neg (by omega)]

theorem resize_compact_list {α : Type} [Inhabited α] (ids : List ℕ) (l : List α)
    (hs : ids.Pairwise (fun a b => a < b)) (hb : ∀ id ∈ ids, id < l.length) :
    resize
        ((List.range ids.length).foldl (fun a i => a.set i (a.getD (ids.getD i 0) default)) l)
        ids.length =
      ids.map (fun id => l.getD id default) := by
  obtain ⟨h1, h2⟩ := compact_list_inv ids l hs ids.length (le_refl _)
  have hlen : ids.length ≤ l.length := by
    by_cases h0 : ids.length = 0
    · omega
    · have hk := le_getD_of_increasing ids hs (ids.length - 1) (by omega)
      have hm : ids.getD (ids.length - 1) 0 ∈ ids := by
        rw [List.getD_eq_getElem _ _ (by omega : ids.length - 1 < ids.length)]
        exact List.getElem_mem _
      have := hb _ hm
      omega
  apply List.ext_getElem
  · rw [resize_length, List.length_map]
  · intro j hj1 hj2
    rw [resize_length] at hj1
    have hj : (resize
        ((List.range ids.length).foldl (fun a i => a.set i (a.getD (ids.getD i 0) default)) l)
        ids.length).getD j default = l.getD (ids.getD j 0) default := by
      unfold resize
      rw [List.getD_append _ _ _ _ (by rw [List.length_take, h1]; omega),
        List.getD_eq_getElem _ _ (by rw [List.length_take, h1]; omega), List.getElem_take,
        ← List.getD_eq_getElem _ default, h2 j, if_pos hj1]
    rw [List.getD_eq_getElem _ _ (by rw [resize_length]; exact hj1)] at hj
    rw [hj, List.getElem_map, List.getD_eq_getElem _ _ hj1]

theorem compactStep_foldl (ids : List ℕ) :
    ∀ (is : List ℕ) (c : Cloud),
      is.foldl (compactStep ids) c =
        ⟨is.foldl (fun a i => a.set i (a.getD (ids.getD i 0) default)) c.starts,
          is.foldl (fun a i => a.set i (a.getD (ids.getD i 0) default)) c.ends,
          is.foldl (fun a i => a.set i (a.getD (ids.getD i 0) default)) c.times,
          is.foldl (fun a i => a.set i (a.getD (ids.getD i 0) default)) c.colours⟩ := by
  intro is
  induction is with
  | nil => intro c; rfl
  | cons i is ih =>
    intro c
    rw [List.foldl_cons, ih]
    rfl

theorem Cloud.compact_eq (c : Cloud) (ids : List ℕ) (hc : c.WF)
    (hs : ids.Pairwise (fun a b => a < b)) (hb : ∀ id ∈ ids, id < c.ends.length) :
    c.compact ids = Cloud.ofRays (ids.map c.rayAt) := by
  obtain ⟨h1, h2, h3⟩ := hc
  unfold Cloud.compact
  simp only [compactStep_foldl]
  rw [resize_compact_list ids c.starts hs (by rw [h1]; exact hb),
    resize_compact_list ids c.ends hs hb,
    resize_compact_list ids c.times hs (by rw [h2]; exact hb),
    resize_compact_list ids c.colours hs (by rw [h3]; exact hb)]
  simp [Cloud.ofRays, Cloud.rayAt, Function.comp_def]

theorem voxelSubsample_increasing (points : List Vector3d) (voxelWidth : ℚ) :
    (voxelSubsample points voxelWidth).Pairwise (fun a b => a < b) := by
  rw [voxelSubsample_eq]
  exact List.Pairwise.filter _ (List.pairwise_lt_range _)

theorem mem_voxelSubsample (points : List Vector3d) (voxelWidth : ℚ) (i : ℕ) :
    i ∈ voxelSubsample points voxelWidth ↔
      i < points.length ∧
        ∀ j, j < i →
          voxelPlace voxelWidth (points.getD j default) ≠
            voxelPlace voxelWidth (points.getD i default) := by
  rw [voxelSubsample_eq, List.mem_filter, List.mem_range, firstInVoxel_iff]

theorem voxelSubsample_unique (points : List Vector3d) (voxelWidth : ℚ) (k m : ℕ)
    (hk : k ∈ voxelSubsample points voxelWidth) (hm : m ∈ voxelSubsample points voxelWidth)
    (he : voxelPlace voxelWidth (points.getD m default) =
      voxelPlace voxelWidth (points.getD k default)) : m = k := by
  rw [mem_voxelSubsample] at hk hm
  rcases Nat.lt_trichotomy m k with h | h | h
  · exact absurd he (hk.2 m h)
  · exact h
  · exact absurd he.symm (hm.2 k h)

theorem voxelSubsample_covers (points : List Vector3d) (voxelWidth : ℚ) (i : ℕ)
    (hi : i < points.length) :
    ∃ k, k ∈ voxelSubsample points voxelWidth ∧ k ≤ i ∧
      voxelPlace voxelWidth (points.getD k default) =
        voxelPlace voxelWidth (points.getD i default) := by
  have hex : ∃ k, voxelPlace voxelWidth (points.getD k default) =
      voxelPlace voxelWidth (points.getD i default) := ⟨i, rfl⟩
  refine ⟨Nat.find hex, ?_, Nat.find_min' hex rfl, Nat.find_spec hex⟩
  rw [mem_voxelSubsample]
  refine ⟨lt_of_le_of_lt (Nat.find_min' hex rfl) hi, ?_⟩
  intro j hj he
  exact Nat.find_min hex hj (he.trans (Nat.find_spec hex))

/-- Claim C20. For every list of points and every positive voxel width, voxelSubsample
returns strictly increasing indices; an index is returned if and only if it is an index of
the list and no earlier point falls in the voxel of its point (voxel = floor of each
coordinate divided by the width); every point of the list has exactly one returned index
in its voxel, at or before its own index. For a cloud with four arrays of one length,
decimate leaves exactly the rays at the returned indices of the end points, in that
order, each with its own start, end, time and colour, and no two remaining end points
share a voxel. -/
theorem decimate_one_per_voxel (points : List Vector3d) (c : Cloud) (voxel_width : ℚ)
    (_hw : 0 < voxel_width) (hc : c.WF) :
    (voxelSubsample points voxel_width).Pairwise (fun a b => a < b) ∧
      (∀ i, i ∈ voxelSubsample points voxel_width ↔
        i < points.length ∧
          ∀ j, j < i →
            voxelPlace voxel_width (points.getD j default) ≠
              voxelPlace voxel_width (points.getD i default)) ∧
      (∀ i, i < points.length →
        ∃ k, k ∈ voxelSubsample points voxel_width ∧ k ≤ i ∧
          voxelPlace voxel_width (points.getD k default) =
            voxelPlace voxel_width (points.getD i default) ∧
          ∀ m, m ∈ voxelSubsample points voxel_width →
            voxelPlace voxel_width (points.getD m default) =
              voxelPlace voxel_width (points.getD i default) → m = k) ∧
      c.decimate voxel_width =
        Cloud.ofRays ((voxelSubsample c.ends voxel_width).map c.rayAt) ∧
      (c.decimate voxel_width).rays = (voxelSubsample c.ends voxel_width).map c.rayAt ∧
      ((c.decimate voxel_width).ends.map (voxelPlace voxel_width)).Nodup := by
  have hdec : c.decimate voxel_width =
      Cloud.ofRays ((voxelSubsample c.ends voxel_width).map c.rayAt) := by
    unfold Cloud.decimate
    exact Cloud.compact_eq c _ hc (voxelSubsample_increasing _ _)
      (fun id hid => ((mem_voxelSubsample _ _ _).1 hid).1)
  refine ⟨voxelSubsample_increasing _ _, mem_voxelSubsample _ _, ?_, hdec, ?_, ?_⟩
  · intro i hi
    obtain ⟨k, hk, hki, he⟩ := voxelSubsample_covers points voxel_width i hi
    refine ⟨k, hk, hki, he, ?_⟩
    intro m hm hme
    exact voxelSubsample_unique points voxel_width k m hk hm (hme.trans he.symm)
  · rw [hdec, Cloud.ofRays_rays]
  · rw [hdec]
    simp only [Cloud.ofRays, List.map_map]
    apply List.Nodup.map_on
    · intro k hk m hm he
      exact (voxelSubsample_unique c.ends voxel_width k m hk hm he.symm).symm
    · exact (voxelSubsample_increasing c.ends voxel_width).imp (fun h => ne_of_lt h)

/-- Claim C20 at the end points of sampleCloud and the voxel width 1. -/
theorem decimate_one_per_voxel_witness :
    (0 : ℚ) < 1 ∧ sampleCloud.WF ∧
      ((voxelSubsample sampleCloud.ends 1).Pairwise (fun a b => a < b) ∧
        (∀ i, i ∈ voxelSubsample sampleCloud.ends 1 ↔
          i < sampleCloud.ends.length ∧
            ∀ j, j < i →
              voxelPlace 1 (sampleCloud.ends.getD j default) ≠
                voxelPlace 1 (sampleCloud.ends.getD i default)) ∧
        (∀ i, i < sampleCloud.ends.length →
          ∃ k, k ∈ voxelSubsample sampleCloud.ends 1 ∧ k ≤ i ∧
            voxelPlace 1 (sampleCloud.ends.getD k default) =
              voxelPlace 1 (sampleCloud.ends.getD i default) ∧
            ∀ m, m ∈ voxelSubsample sampleCloud.ends 1 →
              voxelPlace 1 (sampleCloud.ends.getD m default) =
                voxelPlace 1 (sampleCloud.ends.getD i default) → m = k) ∧
        sampleCloud.decimate 1 =
          Cloud.ofRays ((voxelSubsample sampleCloud.ends 1).map sampleCloud.rayAt) ∧
        (sampleCloud.decimate 1).rays =
          (voxelSubsample sampleCloud.ends 1).map sampleCloud.rayAt ∧
        ((sampleCloud.decimate 1).ends.map (voxelPlace 1)).Nodup) :=
  ⟨by norm_num, sampleCloud_WF,
    decimate_one_per_voxel sampleCloud.ends sampleCloud 1 (by norm_num) sampleCloud_WF⟩

/-! ## Theorems: median -/

theorem sortNth_spec : NthElement sortNth := by
  intro l n
  refine ⟨List.perm_insertionSort _ l, ?_⟩
  intro i j hi hn hj
  have hs : (l.insertionSort (fun a b => a ≤ b)).Sorted (fun a b => a ≤ b) :=
    List.sorted_insertionSort _ l
  have hlen : (l.insertionSort (fun a b => a ≤ b)).length = l.length :=
    List.length_insertionSort _ l
  unfold sortNth
  rw [List.getD_eq_getElem _ _ (by omega : i < (l.insertionSort (fun a b => a ≤ b)).length),
    List.getD_eq_getElem _ _ (by omega : j < (l.insertionSort (fun a b => a ≤ b)).length)]
  rcases Nat.lt_or_ge i j with h | h
  · exact List.pairwise_iff_getElem.mp hs i j (by omega) (by omega) h
  · have : i = j := by omega
    subst this
    exact le_refl _

theorem sortedMedian_sample : sortedMedian [1, 2, 3, 5] = 5 / 2 := by
  simp [sortedMedian, List.insertionSort, List.orderedInsert]
  norm_num

theorem median_two (nth_element : List ℚ → ℕ → List ℚ) (h : NthElement nth_element)
    (a b : ℚ) : median nth_element [a, b] = none := by
  have h1 := (h [a, b] 1).1.length_eq
  have h2 := (h (nth_element [a, b] 1) 2).1.length_eq
  rw [h1] at h2
  have hmed : median nth_element [a, b] =
      match (nth_element (nth_element [a, b] 1) 2)[1]?,
        (nth_element (nth_element [a, b] 1) 2)[2]? with
      | some x, some y => some ((x + y) / 2)
      | _, _ => none := by
    unfold median
    simp only [List.length_cons, List.length_nil]
    rw [if_neg (by decide)]
  have hnone : (nth_element (nth_element [a, b] 1) 2)[2]? = none :=
    List.getElem?_eq_none (by rw [h2]; simp)
  rw [hmed, hnone]
  cases (nth_element (nth_element [a, b] 1) 2)[1]? <;> rfl

theorem median_sample (nth_element : List ℚ → ℕ → List ℚ) (h : NthElement nth_element) :
    ∃ x, x ∈ ([1, 2, 3] : List ℚ) ∧
      median nth_element [1, 2, 3, 5] = some ((x + 5) / 2) := by
  have hp : (nth_element (nth_element [1, 2, 3, 5] 2) 3).Perm [1, 2, 3, 5] :=
    (h (nth_element [1, 2, 3, 5] 2) 3).1.trans (h [1, 2, 3, 5] 2).1
  have hl1 : (nth_element [1, 2, 3, 5] 2).length = 4 := (h [1, 2, 3, 5] 2).1.length_eq
  have hord := (h (nth_element [1, 2, 3, 5] 2) 3).2
  rw [hl1] at hord
  have hmed : median nth_element [1, 2, 3, 5] =
      match (nth_element (nth_element [1, 2, 3, 5] 2) 3)[2]?,
        (nth_element (nth_element [1, 2, 3, 5] 2) 3)[3]? with
      | some a, some b => some ((a + b) / 2)
      | _, _ => none := by
    unfold median
    simp only [List.length_cons, List.length_nil]
    rw [if_neg (by decide)]
  rw [hmed]
  generalize nth_element (nth_element [1, 2, 3, 5] 2) 3 = l2 at hp hord
  have hlen : l2.length = 4 := hp.length_eq
  match l2, hlen with
  | [a, b, c, d], _ =>
    have ha := hord 0 3 (by omega) (by omega) (by omega)
    have hb := hord 1 3 (by omega) (by omega) (by omega)
    have hc := hord 2 3 (by omega) (by omega) (by omega)
    simp only [List.getD_cons_zero, List.getD_cons_succ] at ha hb hc
    have hnd : ([a, b, c, d] : List ℚ).Nodup := hp.nodup_iff.mpr (by norm_num)
    have hmem : ∀ x, x ∈ ([a, b, c, d] : List ℚ) ↔ x ∈ ([1, 2, 3, 5] : List ℚ) :=
      fun x => hp.mem_iff
    have h5 := (hmem 5).2 (by simp)
    have hd := (hmem d).1 (by simp)
    have hcm := (hmem c).1 (by simp)
    have hd5 : d = 5 := by
      simp only [List.mem_cons, List.mem_singleton, List.not_mem_nil, or_false] at h5 hd
      have hge : (5 : ℚ) ≤ d := by
        rcases h5 with h5 | h5 | h5 | h5
        · rw [h5]; exact ha
        · rw [h5]; exact hb
        · rw [h5]; exact hc
        · rw [h5]
      rcases hd with hd | hd | hd | hd
      · rw [hd] at hge; norm_num at hge
      · rw [hd] at hge; norm_num at hge
      · rw [hd] at hge; norm_num at hge
      · exact hd
    have hcd : c ≠ d := by
      intro hcd
      simp [hcd] at hnd
    refine ⟨c, ?_, ?_⟩
    · simp only [List.mem_cons, List.mem_singleton, List.not_mem_nil, or_false] at hcm ⊢
      rcases hcm with hcm | hcm | hcm | hcm
      · exact Or.inl hcm
      · exact Or.inr (Or.inl hcm)
      · exact Or.inr (Or.inr hcm)
      · exact absurd (hcm.trans hd5.symm) hcd
    · simp [hd5]

/-- Claim C19, evaluated at lists of even length, for every std::nth_element that does
what the C++ standard promises. For a list of two elements median reads the element behind
the last one (the iterator middle + 1 is the end of the list). For [1, 2, 3, 5] it returns
(x + 5) / 2 for one of the three smaller elements x, never the mean 5/2 of the two middle
elements 2 and 3 of the sorted list. -/
theorem median_even_length (nth_element : List ℚ → ℕ → List ℚ) (h : NthElement nth_element) :
    median nth_element [1, 2] = none ∧
      (∃ x, x ∈ ([1, 2, 3] : List ℚ) ∧
        median nth_element [1, 2, 3, 5] = some ((x + 5) / 2)) ∧
      sortedMedian [1, 2, 3, 5] = 5 / 2 ∧
      median nth_element [1, 2, 3, 5] ≠ some (sortedMedian [1, 2, 3, 5]) := by
  refine ⟨median_two nth_element h 1 2, median_sample nth_element h, sortedMedian_sample, ?_⟩
  obtain ⟨x, hx, hm⟩ := median_sample nth_element h
  rw [hm, sortedMedian_sample]
  simp only [List.mem_cons, List.mem_singleton, List.not_mem_nil, or_false] at hx
  intro he
  have he2 : (x + 5) / 2 = 5 / 2 := Option.some.inj he
  rcases hx with hx | hx | hx <;> rw [hx] at he2 <;> norm_num at he2

/-- Claim C19 at the stand-in sortNth for std::nth_element, which sorts the whole list. -/
theorem median_even_length_witness :
    NthElement sortNth ∧
      (median sortNth [1, 2] = none ∧
        (∃ x, x ∈ ([1, 2, 3] : List ℚ) ∧ median sortNth [1, 2, 3, 5] = some ((x + 5) / 2)) ∧
        sortedMedian [1, 2, 3, 5] = 5 / 2 ∧
        median sortNth [1, 2, 3, 5] ≠ some (sortedMedian [1, 2, 3, 5])) :=
  ⟨sortNth_spec, median_even_length sortNth sortNth_spec⟩

/-! ## Theorems: the accumulator of the proportional removal -/

set_option exponentiation.threshold 3000 in
set_option maxRecDepth 100000 in
theorem removeRays_double_half :
    (List.range 4).foldl (removeRaysStepDouble farCloud Tally.init (2 ^ 1073) false)
        (0, List.replicate 4 false) = (0, [false, true, false, true]) := by
  decide

theorem nextIndex_eq_distance (grid : Grid) (w : RayWalk) (index : Vector3i) :
    nextIndex grid w index =
      if Dbl.lt (boundaryDistance grid w index).1 (boundaryDistance grid w index).2.1 &&
          Dbl.lt (boundaryDistance grid w index).1 (boundaryDistance grid w index).2.2 then
        { index with x := index.x + castInt w.dir_sign.x }
      else if Dbl.lt (boundaryDistance grid w index).2.1 (boundaryDistance grid w index).1 &&
          Dbl.lt (boundaryDistance grid w index).2.1 (boundaryDistance grid w index).2.2 then
        { index with y := index.y + castInt w.dir_sign.y }
      else { index with z := index.z + castInt w.dir_sign.z } := rfl

theorem sq_step_lt (a s : ℤ) (hs : s = 1 ∨ s = -1) (h : 0 ≤ a * s) :
    a * a < (a + s) * (a + s) := by
  rcases hs with h1 | h1 <;> subst h1 <;> nlinarith

theorem nextIndex_sqDist (grid : Grid) (w : RayWalk) (index : Vector3i)
    (hx : castInt w.dir_sign.x = 1 ∨ castInt w.dir_sign.x = -1)
    (hy : castInt w.dir_sign.y = 1 ∨ castInt w.dir_sign.y = -1)
    (hz : castInt w.dir_sign.z = 1 ∨ castInt w.dir_sign.z = -1) (hf : Forward w index) :
    sqDist w index < sqDist w (nextIndex grid w index) := by
  obtain ⟨h1, h2, h3⟩ := hf
  have a1 := sq_step_lt _ _ hx h1
  have a2 := sq_step_lt _ _ hy h2
  have a3 := sq_step_lt _ _ hz h3
  rcases nextIndex_cases grid w index with h | h | h <;> rw [h] <;>
    simp only [sqDist, Vector3i.sub, Vector3i.squaredNorm]
  · have e : index.x + castInt w.dir_sign.x - w.start_index.x =
        index.x - w.start_index.x + castInt w.dir_sign.x := by ring
    rw [e]
    linarith
  · have e : index.y + castInt w.dir_sign.y - w.start_index.y =
        index.y - w.start_index.y + castInt w.dir_sign.y := by ring
    rw [e]
    linarith
  · have e : index.z + castInt w.dir_sign.z - w.start_index.z =
        index.z - w.start_index.z + castInt w.dir_sign.z := by ring
    rw [e]
    linarith

theorem walk_length_le (grid : Grid) (w : RayWalk) :
    ∀ (fuel : ℕ) (index : Vector3i) (l : List Vector3i), walk grid w fuel index = some l →
      l.length ≤ fuel := by
  intro fuel
  induction fuel with
  | zero => intro index l h; simp [walk] at h
  | succ n ih =>
    intro index l h
    rw [walk] at h
    split_ifs at h with hc
    · cases h; simp
    · cases hrec : walk grid w n (nextIndex grid w index) with
      | none => simp [hrec] at h
      | some l2 =>
        simp [hrec] at h
        subst h
        have := ih _ _ hrec
        simp only [List.length_cons]
        omega

theorem walk_further (grid : Grid) (w : RayWalk)
    (hx : castInt w.dir_sign.x = 1 ∨ castInt w.dir_sign.x = -1)
    (hy : castInt w.dir_sign.y = 1 ∨ castInt w.dir_sign.y = -1)
    (hz : castInt w.dir_sign.z = 1 ∨ castInt w.dir_sign.z = -1) :
    ∀ (fuel : ℕ) (index : Vector3i) (l : List Vector3i), Forward w index →
      walk grid w fuel index = some l →
      l.head? = some index ∧
        List.Chain' (fun u v => Adjacent6 u v ∧ sqDist w u < sqDist w v) l := by
  intro fuel
  induction fuel with
  | zero => intro index l _ h; simp [walk] at h
  | succ n ih =>
    intro index l hf h
    rw [walk] at h
    split_ifs at h with hc
    · cases h; simp
    · cases hrec : walk grid w n (nextIndex grid w index) with
      | none => simp [hrec] at h
      | some l2 =>
        simp [hrec] at h
        subst h
        obtain ⟨hh, hch⟩ := ih _ _ (nextIndex_forward grid w index hx hy hz hf).1 hrec
        refine ⟨by simp, ?_⟩
        rw [List.chain'_cons']
        refine ⟨?_, hch⟩
        intro y hy2
        rw [hh] at hy2
        cases hy2
        exact ⟨nextIndex_adjacent grid w index hx hy hz,
          nextIndex_sqDist grid w index hx hy hz hf⟩

theorem nodup_of_chain_sqDist (w : RayWalk) (l : List Vector3i)
    (h : List.Chain' (fun u v => Adjacent6 u v ∧ sqDist w u < sqDist w v) l) : l.Nodup := by
  have h2 : List.Chain' (fun u v => sqDist w u < sqDist w v) l := h.imp (fun _ _ hab => hab.2)
  haveI : IsTrans Vector3i (fun u v => sqDist w u < sqDist w v) :=
    ⟨fun _ _ _ h1 h2 => lt_trans h1 h2⟩
  have h3 := List.chain'_iff_pairwise.mp h2
  exact h3.imp (fun hab he => by rw [he] at hab; exact lt_irrefl _ hab)

/-- Claim C22. The traversal of fillGrid ends for every grid and every ray, zero-length
rays and rays with a zero direction component included: the list of visited voxels
exists; every step leads to a voxel that differs by one unit on one axis and whose
squared index distance from the start voxel is strictly larger; no voxel is visited
twice; and at most length_sqr + 2 voxels are visited, that is at most length_sqr + 1
steps, where length_sqr is the squared voxel distance between start and end voxel. -/
theorem fillGrid_traversal_ends (grid : Grid) (start endPoint : Vector3d) :
    ∃ l, rayVoxels grid start endPoint = some l ∧
      List.Chain'
        (fun u v =>
          Adjacent6 u v ∧
            sqDist (rayWalk grid start endPoint) u < sqDist (rayWalk grid start endPoint) v)
        l ∧
      l.Nodup ∧ ((l.length : ℤ) ≤ (rayWalk grid start endPoint).length_sqr + 2) ∧
      (rayWalk grid start endPoint).length_sqr =
        sqDist (rayWalk grid start endPoint) (rayWalk grid start endPoint).end_index := by
  obtain ⟨l, hl⟩ := rayVoxels_isSome grid start endPoint
  obtain ⟨hx, hy, hz⟩ := rayWalk_sign grid start endPoint
  have hf : Forward (rayWalk grid start endPoint) (rayWalk grid start endPoint).start_index := by
    simp [Forward]
  have hch := (walk_further grid _ hx hy hz _ _ _ hf hl).2
  have hlen := walk_length_le grid _ _ _ _ hl
  have hnn : ∀ v : Vector3i, 0 ≤ v.squaredNorm := by
    intro v
    unfold Vector3i.squaredNorm
    nlinarith [mul_self_nonneg v.x, mul_self_nonneg v.y, mul_self_nonneg v.z]
  have hsq : 0 ≤ (rayWalk grid start endPoint).length_sqr := hnn _
  refine ⟨l, hl, hch, nodup_of_chain_sqDist _ l hch, ?_, rfl⟩
  have := Int.toNat_of_nonneg hsq
  omega

theorem rayWalk_tie_xy :
    rayWalk unitGrid ⟨0, 0, 0⟩ ⟨2, 2, 1⟩ =
      { start := ⟨0, 0, 0⟩, dir := ⟨2, 2, 1⟩, dir_sign := ⟨1, 1, 1⟩, start_index := ⟨0, 0, 0⟩,
        end_index := ⟨2, 2, 1⟩, length_sqr := 9 } := by
  simp [rayWalk, unitGrid, Vector3d.sub, Vector3d.sdiv, Vector3i.sub, Vector3i.squaredNorm, sgn]

theorem rayWalk_tie_xyz :
    rayWalk unitGrid ⟨0, 0, 0⟩ ⟨1, 1, 1⟩ =
      { start := ⟨0, 0, 0⟩, dir := ⟨1, 1, 1⟩, dir_sign := ⟨1, 1, 1⟩, start_index := ⟨0, 0, 0⟩,
        end_index := ⟨1, 1, 1⟩, length_sqr := 3 } := by
  simp [rayWalk, unitGrid, Vector3d.sub, Vector3d.sdiv, Vector3i.sub, Vector3i.squaredNorm, sgn]

/-- Claim C21, evaluated at two ties in a grid of unit voxels. For the ray from (0, 0, 0)
to (2, 2, 1) the distances to the next boundaries at the start voxel are 1/2 on x, 1/2 on
y and 1 on z: x and y tie for nearest, and the step goes along z, the axis whose boundary
is farthest; the traversal is (0, 0, 0), (0, 0, 1), (0, 0, 2), (0, 0, 3), (0, 0, 4) and
never advances on x or y. For the ray from (0, 0, 0) to (1, 1, 1) the three distances are
1, 1, 1 and the step goes along z, not along x, the first tied axis. -/
theorem fillGrid_tie_steps_along_z :
    boundaryDistance unitGrid (rayWalk unitGrid ⟨0, 0, 0⟩ ⟨2, 2, 1⟩) ⟨0, 0, 0⟩ =
        (Dbl.fin (1 / 2), Dbl.fin (1 / 2), Dbl.fin 1) ∧
      nextIndex unitGrid (rayWalk unitGrid ⟨0, 0, 0⟩ ⟨2, 2, 1⟩) ⟨0, 0, 0⟩ = ⟨0, 0, 1⟩ ∧
      rayVoxels unitGrid ⟨0, 0, 0⟩ ⟨2, 2, 1⟩ =
        some [⟨0, 0, 0⟩, ⟨0, 0, 1⟩, ⟨0, 0, 2⟩, ⟨0, 0, 3⟩, ⟨0, 0, 4⟩] ∧
      boundaryDistance unitGrid (rayWalk unitGrid ⟨0, 0, 0⟩ ⟨1, 1, 1⟩) ⟨0, 0, 0⟩ =
        (Dbl.fin 1, Dbl.fin 1, Dbl.fin 1) ∧
      nextIndex unitGrid (rayWalk unitGrid ⟨0, 0, 0⟩ ⟨1, 1, 1⟩) ⟨0, 0, 0⟩ = ⟨0, 0, 1⟩ := by
  have hd1 : boundaryDistance unitGrid (rayWalk unitGrid ⟨0, 0, 0⟩ ⟨2, 2, 1⟩) ⟨0, 0, 0⟩ =
      (Dbl.fin (1 / 2), Dbl.fin (1 / 2), Dbl.fin 1) := by
    rw [rayWalk_tie_xy]
    simp [boundaryDistance, unitGrid, Vector3d.add, Vector3d.smul, Vector3d.sub, Dbl.div]
    norm_num
  have hd2 : boundaryDistance unitGrid (rayWalk unitGrid ⟨0, 0, 0⟩ ⟨1, 1, 1⟩) ⟨0, 0, 0⟩ =
      (Dbl.fin 1, Dbl.fin 1, Dbl.fin 1) := by
    rw [rayWalk_tie_xyz]
    simp [boundaryDistance, unitGrid, Vector3d.add, Vector3d.smul, Vector3d.sub, Dbl.div]
    norm_num
  refine ⟨hd1, ?_, ?_, hd2, ?_⟩
  · rw [nextIndex_eq_distance, hd1, rayWalk_tie_xy]
    simp [Dbl.lt, castInt_one]
  · simp [rayVoxels, rayWalk, walk, nextIndex, unitGrid, Vector3d.sub, Vector3d.sdiv,
      Vector3i.sub, Vector3i.squaredNorm, Vector3d.add, Vector3d.smul, sgn, Dbl.div, Dbl.lt,
      castInt]
  · rw [nextIndex_eq_distance, hd2, rayWalk_tie_xyz]
    simp [Dbl.lt, castInt_one]

/-! ## Theorems: what the merge types min and max can change -/

theorem decideEllipsoid_unfold (cloud : Cloud) (type : ℕ) (num_rays : ℚ)
    (self_transient : Bool) (t : Tally) (ellipsoid : Ellipsoid) (transients : List Bool) :
    decideEllipsoid cloud type num_rays self_transient t ellipsoid transients =
      if (talliedEllipsoid num_rays self_transient t ellipsoid).num_rays = 0 ∨
          Dbl.eq (talliedEllipsoid num_rays self_transient t ellipsoid).opacity (Dbl.fin 0) =
            true ∨ num_rays = 0 then
        (talliedEllipsoid num_rays self_transient t ellipsoid, transients)
      else decisionStep cloud type num_rays self_transient t ellipsoid transients := rfl

theorem applyRemoval_true (cloud : Cloud) (self_transient : Bool) (t : Tally)
    (ellipsoid : Ellipsoid) (transients : List Bool) :
    applyRemoval cloud self_transient t true ellipsoid transients =
      ({ ellipsoid with transient := true }, transients) := by
  unfold applyRemoval
  rw [if_pos rfl]

theorem applyRemoval_false_fst (cloud : Cloud) (self_transient : Bool) (t : Tally)
    (ellipsoid : Ellipsoid) (transients : List Bool) :
    (applyRemoval cloud self_transient t false ellipsoid transients).1 = ellipsoid := by
  unfold applyRemoval
  rw [if_neg Bool.false_ne_true]

theorem decideEllipsoid_min_frame (cloud : Cloud) (num_rays : ℚ) (self_transient : Bool)
    (t : Tally) (ellipsoid : Ellipsoid) (transients : List Bool) :
    (decideEllipsoid cloud 2 num_rays self_transient t ellipsoid transients).2 = transients := by
  rw [decideEllipsoid_unfold]
  split_ifs
  · rfl
  · unfold decisionStep
    rw [if_neg (by decide : ¬((2 : ℕ) = 0 ∨ (2 : ℕ) = 1))]
    split_ifs
    · rfl
    · rw [show decide ((2 : ℕ) = 2) = true from rfl, applyRemoval_true]

theorem decideEllipsoid_max_transient (cloud : Cloud) (num_rays : ℚ) (self_transient : Bool)
    (t : Tally) (ellipsoid : Ellipsoid) (transients : List Bool) :
    (decideEllipsoid cloud 3 num_rays self_transient t ellipsoid transients).1.transient =
      ellipsoid.transient := by
  rw [decideEllipsoid_unfold]
  split_ifs
  · exact (talliedEllipsoid_num_rays _ _ _ _).2
  · unfold decisionStep
    rw [if_neg (by decide : ¬((3 : ℕ) = 0 ∨ (3 : ℕ) = 1))]
    split_ifs
    · exact countedEllipsoid_transient _ _ _ _ _
    · rw [show decide ((3 : ℕ) = 2) = false from rfl, applyRemoval_false_fst]
      exact countedEllipsoid_transient _ _ _ _ _

theorem markEllipsoid_min_frame (X : Libs) (cloud : Cloud) (grid : Grid) (num_rays : ℚ)
    (self_transient : Bool) (transients : List Bool) (ellipsoid : Ellipsoid) :
    (markEllipsoid X cloud grid 2 num_rays self_transient
        (transients, List.replicate cloud.ends.length false) ellipsoid).2 =
      (transients, List.replicate cloud.ends.length false) := by
  by_cases h1 : ellipsoid.transient = true
  · unfold markEllipsoid
    rw [if_pos h1]
  · by_cases h2 : ellipsoid.extents = Vector3d.zero
    · unfold markEllipsoid
      rw [if_neg h1, if_pos h2]
    · cases h3 : cellRange grid ellipsoid with
      | none =>
        unfold markEllipsoid
        rw [if_neg h1, if_neg h2, h3]
      | some b =>
        rw [markEllipsoid_eq X cloud grid 2 num_rays self_transient transients ellipsoid b
          (by simpa using h1) h2 h3, decideEllipsoid_min_frame]

theorem markLoop_min_frame (X : Libs) (cloud : Cloud) (grid : Grid) (num_rays : ℚ)
    (self_transient : Bool) :
    ∀ (ellipsoids : List Ellipsoid) (transients : List Bool),
      (markLoop X cloud grid 2 num_rays self_transient ellipsoids
          (transients, List.replicate cloud.ends.length false)).2 =
        (transients, List.replicate cloud.ends.length false) := by
  intro ellipsoids
  induction ellipsoids with
  | nil => intro transients; rfl
  | cons e es ih =>
    intro transients
    simp only [markLoop]
    rw [markEllipsoid_min_frame, ih]

theorem markedEllipsoid_max_transient (X : Libs) (cloud : Cloud) (grid : Grid) (num_rays : ℚ)
    (self_transient : Bool) (ellipsoid : Ellipsoid) :
    (markedEllipsoid X cloud grid 3 num_rays self_transient ellipsoid).transient =
      ellipsoid.transient := by
  unfold markedEllipsoid
  by_cases h1 : ellipsoid.transient = true
  · unfold markEllipsoid
    rw [if_pos h1]
  · by_cases h2 : ellipsoid.extents = Vector3d.zero
    · unfold markEllipsoid
      rw [if_neg h1, if_pos h2]
    · cases h3 : cellRange grid ellipsoid with
      | none =>
        unfold markEllipsoid
        rw [if_neg h1, if_neg h2, h3]
      | some b =>
        rw [markEllipsoid_eq X cloud grid 3 num_rays self_transient [] ellipsoid b
          (by simpa using h1) h2 h3, decideEllipsoid_max_transient]

theorem mergeTypeCode_max : mergeTypeCode "max" = 3 := by decide

/-- Claim C26. For every cloud, grid, transients array, ellipsoid list, num_rays and mode:
markIntersectedEllipsoids with merge type min returns the transients array as it was, and
with merge type max it returns every ellipsoid with the transient mark that it had. -/
theorem min_max_disjoint_state (X : Libs) (cloud : Cloud) (grid : Grid)
    (transients : List Bool) (ellipsoids : List Ellipsoid) (num_rays : ℚ)
    (self_transient : Bool) :
    (markIntersectedEllipsoids X cloud grid transients ellipsoids "min" num_rays
        self_transient).1 = transients ∧
      (markIntersectedEllipsoids X cloud grid transients ellipsoids "max" num_rays
        self_transient).2.map (fun e => e.transient) =
        ellipsoids.map (fun e => e.transient) := by
  constructor
  · unfold markIntersectedEllipsoids
    simp only [mergeTypeCode_min, markLoop_min_frame]
  · obtain ⟨S, hS⟩ := markLoop_shape X cloud grid 3 num_rays self_transient
    unfold markIntersectedEllipsoids
    simp only [mergeTypeCode_max, hS, List.map_map]
    apply List.map_congr_left
    intro e _
    exact markedEllipsoid_max_transient X cloud grid num_rays self_transient e

/-! ## Theorems: the counters in cross-cloud mode -/

theorem talliedEllipsoid_cross (num_rays : ℚ) (hn : num_rays ≠ 0) (t : Tally)
    (ellipsoid : Ellipsoid) :
    talliedEllipsoid num_rays false t ellipsoid =
      { ellipsoid with num_rays := t.hits + t.pass_through_ids.length } := by
  unfold talliedEllipsoid
  simp [hn]

theorem countBeforeAfter_cross_eq (cloud : Cloud) (t : Tally) (ellipsoid : Ellipsoid) :
    countBeforeAfter cloud false t ellipsoid =
      if 0 < t.pass_through_ids.length then
        if cloud.times.getD (t.pass_through_ids.getD 0 0) default > ellipsoid.time then
          (ellipsoid, 0, t.pass_through_ids.length)
        else (ellipsoid, t.pass_through_ids.length, 0)
      else (ellipsoid, 0, 0) := by
  unfold countBeforeAfter
  rw [if_neg Bool.false_ne_true]

theorem removeRaysStep_cross (cloud cloud2 : Cloud) (t : Tally) (opacity : Dbl) :
    removeRaysStep cloud2 t opacity false = removeRaysStep cloud t opacity false := by
  funext st i
  unfold removeRaysStep
  simp

theorem applyRemoval_cross (cloud cloud2 : Cloud) (t : Tally) (remove_ellipsoid : Bool)
    (ellipsoid : Ellipsoid) (transients : List Bool) :
    applyRemoval cloud2 false t remove_ellipsoid ellipsoid transients =
      applyRemoval cloud false t remove_ellipsoid ellipsoid transients := by
  unfold applyRemoval
  rw [removeRaysStep_cross cloud cloud2]

/-- Claim C28. In cross-cloud mode with num_rays above 0 and at least one pass-through
ray: when the time of the first pass-through ray is later than the time of the ellipsoid,
num_before is 0 and num_after is the number of pass-through rays, otherwise num_before is
that number and num_after is 0; the ellipsoid keeps the opacity that it had, through the
counting and through the decision; and the decision is the same for every cloud in which
the first pass-through ray has the same time, whatever the times of the other rays. -/
theorem cross_counts_one_side (cloud : Cloud) (num_rays : ℚ) (t : Tally)
    (ellipsoid : Ellipsoid) (hn : 0 < num_rays) (hp : t.pass_through_ids ≠ []) :
    (cloud.times.getD (t.pass_through_ids.getD 0 0) default > ellipsoid.time →
        numBefore cloud num_rays false t ellipsoid = 0 ∧
          numAfter cloud num_rays false t ellipsoid = t.pass_through_ids.length) ∧
      (¬ cloud.times.getD (t.pass_through_ids.getD 0 0) default > ellipsoid.time →
        numBefore cloud num_rays false t ellipsoid = t.pass_through_ids.length ∧
          numAfter cloud num_rays false t ellipsoid = 0) ∧
      (countedEllipsoid cloud num_rays false t ellipsoid).opacity = ellipsoid.opacity ∧
      (∀ (type : ℕ) (transients : List Bool),
        (decideEllipsoid cloud type num_rays false t ellipsoid transients).1.opacity =
          ellipsoid.opacity) ∧
      ∀ (cloud2 : Cloud) (type : ℕ) (transients : List Bool),
        cloud2.times.getD (t.pass_through_ids.getD 0 0) default =
            cloud.times.getD (t.pass_through_ids.getD 0 0) default →
          decideEllipsoid cloud2 type num_rays false t ellipsoid transients =
            decideEllipsoid cloud type num_rays false t ellipsoid transients := by
  have hlen : 0 < t.pass_through_ids.length := List.length_pos.mpr hp
  have hcount : ∀ c : Cloud,
      countBeforeAfter c false t (talliedEllipsoid num_rays false t ellipsoid) =
        if c.times.getD (t.pass_through_ids.getD 0 0) default > ellipsoid.time then
          (talliedEllipsoid num_rays false t ellipsoid, 0, t.pass_through_ids.length)
        else (talliedEllipsoid num_rays false t ellipsoid, t.pass_through_ids.length, 0) := by
    intro c
    rw [countBeforeAfter_cross_eq, if_pos hlen, talliedEllipsoid_cross num_rays (ne_of_gt hn)]
  have hop : (talliedEllipsoid num_rays false t ellipsoid).opacity = ellipsoid.opacity := by
    rw [talliedEllipsoid_cross num_rays (ne_of_gt hn)]
  have hcop : ∀ c : Cloud,
      (countedEllipsoid c num_rays false t ellipsoid).opacity = ellipsoid.opacity := by
    intro c
    unfold countedEllipsoid
    rw [hcount]
    split_ifs <;> exact hop
  refine ⟨?_, ?_, hcop cloud, ?_, ?_⟩
  · intro h
    unfold numBefore numAfter
    rw [hcount, if_pos h]
    exact ⟨rfl, rfl⟩
  · intro h
    unfold numBefore numAfter
    rw [hcount, if_neg h]
    exact ⟨rfl, rfl⟩
  · intro type transients
    rw [decideEllipsoid_unfold]
    split_ifs
    · exact hop
    · unfold decisionStep
      split_ifs <;> first | exact hcop cloud | (rw [applyRemoval_opacity]; exact hcop cloud)
  · intro cloud2 type transients h2
    have hc2 : countBeforeAfter cloud2 false t (talliedEllipsoid num_rays false t ellipsoid) =
        countBeforeAfter cloud false t (talliedEllipsoid num_rays false t ellipsoid) := by
      rw [hcount, hcount, h2]
    rw [decideEllipsoid_unfold, decideEllipsoid_unfold]
    unfold decisionStep sequenceLength countedEllipsoid numBefore numAfter
    simp only [hc2, applyRemoval_cross cloud cloud2]

/-- Claim C28 at the cloud farCloud, the ellipsoid nearEllipsoid, its counters nearTally
and num_rays 1. -/
theorem cross_counts_one_side_witness :
    (0 : ℚ) < 1 ∧ nearTally.pass_through_ids ≠ [] ∧
      ((farCloud.times.getD (nearTally.pass_through_ids.getD 0 0) default > nearEllipsoid.time →
        numBefore farCloud 1 false nearTally nearEllipsoid = 0 ∧
          numAfter farCloud 1 false nearTally nearEllipsoid = nearTally.pass_through_ids.length) ∧
      (¬ farCloud.times.getD (nearTally.pass_through_ids.getD 0 0) default > nearEllipsoid.time →
        numBefore farCloud 1 false nearTally nearEllipsoid = nearTally.pass_through_ids.length ∧
          numAfter farCloud 1 false nearTally nearEllipsoid = 0) ∧
      (countedEllipsoid farCloud 1 false nearTally nearEllipsoid).opacity = nearEllipsoid.opacity ∧
      (∀ (type : ℕ) (transients : List Bool),
        (decideEllipsoid farCloud type 1 false nearTally nearEllipsoid transients).1.opacity =
          nearEllipsoid.opacity) ∧
      ∀ (cloud2 : Cloud) (type : ℕ) (transients : List Bool),
        cloud2.times.getD (nearTally.pass_through_ids.getD 0 0) default =
            farCloud.times.getD (nearTally.pass_through_ids.getD 0 0) default →
          decideEllipsoid cloud2 type 1 false nearTally nearEllipsoid transients =
            decideEllipsoid farCloud type 1 false nearTally nearEllipsoid transients) :=
  ⟨by norm_num, by simp [nearTally],
    cross_counts_one_side farCloud 1 nearTally nearEllipsoid (by norm_num)
      (by simp [nearTally])⟩

/-! ## Theorems: the candidate rays of an ellipsoid are counted once -/

theorem tally_counts (X : Libs) (cloud : Cloud) (ellipsoid : Ellipsoid) :
    ∀ (ids : List ℕ) (t : Tally),
      (ids.foldl (tallyRay X cloud ellipsoid) t).hits =
          t.hits + ids.countP (fun i => decide (classifyRay X cloud ellipsoid i = RayClass.hit)) ∧
        (ids.foldl (tallyRay X cloud ellipsoid) t).pass_through_ids =
          t.pass_through_ids ++
            ids.filter (fun i => decide (classifyRay X cloud ellipsoid i = RayClass.pass)) := by
  intro ids
  induction ids with
  | nil => intro t; simp
  | cons i ids ih =>
    intro t
    rw [List.foldl_cons]
    obtain ⟨h1, h2⟩ := ih (tallyRay X cloud ellipsoid t i)
    rw [h1, h2]
    unfold tallyRay
    cases hc : classifyRay X cloud ellipsoid i <;> simp [hc, List.countP_cons]
    omega

theorem countP_add_filter_le (ids : List ℕ) (p q : ℕ → Bool)
    (hpq : ∀ i, p i = true → q i = false) :
    ids.countP p + (ids.filter q).length ≤ ids.length := by
  induction ids with
  | nil => simp
  | cons i ids ih =>
    by_cases hp : p i = true
    · simp [List.countP_cons, List.filter_cons, hp, hpq i hp]
      omega
    · by_cases hq : q i = true
      · simp [List.countP_cons, List.filter_cons, hp, hq]
        omega
      · simp [List.countP_cons, List.filter_cons, hp, hq]
        omega

theorem markLoop_guard (X : Libs) (cloud : Cloud) (grid : Grid) (type : ℕ) (num_rays : ℚ)
    (self_transient : Bool) (ellipsoids : List Ellipsoid) (transients : List Bool) :
    (markLoop X cloud grid type num_rays self_transient ellipsoids
        (transients, List.replicate cloud.ends.length false)).2.2 =
      List.replicate cloud.ends.length false := by
  obtain ⟨S, hS⟩ := markLoop_shape X cloud grid type num_rays self_transient
  rw [hS]

/-- Claim C24. For a grid that holds indices of rays of the cloud, and the cells from
bmin to bmax: the candidate list gathered with a clear guard holds no ray id twice,
however often the id is stored in those cells; the counters of an ellipsoid count each
candidate once (hits is the number of candidates classified hit, pass_through_ids the
candidates classified pass-through, in order, and together they are at most the number of
candidates); clearing the guard for the candidates makes it all false again; and the
guard is all false after any number of rounds of the loop over the ellipsoids. -/
theorem candidates_distinct (X : Libs) (cloud : Cloud) (grid : Grid)
    (hg : ∀ v, ∀ i ∈ grid.cells v, i < cloud.ends.length) (bmin bmax : Vector3i)
    (ellipsoid : Ellipsoid) :
    (gatherRays grid bmin bmax (List.replicate cloud.ends.length false)).2.Nodup ∧
      ((gatherRays grid bmin bmax (List.replicate cloud.ends.length false)).2.foldl
          (tallyRay X cloud ellipsoid) Tally.init).hits =
        (gatherRays grid bmin bmax (List.replicate cloud.ends.length false)).2.countP
          (fun i => decide (classifyRay X cloud ellipsoid i = RayClass.hit)) ∧
      ((gatherRays grid bmin bmax (List.replicate cloud.ends.length false)).2.foldl
          (tallyRay X cloud ellipsoid) Tally.init).pass_through_ids =
        (gatherRays grid bmin bmax (List.replicate cloud.ends.length false)).2.filter
          (fun i => decide (classifyRay X cloud ellipsoid i = RayClass.pass)) ∧
      ((gatherRays grid bmin bmax (List.replicate cloud.ends.length false)).2.foldl
            (tallyRay X cloud ellipsoid) Tally.init).hits +
          ((gatherRays grid bmin bmax (List.replicate cloud.ends.length false)).2.foldl
            (tallyRay X cloud ellipsoid) Tally.init).pass_through_ids.length ≤
        (gatherRays grid bmin bmax (List.replicate cloud.ends.length false)).2.length ∧
      resetTested (gatherRays grid bmin bmax (List.replicate cloud.ends.length false)).2
          (gatherRays grid bmin bmax (List.replicate cloud.ends.length false)).1 =
        List.replicate cloud.ends.length false ∧
      ∀ (type : ℕ) (num_rays : ℚ) (self_transient : Bool) (ellipsoids : List Ellipsoid)
        (transients : List Bool),
        (markLoop X cloud grid type num_rays self_transient ellipsoids
            (transients, List.replicate cloud.ends.length false)).2.2 =
          List.replicate cloud.ends.length false := by
  have hinv := gatherRays_inv grid cloud.ends.length hg bmin bmax _
    (gatherInv_init cloud.ends.length)
  obtain ⟨h1, h2⟩ := tally_counts X cloud ellipsoid
    (gatherRays grid bmin bmax (List.replicate cloud.ends.length false)).2 Tally.init
  have e0 : Tally.init.hits = 0 := rfl
  have e1 : Tally.init.pass_through_ids = [] := rfl
  rw [e0, Nat.zero_add] at h1
  rw [e1, List.nil_append] at h2
  refine ⟨hinv.2.1, h1, h2, ?_, resetTested_inv cloud.ends.length _ hinv, ?_⟩
  · rw [h1, h2]
    apply countP_add_filter_le
    intro i hi
    simp only [decide_eq_true_eq] at hi
    simp [hi]
  · intro type num_rays self_transient ellipsoids transients
    exact markLoop_guard X cloud grid type num_rays self_transient ellipsoids transients


theorem farGrid_cells_lt : ∀ v, ∀ i ∈ farGrid.cells v, i < farCloud.ends.length := by
  apply fillGrid_cells_lt
  intro v k hk
  simp [farGrid0] at hk

/-- Claim C24 at the cloud farCloud, its grid farGrid, the one cell of that grid and the
ellipsoid nearEllipsoid. -/
theorem candidates_distinct_witness :
    (∀ v, ∀ i ∈ farGrid.cells v, i < farCloud.ends.length) ∧
      ((gatherRays farGrid ⟨0, 0, 0⟩ ⟨0, 0, 0⟩ (List.replicate farCloud.ends.length false)).2.Nodup
          ∧
      ((gatherRays farGrid ⟨0, 0, 0⟩ ⟨0, 0, 0⟩ (List.replicate farCloud.ends.length false)).2.foldl
          (tallyRay sampleLibs farCloud nearEllipsoid) Tally.init).hits =
        (gatherRays farGrid ⟨0, 0, 0⟩ ⟨0, 0, 0⟩ (List.replicate farCloud.ends.length
            false)).2.countP
          (fun i => decide (classifyRay sampleLibs farCloud nearEllipsoid i = RayClass.hit)) ∧
      ((gatherRays farGrid ⟨0, 0, 0⟩ ⟨0, 0, 0⟩ (List.replicate farCloud.ends.length false)).2.foldl
          (tallyRay sampleLibs farCloud nearEllipsoid) Tally.init).pass_through_ids =
        (gatherRays farGrid ⟨0, 0, 0⟩ ⟨0, 0, 0⟩ (List.replicate farCloud.ends.length
            false)).2.filter
          (fun i => decide (classifyRay sampleLibs farCloud nearEllipsoid i = RayClass.pass)) ∧
      ((gatherRays farGrid ⟨0, 0, 0⟩ ⟨0, 0, 0⟩ (List.replicate farCloud.ends.length false)).2.foldl
            (tallyRay sampleLibs farCloud nearEllipsoid) Tally.init).hits +
          ((gatherRays farGrid ⟨0, 0, 0⟩ ⟨0, 0, 0⟩ (List.replicate farCloud.ends.length
              false)).2.foldl
            (tallyRay sampleLibs farCloud nearEllipsoid) Tally.init).pass_through_ids.length ≤
        (gatherRays farGrid ⟨0, 0, 0⟩ ⟨0, 0, 0⟩ (List.replicate farCloud.ends.length
            false)).2.length ∧
      resetTested (gatherRays farGrid ⟨0, 0, 0⟩ ⟨0, 0, 0⟩ (List.replicate farCloud.ends.length
          false)).2
          (gatherRays farGrid ⟨0, 0, 0⟩ ⟨0, 0, 0⟩ (List.replicate farCloud.ends.length false)).1 =
        List.replicate farCloud.ends.length false ∧
      ∀ (type : ℕ) (num_rays : ℚ) (self_transient : Bool) (ellipsoids : List Ellipsoid)
        (transients : List Bool),
        (markLoop sampleLibs farCloud farGrid type num_rays self_transient ellipsoids
            (transients, List.replicate farCloud.ends.length false)).2.2 =
          List.replicate farCloud.ends.length false) :=
  ⟨farGrid_cells_lt,
    candidates_distinct sampleLibs farCloud farGrid farGrid_cells_lt ⟨0, 0, 0⟩ ⟨0, 0, 0⟩
      nearEllipsoid⟩

/-! ## Theorems: the opacity in self-comparison mode -/

theorem passStats_fold (cloud : Cloud) (t : Tally) :
    ∀ (ids : List ℕ) (s : PassStats),
      ids.foldl (passStatsStep cloud t) s =
        ⟨s.num_before +
            ids.countP
              (fun i => !decide (cloud.times.getD i default > t.last_intersection_time) &&
                decide (cloud.times.getD i default < t.first_intersection_time)),
          s.num_after +
            ids.countP (fun i => decide (cloud.times.getD i default > t.last_intersection_time)),
          s.misses +
            ids.countP
              (fun i => !decide (cloud.times.getD i default > t.last_intersection_time) &&
                !decide (cloud.times.getD i default < t.first_intersection_time))⟩ := by
  intro ids
  induction ids with
  | nil => intro s; simp
  | cons i ids ih =>
    intro s
    rw [List.foldl_cons, ih]
    unfold passStatsStep
    simp only [List.countP_cons]
    generalize cloud.times.getD i default = x
    by_cases h1 : x > t.last_intersection_time
    · rw [if_pos h1]
      simp only [decide_eq_true h1, Bool.not_true, Bool.false_and, Bool.false_eq_true,
        if_false, if_true, PassStats.mk.injEq]
      omega
    · rw [if_neg h1]
      by_cases h2 : x < t.first_intersection_time
      · rw [if_pos h2]
        simp only [decide_eq_false h1, decide_eq_true h2, Bool.not_false, Bool.not_true,
          Bool.true_and, Bool.and_false, Bool.false_eq_true, if_false, if_true,
          PassStats.mk.injEq]
        omega
      · rw [if_neg h2]
        simp only [decide_eq_false h1, decide_eq_false h2, Bool.not_false, Bool.true_and,
          Bool.and_true, Bool.and_false, Bool.false_eq_true, if_false, if_true,
          PassStats.mk.injEq]
        omega

theorem tally_first_le_last (X : Libs) (cloud : Cloud) (ellipsoid : Ellipsoid) :
    ∀ (ids : List ℕ) (t : Tally),
      (t.hits = 0 ∨ t.first_intersection_time ≤ t.last_intersection_time) →
        ((ids.foldl (tallyRay X cloud ellipsoid) t).hits = 0 ∨
          (ids.foldl (tallyRay X cloud ellipsoid) t).first_intersection_time ≤
            (ids.foldl (tallyRay X cloud ellipsoid) t).last_intersection_time) := by
  intro ids
  induction ids with
  | nil => intro t h; exact h
  | cons i ids ih =>
    intro t h
    rw [List.foldl_cons]
    apply ih
    unfold tallyRay
    cases hc : classifyRay X cloud ellipsoid i
    · exact h
    · right
      exact le_trans (min_le_right _ _) (le_max_right _ _)
    · exact h

theorem foldr_min_base (l : List ℚ) (b x : ℚ) :
    l.foldr min (min b x) = min x (l.foldr min b) := by
  induction l with
  | nil => exact min_comm b x
  | cons a l ih =>
    rw [List.foldr_cons, List.foldr_cons, ih]
    exact min_left_comm a x _

theorem foldr_max_base (l : List ℚ) (b x : ℚ) :
    l.foldr max (max b x) = max x (l.foldr max b) := by
  induction l with
  | nil => exact max_comm b x
  | cons a l ih =>
    rw [List.foldr_cons, List.foldr_cons, ih]
    exact max_left_comm a x _

theorem tally_times (X : Libs) (cloud : Cloud) (ellipsoid : Ellipsoid) :
    ∀ (ids : List ℕ) (t : Tally),
      (ids.foldl (tallyRay X cloud ellipsoid) t).first_intersection_time =
          (hitTimes X cloud ellipsoid ids).foldr min t.first_intersection_time ∧
        (ids.foldl (tallyRay X cloud ellipsoid) t).last_intersection_time =
          (hitTimes X cloud ellipsoid ids).foldr max t.last_intersection_time := by
  intro ids
  induction ids with
  | nil => intro t; exact ⟨rfl, rfl⟩
  | cons i ids ih =>
    intro t
    rw [List.foldl_cons]
    obtain ⟨h1, h2⟩ := ih (tallyRay X cloud ellipsoid t i)
    rw [h1, h2]
    unfold tallyRay hitTimes hitRays
    cases hc : classifyRay X cloud ellipsoid i
    · simp [List.filter_cons, hc]
    · simp only [List.filter_cons, hc, decide_True, if_true, List.map_cons, List.foldr_cons]
      exact ⟨foldr_min_base _ _ _, foldr_max_base _ _ _⟩
    · simp [List.filter_cons, hc]

theorem tally_init (X : Libs) (cloud : Cloud) (ellipsoid : Ellipsoid) (ids : List ℕ) :
    (ids.foldl (tallyRay X cloud ellipsoid) Tally.init).hits =
        (hitRays X cloud ellipsoid ids).length ∧
      (ids.foldl (tallyRay X cloud ellipsoid) Tally.init).pass_through_ids =
        passRays X cloud ellipsoid ids ∧
      (ids.foldl (tallyRay X cloud ellipsoid) Tally.init).first_intersection_time =
        cappedFirstHitTime (hitTimes X cloud ellipsoid ids) ∧
      (ids.foldl (tallyRay X cloud ellipsoid) Tally.init).last_intersection_time =
        cappedLastHitTime (hitTimes X cloud ellipsoid ids) := by
  obtain ⟨h1, h2⟩ := tally_counts X cloud ellipsoid ids Tally.init
  obtain ⟨h3, h4⟩ := tally_times X cloud ellipsoid ids Tally.init
  refine ⟨?_, ?_, h3, h4⟩
  · rw [h1, List.countP_eq_length_filter]
    simp [Tally.init, hitRays]
  · rw [h2]
    simp [Tally.init, passRays]

theorem cappedFirstHitTime_spec (times : List ℚ) :
    cappedFirstHitTime times ≤ 10 ^ 10 ∧
      (∀ x ∈ times, cappedFirstHitTime times ≤ x) ∧
      (cappedFirstHitTime times = 10 ^ 10 ∨ cappedFirstHitTime times ∈ times) := by
  induction times with
  | nil => exact ⟨le_refl _, fun x hx => absurd hx (List.not_mem_nil x), Or.inl rfl⟩
  | cons a l ih =>
    obtain ⟨h1, h2, h3⟩ := ih
    have hc : cappedFirstHitTime (a :: l) = min a (cappedFirstHitTime l) := rfl
    rw [hc]
    refine ⟨le_trans (min_le_right _ _) h1, ?_, ?_⟩
    · intro x hx
      rcases List.mem_cons.mp hx with hx | hx
      · rw [hx]
        exact min_le_left _ _
      · exact le_trans (min_le_right _ _) (h2 x hx)
    · rcases le_total a (cappedFirstHitTime l) with h | h
      · right
        rw [min_eq_left h]
        exact List.mem_cons_self a l
      · rw [min_eq_right h]
        rcases h3 with h3 | h3
        · exact Or.inl h3
        · exact Or.inr (List.mem_cons_of_mem a h3)

theorem cappedLastHitTime_spec (times : List ℚ) :
    -(10 ^ 10) ≤ cappedLastHitTime times ∧
      (∀ x ∈ times, x ≤ cappedLastHitTime times) ∧
      (cappedLastHitTime times = -(10 ^ 10) ∨ cappedLastHitTime times ∈ times) := by
  induction times with
  | nil => exact ⟨le_refl _, fun x hx => absurd hx (List.not_mem_nil x), Or.inl rfl⟩
  | cons a l ih =>
    obtain ⟨h1, h2, h3⟩ := ih
    have hc : cappedLastHitTime (a :: l) = max a (cappedLastHitTime l) := rfl
    rw [hc]
    refine ⟨le_trans h1 (le_max_right _ _), ?_, ?_⟩
    · intro x hx
      rcases List.mem_cons.mp hx with hx | hx
      · rw [hx]
        exact le_max_left _ _
      · exact le_trans (h2 x hx) (le_max_right _ _)
    · rcases le_total (cappedLastHitTime l) a with h | h
      · right
        rw [max_eq_left h]
        exact List.mem_cons_self a l
      · rw [max_eq_right h]
        rcases h3 with h3 | h3
        · exact Or.inl h3
        · exact Or.inr (List.mem_cons_of_mem a h3)

theorem cappedFirstHitTime_mem (times : List ℚ) (hne : times ≠ [])
    (hcap : ∀ x ∈ times, x ≤ 10 ^ 10) : cappedFirstHitTime times ∈ times := by
  obtain ⟨_, h2, h3⟩ := cappedFirstHitTime_spec times
  rcases h3 with h3 | h3
  · obtain ⟨x, hx⟩ := List.exists_mem_of_ne_nil times hne
    have hxe : x = cappedFirstHitTime times :=
      le_antisymm (by rw [h3]; exact hcap x hx) (h2 x hx)
    rw [← hxe]
    exact hx
  · exact h3

theorem cappedLastHitTime_mem (times : List ℚ) (hne : times ≠ [])
    (hcap : ∀ x ∈ times, -(10 ^ 10) ≤ x) : cappedLastHitTime times ∈ times := by
  obtain ⟨_, h2, h3⟩ := cappedLastHitTime_spec times
  rcases h3 with h3 | h3
  · obtain ⟨x, hx⟩ := List.exists_mem_of_ne_nil times hne
    have hxe : x = cappedLastHitTime times :=
      le_antisymm (h2 x hx) (by rw [h3]; exact hcap x hx)
    rw [← hxe]
    exact hx
  · exact h3

theorem capped_first_le_last (times : List ℚ) (hne : times ≠ []) :
    cappedFirstHitTime times ≤ cappedLastHitTime times := by
  obtain ⟨x, hx⟩ := List.exists_mem_of_ne_nil times hne
  exact le_trans ((cappedFirstHitTime_spec times).2.1 x hx)
    ((cappedLastHitTime_spec times).2.1 x hx)

theorem countBeforeAfter_self (cloud : Cloud) (t : Tally) (ellipsoid : Ellipsoid) :
    ∃ (e2 : Ellipsoid),
      countBeforeAfter cloud true t ellipsoid =
          (e2,
            t.pass_through_ids.countP
              (fun i => !decide (cloud.times.getD i default > t.last_intersection_time) &&
                decide (cloud.times.getD i default < t.first_intersection_time)),
            afterCount cloud t.pass_through_ids t.last_intersection_time) ∧
        e2.opacity =
          Dbl.div (Dbl.fin ((t.hits : ℚ) + 1 / 10 ^ 8 - 1))
            (Dbl.fin ((t.hits : ℚ) + 1 / 10 ^ 8 - 1 +
              (missCount cloud t.pass_through_ids t.first_intersection_time
                t.last_intersection_time : ℚ))) ∧
        e2.num_gone =
          t.pass_through_ids.countP
              (fun i => !decide (cloud.times.getD i default > t.last_intersection_time) &&
                decide (cloud.times.getD i default < t.first_intersection_time)) +
            afterCount cloud t.pass_through_ids t.last_intersection_time := by
  unfold countBeforeAfter
  rw [if_pos rfl, passStats_fold]
  simp only [Nat.zero_add]
  exact ⟨_, rfl, rfl, rfl⟩

theorem beforeCount_guarded (cloud : Cloud) (passes : List ℕ) (first last : ℚ)
    (hfl : first ≤ last) :
    passes.countP
        (fun i => !decide (cloud.times.getD i default > last) &&
          decide (cloud.times.getD i default < first)) =
      beforeCount cloud passes first := by
  unfold beforeCount
  apply List.countP_congr
  intro i _
  simp only [Bool.and_eq_true, Bool.not_eq_true', decide_eq_false_iff_not, decide_eq_true_eq]
  constructor
  · intro h
    exact h.2
  · intro h
    exact ⟨not_lt.mpr (le_trans (le_of_lt h) hfl), h⟩

theorem applyRemoval_num_gone (cloud : Cloud) (self_transient : Bool) (t : Tally)
    (remove_ellipsoid : Bool) (ellipsoid : Ellipsoid) (transients : List Bool) :
    (applyRemoval cloud self_transient t remove_ellipsoid ellipsoid transients).1.num_gone =
      ellipsoid.num_gone := by
  unfold applyRemoval
  split_ifs <;> rfl

theorem decisionStep_fields (cloud : Cloud) (type : ℕ) (num_rays : ℚ) (self_transient : Bool)
    (t : Tally) (ellipsoid : Ellipsoid) (transients : List Bool) :
    (decisionStep cloud type num_rays self_transient t ellipsoid transients).1.opacity =
        (countedEllipsoid cloud num_rays self_transient t ellipsoid).opacity ∧
      (decisionStep cloud type num_rays self_transient t ellipsoid transients).1.num_gone =
        (countedEllipsoid cloud num_rays self_transient t ellipsoid).num_gone := by
  unfold decisionStep
  split_ifs <;>
    first
      | exact ⟨rfl, rfl⟩
      | exact ⟨applyRemoval_opacity _ _ _ _ _ _, applyRemoval_num_gone _ _ _ _ _ _⟩

theorem talliedEllipsoid_self (num_rays : ℚ) (t : Tally) (ellipsoid : Ellipsoid) :
    talliedEllipsoid num_rays true t ellipsoid =
      { ellipsoid with
        num_rays := t.hits + t.pass_through_ids.length
        opacity := Dbl.div (Dbl.fin (t.hits : ℚ))
          (Dbl.fin ((t.hits : ℚ) + (t.pass_through_ids.length : ℚ))) } := by
  unfold talliedEllipsoid
  simp

theorem self_guard (num_rays : ℚ) (hn : 0 < num_rays) (t : Tally) (ellipsoid : Ellipsoid)
    (hh : 1 ≤ t.hits) :
    ¬ ((talliedEllipsoid num_rays true t ellipsoid).num_rays = 0 ∨
      Dbl.eq (talliedEllipsoid num_rays true t ellipsoid).opacity (Dbl.fin 0) = true ∨
      num_rays = 0) := by
  have hhq : (1 : ℚ) ≤ (t.hits : ℚ) := by exact_mod_cast hh
  have hpq : (0 : ℚ) ≤ (t.pass_through_ids.length : ℚ) := Nat.cast_nonneg _
  have hsum : (t.hits : ℚ) + (t.pass_through_ids.length : ℚ) ≠ 0 := by
    intro h
    linarith
  rw [talliedEllipsoid_self]
  simp only [Dbl.div, hsum, if_false, Dbl.eq, decide_eq_true_eq]
  intro h
  rcases h with h | h | h
  · omega
  · have : (t.hits : ℚ) = 0 := by
      rcases div_eq_zero_iff.mp h with h0 | h0
      · exact h0
      · exact absurd h0 hsum
    linarith
  · exact absurd h (ne_of_gt hn)

/-- Claim C25, as the code has it. In self-comparison mode with num_rays above 0, for an
ellipsoid that is not skipped and has at least one hit among its candidate rays, one round
of the loop leaves the ellipsoid with opacity h / (h + misses), where
h = hits + 1e-8 - 1, hits is the number of candidates that hit the ellipsoid and misses is
the number of pass-through rays whose time is neither after last nor before first, and
with num_gone = num_before + num_after, the numbers of pass-through rays with a time
strictly before first and strictly after last. Here first = min(1e10, hit times) and
last = max(-1e10, hit times), the hit times being the times of the candidates that hit the
ellipsoid: first is not after last; first is at most 1e10 and at most every hit time, and
it is 1e10 or a hit time; last is at least -1e10 and at least every hit time, and it is
-1e10 or a hit time; where no hit time is above 1e10, first is a hit time, the first one,
and where no hit time is below -1e10, last is a hit time, the last one. This holds for
every merge type. -/
theorem self_opacity (X : Libs) (cloud : Cloud) (grid : Grid) (type : ℕ) (num_rays : ℚ)
    (transients : List Bool) (ellipsoid : Ellipsoid) (b : Vector3i × Vector3i)
    (h1 : ellipsoid.transient = false) (h2 : ellipsoid.extents ≠ Vector3d.zero)
    (h3 : cellRange grid ellipsoid = some b)
    (hh : 1 ≤ (hitRays X cloud ellipsoid (candidateRays cloud grid b)).length)
    (hn : 0 < num_rays) :
    (markEllipsoid X cloud grid type num_rays true
          (transients, List.replicate cloud.ends.length false) ellipsoid).1.opacity =
        Dbl.div
          (Dbl.fin (((hitRays X cloud ellipsoid (candidateRays cloud grid b)).length : ℚ) +
            1 / 10 ^ 8 - 1))
          (Dbl.fin (((hitRays X cloud ellipsoid (candidateRays cloud grid b)).length : ℚ) +
            1 / 10 ^ 8 - 1 +
            (missCount cloud (passRays X cloud ellipsoid (candidateRays cloud grid b))
              (cappedFirstHitTime (hitTimes X cloud ellipsoid (candidateRays cloud grid b)))
              (cappedLastHitTime
                (hitTimes X cloud ellipsoid (candidateRays cloud grid b))) : ℚ))) ∧
      (markEllipsoid X cloud grid type num_rays true
          (transients, List.replicate cloud.ends.length false) ellipsoid).1.num_gone =
        beforeCount cloud (passRays X cloud ellipsoid (candidateRays cloud grid b))
            (cappedFirstHitTime (hitTimes X cloud ellipsoid (candidateRays cloud grid b))) +
          afterCount cloud (passRays X cloud ellipsoid (candidateRays cloud grid b))
            (cappedLastHitTime (hitTimes X cloud ellipsoid (candidateRays cloud grid b))) ∧
      cappedFirstHitTime (hitTimes X cloud ellipsoid (candidateRays cloud grid b)) ≤
        cappedLastHitTime (hitTimes X cloud ellipsoid (candidateRays cloud grid b)) ∧
      (cappedFirstHitTime (hitTimes X cloud ellipsoid (candidateRays cloud grid b)) ≤ 10 ^ 10 ∧
        (∀ x ∈ hitTimes X cloud ellipsoid (candidateRays cloud grid b),
          cappedFirstHitTime (hitTimes X cloud ellipsoid (candidateRays cloud grid b)) ≤ x) ∧
        (cappedFirstHitTime (hitTimes X cloud ellipsoid (candidateRays cloud grid b)) =
            10 ^ 10 ∨
          cappedFirstHitTime (hitTimes X cloud ellipsoid (candidateRays cloud grid b)) ∈
            hitTimes X cloud ellipsoid (candidateRays cloud grid b))) ∧
      (-(10 ^ 10) ≤ cappedLastHitTime (hitTimes X cloud ellipsoid (candidateRays cloud grid b)) ∧
        (∀ x ∈ hitTimes X cloud ellipsoid (candidateRays cloud grid b),
          x ≤ cappedLastHitTime (hitTimes X cloud ellipsoid (candidateRays cloud grid b))) ∧
        (cappedLastHitTime (hitTimes X cloud ellipsoid (candidateRays cloud grid b)) =
            -(10 ^ 10) ∨
          cappedLastHitTime (hitTimes X cloud ellipsoid (candidateRays cloud grid b)) ∈
            hitTimes X cloud ellipsoid (candidateRays cloud grid b))) ∧
      ((∀ x ∈ hitTimes X cloud ellipsoid (candidateRays cloud grid b), x ≤ 10 ^ 10) →
        cappedFirstHitTime (hitTimes X cloud ellipsoid (candidateRays cloud grid b)) ∈
          hitTimes X cloud ellipsoid (candidateRays cloud grid b)) ∧
      ((∀ x ∈ hitTimes X cloud ellipsoid (candidateRays cloud grid b), -(10 ^ 10) ≤ x) →
        cappedLastHitTime (hitTimes X cloud ellipsoid (candidateRays cloud grid b)) ∈
          hitTimes X cloud ellipsoid (candidateRays cloud grid b)) := by
  obtain ⟨th, tp, tf, tl⟩ := tally_init X cloud ellipsoid (candidateRays cloud grid b)
  have hcell : cellTally X cloud grid ellipsoid b =
      (candidateRays cloud grid b).foldl (tallyRay X cloud ellipsoid) Tally.init := rfl
  rw [← hcell] at th tp tf tl
  have hne : hitTimes X cloud ellipsoid (candidateRays cloud grid b) ≠ [] := by
    intro h
    have hlen := congrArg List.length h
    rw [hitTimes, List.length_map, List.length_nil] at hlen
    omega
  have hfl := capped_first_le_last _ hne
  have hht : 1 ≤ (cellTally X cloud grid ellipsoid b).hits := by
    rw [th]
    exact hh
  obtain ⟨e2, hc, hop, hng⟩ := countBeforeAfter_self cloud (cellTally X cloud grid ellipsoid b)
    (talliedEllipsoid num_rays true (cellTally X cloud grid ellipsoid b) ellipsoid)
  have hce : countedEllipsoid cloud num_rays true (cellTally X cloud grid ellipsoid b)
      ellipsoid = e2 := by
    unfold countedEllipsoid
    rw [hc]
  rw [markEllipsoid_eq X cloud grid type num_rays true transients ellipsoid b h1 h2 h3,
    decideEllipsoid_unfold, if_neg (self_guard num_rays hn _ ellipsoid hht)]
  obtain ⟨hd1, hd2⟩ := decisionStep_fields cloud type num_rays true
    (cellTally X cloud grid ellipsoid b) ellipsoid transients
  refine ⟨?_, ?_, hfl, cappedFirstHitTime_spec _, cappedLastHitTime_spec _,
    cappedFirstHitTime_mem _ hne, cappedLastHitTime_mem _ hne⟩
  · rw [hd1, hce, hop, th, tp, tf, tl]
  · rw [hd2, hce, hng, tp, tf, tl, beforeCount_guarded cloud _ _ _ hfl]

theorem hitEllipsoid_cellRange :
    cellRange farGrid hitEllipsoid = some (⟨0, 0, 0⟩, ⟨0, 0, 0⟩) := by
  rw [farGrid_eq]
  unfold cellRange
  simp only [Grid.insert, farGrid0, hitEllipsoid, Vector3d.sub, Vector3d.add, Vector3d.sdiv,
    Vector3i.maxVector, Vector3i.minVector]
  rw [castInt_small_pos ((1 - 1 - 0) / 10) (by norm_num) (by norm_num),
    castInt_small_neg ((0 - 1 - 0) / 10) (by norm_num) (by norm_num),
    castInt_small_pos ((1 + 1 - 0) / 10) (by norm_num) (by norm_num),
    castInt_small_pos ((0 + 1 - 0) / 10) (by norm_num) (by norm_num)]
  norm_num

theorem hitEllipsoid_classify :
    classifyRay sampleLibs farCloud hitEllipsoid 0 = RayClass.hit := by
  simp [classifyRay, farCloud, hitEllipsoid, sampleLibs, Matrix3d.mulVec, Vector3d.sub,
    Vector3d.dot, Vector3d.squaredNorm, Dbl.div, Dbl.mul, Dbl.sub, Dbl.add, Dbl.neg, Dbl.lt,
    Dbl.sqrt]
  norm_num

theorem hitEllipsoid_tally :
    cellTally sampleLibs farCloud farGrid hitEllipsoid (⟨0, 0, 0⟩, ⟨0, 0, 0⟩) = hitTally := by
  have hrep : List.replicate farCloud.ends.length false = [false] := rfl
  unfold cellTally
  rw [hrep, farGrid_gather]
  simp only [List.foldl_cons, List.foldl_nil]
  unfold tallyRay
  rw [hitEllipsoid_classify]
  simp [Tally.init, hitTally, farCloud]

theorem hitEllipsoid_extents : hitEllipsoid.extents ≠ Vector3d.zero := by
  simp [hitEllipsoid, Vector3d.zero]

theorem hitEllipsoid_self_decision :
    decideEllipsoid farCloud 2 1 true hitTally hitEllipsoid [false] =
      ({ hitEllipsoid with num_rays := 1, opacity := Dbl.fin 1, num_gone := 0 }, [false]) := by
  have ht : talliedEllipsoid 1 true hitTally hitEllipsoid =
      { hitEllipsoid with num_rays := 1, opacity := Dbl.fin 1 } := by
    simp [talliedEllipsoid, hitTally, Dbl.div]
  have hc : countBeforeAfter farCloud true hitTally
      { hitEllipsoid with num_rays := 1, opacity := Dbl.fin 1 } =
      ({ hitEllipsoid with num_rays := 1, opacity := Dbl.fin 1, num_gone := 0 }, 0, 0) := by
    simp [countBeforeAfter, hitTally, Dbl.div]
  rw [decideEllipsoid_unfold, if_neg (self_guard 1 (by norm_num) hitTally hitEllipsoid
    (by simp [hitTally]))]
  unfold decisionStep sequenceLength countedEllipsoid numBefore numAfter
  rw [ht, hc]
  simp [Dbl.div, Dbl.lt]

theorem hitEllipsoid_candidates :
    candidateRays farCloud farGrid (⟨0, 0, 0⟩, ⟨0, 0, 0⟩) = [0] := by
  have hrep : List.replicate farCloud.ends.length false = [false] := rfl
  unfold candidateRays
  rw [hrep, farGrid_gather]

theorem hitEllipsoid_rays :
    hitRays sampleLibs farCloud hitEllipsoid
        (candidateRays farCloud farGrid (⟨0, 0, 0⟩, ⟨0, 0, 0⟩)) = [0] ∧
      passRays sampleLibs farCloud hitEllipsoid
        (candidateRays farCloud farGrid (⟨0, 0, 0⟩, ⟨0, 0, 0⟩)) = [] ∧
      hitTimes sampleLibs farCloud hitEllipsoid
        (candidateRays farCloud farGrid (⟨0, 0, 0⟩, ⟨0, 0, 0⟩)) = [0] := by
  rw [hitEllipsoid_candidates]
  unfold hitTimes hitRays passRays
  simp only [List.filter_cons, List.filter_nil, hitEllipsoid_classify]
  simp [farCloud]

/-- Claim C25 at one hit and no pass-through ray: the ray of farCloud ends in the centre
of hitEllipsoid, so hits = 1 and misses = 0. In self-comparison mode with num_rays = 1,
markIntersectedEllipsoids leaves the ellipsoid with opacity 1, which is
h / (h + misses) for h = hits + 1e-8 - 1, while h = hits - 1 = 0 gives 0 / 0, which is
not a number. -/
theorem self_opacity_one_hit :
    (hitRays sampleLibs farCloud hitEllipsoid
        (candidateRays farCloud farGrid (⟨0, 0, 0⟩, ⟨0, 0, 0⟩))).length = 1 ∧
      missCount farCloud
          (passRays sampleLibs farCloud hitEllipsoid
            (candidateRays farCloud farGrid (⟨0, 0, 0⟩, ⟨0, 0, 0⟩)))
          (cappedFirstHitTime (hitTimes sampleLibs farCloud hitEllipsoid
            (candidateRays farCloud farGrid (⟨0, 0, 0⟩, ⟨0, 0, 0⟩))))
          (cappedLastHitTime (hitTimes sampleLibs farCloud hitEllipsoid
            (candidateRays farCloud farGrid (⟨0, 0, 0⟩, ⟨0, 0, 0⟩)))) = 0 ∧
      hitTimes sampleLibs farCloud hitEllipsoid
        (candidateRays farCloud farGrid (⟨0, 0, 0⟩, ⟨0, 0, 0⟩)) = [0] ∧
      markIntersectedEllipsoids sampleLibs farCloud farGrid [false] [hitEllipsoid] "min" 1
          true =
        ([false], [{ hitEllipsoid with num_rays := 1, opacity := Dbl.fin 1, num_gone := 0 }]) ∧
      Dbl.div
          (Dbl.fin (((hitRays sampleLibs farCloud hitEllipsoid
            (candidateRays farCloud farGrid (⟨0, 0, 0⟩, ⟨0, 0, 0⟩))).length : ℚ) +
            1 / 10 ^ 8 - 1))
          (Dbl.fin (((hitRays sampleLibs farCloud hitEllipsoid
            (candidateRays farCloud farGrid (⟨0, 0, 0⟩, ⟨0, 0, 0⟩))).length : ℚ) +
            1 / 10 ^ 8 - 1 +
            (missCount farCloud
              (passRays sampleLibs farCloud hitEllipsoid
                (candidateRays farCloud farGrid (⟨0, 0, 0⟩, ⟨0, 0, 0⟩)))
              (cappedFirstHitTime (hitTimes sampleLibs farCloud hitEllipsoid
                (candidateRays farCloud farGrid (⟨0, 0, 0⟩, ⟨0, 0, 0⟩))))
              (cappedLastHitTime (hitTimes sampleLibs farCloud hitEllipsoid
                (candidateRays farCloud farGrid (⟨0, 0, 0⟩, ⟨0, 0, 0⟩)))) : ℚ))) =
        Dbl.fin 1 ∧
      Dbl.div
          (Dbl.fin (((hitRays sampleLibs farCloud hitEllipsoid
            (candidateRays farCloud farGrid (⟨0, 0, 0⟩, ⟨0, 0, 0⟩))).length : ℚ) - 1))
          (Dbl.fin (((hitRays sampleLibs farCloud hitEllipsoid
            (candidateRays farCloud farGrid (⟨0, 0, 0⟩, ⟨0, 0, 0⟩))).length : ℚ) - 1 +
            (missCount farCloud
              (passRays sampleLibs farCloud hitEllipsoid
                (candidateRays farCloud farGrid (⟨0, 0, 0⟩, ⟨0, 0, 0⟩)))
              (cappedFirstHitTime (hitTimes sampleLibs farCloud hitEllipsoid
                (candidateRays farCloud farGrid (⟨0, 0, 0⟩, ⟨0, 0, 0⟩))))
              (cappedLastHitTime (hitTimes sampleLibs farCloud hitEllipsoid
                (candidateRays farCloud farGrid (⟨0, 0, 0⟩, ⟨0, 0, 0⟩)))) : ℚ))) =
        Dbl.nan := by
  obtain ⟨hh, hp, ht⟩ := hitEllipsoid_rays
  rw [hh, hp, ht]
  refine ⟨rfl, rfl, rfl, ?_, ?_, ?_⟩
  · have h := markEllipsoid_eq sampleLibs farCloud farGrid 2 1 true [false] hitEllipsoid _ rfl
      hitEllipsoid_extents hitEllipsoid_cellRange
    rw [hitEllipsoid_tally, hitEllipsoid_self_decision] at h
    unfold markIntersectedEllipsoids
    simp only [markLoop, mergeTypeCode_min]
    rw [h]
  · simp [Dbl.div, missCount]
  · simp [Dbl.div, missCount]

theorem hitEllipsoid_hits :
    1 ≤ (hitRays sampleLibs farCloud hitEllipsoid
      (candidateRays farCloud farGrid (⟨0, 0, 0⟩, ⟨0, 0, 0⟩))).length := by
  rw [hitEllipsoid_rays.1]
  exact le_refl 1

theorem lateCloud_classify :
    classifyRay sampleLibs lateCloud hitEllipsoid 0 = RayClass.hit ∧
      classifyRay sampleLibs lateCloud hitEllipsoid 1 = RayClass.pass := by
  constructor
  · simp [classifyRay, lateCloud, hitEllipsoid, sampleLibs, Matrix3d.mulVec, Vector3d.sub,
      Vector3d.dot, Vector3d.squaredNorm, Dbl.div, Dbl.mul, Dbl.sub, Dbl.add, Dbl.neg, Dbl.lt,
      Dbl.sqrt]
    norm_num
  · simp [classifyRay, lateCloud, hitEllipsoid, sampleLibs, Matrix3d.mulVec, Vector3d.sub,
      Vector3d.dot, Vector3d.squaredNorm, Dbl.div, Dbl.mul, Dbl.sub, Dbl.add, Dbl.neg, Dbl.lt,
      Dbl.sqrt]
    norm_num

/-- The cap of the first hit time at work: of the two rays of lateCloud, ray 0 hits
hitEllipsoid at the time 2e10 and ray 1 passes through at the time 1.5e10. The counters of
lines 423-459 end with the first hit time 1e10, not 2e10, so that lines 473-478 count
ray 1 as a miss, although its time is before that of the only hit. -/
theorem late_hit_counts :
    hitRays sampleLibs lateCloud hitEllipsoid [0, 1] = [0] ∧
      passRays sampleLibs lateCloud hitEllipsoid [0, 1] = [1] ∧
      hitTimes sampleLibs lateCloud hitEllipsoid [0, 1] = [2 * 10 ^ 10] ∧
      ([0, 1].foldl (tallyRay sampleLibs lateCloud hitEllipsoid) Tally.init) =
        ⟨1, [1], 10 ^ 10, 2 * 10 ^ 10⟩ ∧
      cappedFirstHitTime (hitTimes sampleLibs lateCloud hitEllipsoid [0, 1]) = 10 ^ 10 ∧
      cappedLastHitTime (hitTimes sampleLibs lateCloud hitEllipsoid [0, 1]) = 2 * 10 ^ 10 ∧
      [1].foldl (passStatsStep lateCloud
          ([0, 1].foldl (tallyRay sampleLibs lateCloud hitEllipsoid) Tally.init)) ⟨0, 0, 0⟩ =
        ⟨0, 0, 1⟩ ∧
      missCount lateCloud [1] (10 ^ 10) (2 * 10 ^ 10) = 1 ∧
      beforeCount lateCloud [1] (10 ^ 10) = 0 ∧
      beforeCount lateCloud [1] (2 * 10 ^ 10) = 1 := by
  obtain ⟨c0, c1⟩ := lateCloud_classify
  have hH : hitRays sampleLibs lateCloud hitEllipsoid [0, 1] = [0] := by
    unfold hitRays
    simp [List.filter_cons, c0, c1]
  have hP : passRays sampleLibs lateCloud hitEllipsoid [0, 1] = [1] := by
    unfold passRays
    simp [List.filter_cons, c0, c1]
  have hT : hitTimes sampleLibs lateCloud hitEllipsoid [0, 1] = [2 * 10 ^ 10] := by
    unfold hitTimes
    rw [hH]
    simp [lateCloud]
  have hF : [0, 1].foldl (tallyRay sampleLibs lateCloud hitEllipsoid) Tally.init =
      ⟨1, [1], 10 ^ 10, 2 * 10 ^ 10⟩ := by
    simp only [List.foldl_cons, List.foldl_nil]
    unfold tallyRay
    simp only [c0, c1]
    simp [Tally.init, lateCloud]
    norm_num
  refine ⟨hH, hP, hT, hF, ?_, ?_, ?_, ?_, ?_, ?_⟩
  · rw [hT]
    simp [cappedFirstHitTime]
  · rw [hT]
    simp [cappedLastHitTime]
    norm_num
  · rw [hF]
    simp [passStatsStep, lateCloud]
    norm_num
  · simp [missCount, lateCloud]
    norm_num
  · simp [beforeCount, lateCloud]
    norm_num
  · simp [beforeCount, lateCloud]
    norm_num

/-- Claim C25, as the code has it, at the cloud farCloud, its grid farGrid, the ellipsoid
hitEllipsoid, merge type min and num_rays 1. -/
theorem self_opacity_witness :
    hitEllipsoid.transient = false ∧ hitEllipsoid.extents ≠ Vector3d.zero ∧
      cellRange farGrid hitEllipsoid = some (⟨0, 0, 0⟩, ⟨0, 0, 0⟩) ∧
      1 ≤ (hitRays sampleLibs farCloud hitEllipsoid
        (candidateRays farCloud farGrid (⟨0, 0, 0⟩, ⟨0, 0, 0⟩))).length ∧
      (0 : ℚ) < 1 ∧
      ((markEllipsoid sampleLibs farCloud farGrid 2 1 true
          ([false], List.replicate farCloud.ends.length false) hitEllipsoid).1.opacity =
        Dbl.div
          (Dbl.fin (((hitRays sampleLibs farCloud hitEllipsoid (candidateRays farCloud farGrid (⟨0,
              0, 0⟩, ⟨0, 0, 0⟩))).length : ℚ) +
            1 / 10 ^ 8 - 1))
          (Dbl.fin (((hitRays sampleLibs farCloud hitEllipsoid (candidateRays farCloud farGrid (⟨0,
              0, 0⟩, ⟨0, 0, 0⟩))).length : ℚ) +
            1 / 10 ^ 8 - 1 +
            (missCount farCloud (passRays sampleLibs farCloud hitEllipsoid (candidateRays farCloud
                farGrid (⟨0, 0, 0⟩, ⟨0, 0, 0⟩)))
              (cappedFirstHitTime (hitTimes sampleLibs farCloud hitEllipsoid (candidateRays
                  farCloud farGrid (⟨0, 0, 0⟩, ⟨0, 0, 0⟩))))
              (cappedLastHitTime
                (hitTimes sampleLibs farCloud hitEllipsoid (candidateRays farCloud farGrid (⟨0, 0,
                    0⟩, ⟨0, 0, 0⟩)))) : ℚ))) ∧
      (markEllipsoid sampleLibs farCloud farGrid 2 1 true
          ([false], List.replicate farCloud.ends.length false) hitEllipsoid).1.num_gone =
        beforeCount farCloud (passRays sampleLibs farCloud hitEllipsoid (candidateRays farCloud
            farGrid (⟨0, 0, 0⟩, ⟨0, 0, 0⟩)))
            (cappedFirstHitTime (hitTimes sampleLibs farCloud hitEllipsoid (candidateRays farCloud
                farGrid (⟨0, 0, 0⟩, ⟨0, 0, 0⟩)))) +
          afterCount farCloud (passRays sampleLibs farCloud hitEllipsoid (candidateRays farCloud
              farGrid (⟨0, 0, 0⟩, ⟨0, 0, 0⟩)))
            (cappedLastHitTime (hitTimes sampleLibs farCloud hitEllipsoid (candidateRays farCloud
                farGrid (⟨0, 0, 0⟩, ⟨0, 0, 0⟩)))) ∧
      cappedFirstHitTime (hitTimes sampleLibs farCloud hitEllipsoid (candidateRays farCloud farGrid
          (⟨0, 0, 0⟩, ⟨0, 0, 0⟩))) ≤
        cappedLastHitTime (hitTimes sampleLibs farCloud hitEllipsoid (candidateRays farCloud
            farGrid (⟨0, 0, 0⟩, ⟨0, 0, 0⟩))) ∧
      (cappedFirstHitTime (hitTimes sampleLibs farCloud hitEllipsoid (candidateRays farCloud
          farGrid (⟨0, 0, 0⟩, ⟨0, 0, 0⟩))) ≤ 10 ^ 10 ∧
        (∀ x ∈ hitTimes sampleLibs farCloud hitEllipsoid (candidateRays farCloud farGrid (⟨0, 0,
            0⟩, ⟨0, 0, 0⟩)),
          cappedFirstHitTime (hitTimes sampleLibs farCloud hitEllipsoid (candidateRays farCloud
              farGrid (⟨0, 0, 0⟩, ⟨0, 0, 0⟩))) ≤ x) ∧
        (cappedFirstHitTime (hitTimes sampleLibs farCloud hitEllipsoid (candidateRays farCloud
            farGrid (⟨0, 0, 0⟩, ⟨0, 0, 0⟩))) =
            10 ^ 10 ∨
          cappedFirstHitTime (hitTimes sampleLibs farCloud hitEllipsoid (candidateRays farCloud
              farGrid (⟨0, 0, 0⟩, ⟨0, 0, 0⟩))) ∈
            hitTimes sampleLibs farCloud hitEllipsoid (candidateRays farCloud farGrid (⟨0, 0, 0⟩,
                ⟨0, 0, 0⟩)))) ∧
      (-(10 ^ 10) ≤ cappedLastHitTime (hitTimes sampleLibs farCloud hitEllipsoid (candidateRays
          farCloud farGrid (⟨0, 0, 0⟩, ⟨0, 0, 0⟩))) ∧
        (∀ x ∈ hitTimes sampleLibs farCloud hitEllipsoid (candidateRays farCloud farGrid (⟨0, 0,
            0⟩, ⟨0, 0, 0⟩)),
          x ≤ cappedLastHitTime (hitTimes sampleLibs farCloud hitEllipsoid (candidateRays farCloud
              farGrid (⟨0, 0, 0⟩, ⟨0, 0, 0⟩)))) ∧
        (cappedLastHitTime (hitTimes sampleLibs farCloud hitEllipsoid (candidateRays farCloud
            farGrid (⟨0, 0, 0⟩, ⟨0, 0, 0⟩))) =
            -(10 ^ 10) ∨
          cappedLastHitTime (hitTimes sampleLibs farCloud hitEllipsoid (candidateRays farCloud
              farGrid (⟨0, 0, 0⟩, ⟨0, 0, 0⟩))) ∈
            hitTimes sampleLibs farCloud hitEllipsoid (candidateRays farCloud farGrid (⟨0, 0, 0⟩,
                ⟨0, 0, 0⟩)))) ∧
      ((∀ x ∈ hitTimes sampleLibs farCloud hitEllipsoid (candidateRays farCloud farGrid (⟨0, 0, 0⟩,
          ⟨0, 0, 0⟩)), x ≤ 10 ^ 10) →
        cappedFirstHitTime (hitTimes sampleLibs farCloud hitEllipsoid (candidateRays farCloud
            farGrid (⟨0, 0, 0⟩, ⟨0, 0, 0⟩))) ∈
          hitTimes sampleLibs farCloud hitEllipsoid (candidateRays farCloud farGrid (⟨0, 0, 0⟩, ⟨0,
              0, 0⟩))) ∧
      ((∀ x ∈ hitTimes sampleLibs farCloud hitEllipsoid (candidateRays farCloud farGrid (⟨0, 0, 0⟩,
          ⟨0, 0, 0⟩)), -(10 ^ 10) ≤ x) →
        cappedLastHitTime (hitTimes sampleLibs farCloud hitEllipsoid (candidateRays farCloud
            farGrid (⟨0, 0, 0⟩, ⟨0, 0, 0⟩))) ∈
          hitTimes sampleLibs farCloud hitEllipsoid (candidateRays farCloud farGrid (⟨0, 0, 0⟩, ⟨0,
              0, 0⟩)))) :=
  ⟨rfl, hitEllipsoid_extents, hitEllipsoid_cellRange, hitEllipsoid_hits, by norm_num,
    self_opacity sampleLibs farCloud farGrid 2 1 [false] hitEllipsoid (⟨0, 0, 0⟩, ⟨0, 0, 0⟩) rfl
      hitEllipsoid_extents hitEllipsoid_cellRange hitEllipsoid_hits (by norm_num)⟩

/-! ## Theorems: the rays that the proportional removal flags -/

theorem rays_filter_bounded (c : Cloud) :
    ((List.range c.ends.length).filter c.rayBounded).map c.rayAt =
      c.rays.filter (fun r => decide (r.colour.alpha ≠ 0)) := by
  unfold Cloud.rays
  rw [List.filter_map]
  rfl

/-- Claim C30. For a cloud with four arrays of one length, removeUnboundedRays leaves
exactly the rays with non-zero alpha, in their order, each with its own start, end, time
and colour: the cloud after the call is the cloud of the ray sequence filtered by
rayBounded. The copy for place k reads the ray at the k-th bounded index, which is at
least k, so it reads no place that an earlier copy has written. -/
theorem removeUnboundedRays_filter (c : Cloud) (hc : c.WF) :
    c.removeUnboundedRays =
        Cloud.ofRays (c.rays.filter (fun r => decide (r.colour.alpha ≠ 0))) ∧
      c.removeUnboundedRays.rays = c.rays.filter (fun r => decide (r.colour.alpha ≠ 0)) ∧
      (∀ i, c.rayBounded i = decide ((c.rayAt i).colour.alpha ≠ 0)) ∧
      ∀ k, k < ((List.range c.ends.length).filter c.rayBounded).length →
        k ≤ ((List.range c.ends.length).filter c.rayBounded).getD k 0 := by
  have hs : ((List.range c.ends.length).filter c.rayBounded).Pairwise (fun a b => a < b) :=
    List.Pairwise.filter _ (List.pairwise_lt_range _)
  have hb : ∀ id ∈ (List.range c.ends.length).filter c.rayBounded, id < c.ends.length := by
    intro id hid
    exact List.mem_range.mp (List.mem_filter.mp hid).1
  have he : c.removeUnboundedRays =
      Cloud.ofRays (c.rays.filter (fun r => decide (r.colour.alpha ≠ 0))) := by
    unfold Cloud.removeUnboundedRays
    rw [Cloud.compact_eq c _ hc hs hb, rays_filter_bounded]
  refine ⟨he, ?_, fun i => rfl, ?_⟩
  · rw [he, Cloud.ofRays_rays]
  · intro k hk
    exact le_getD_of_increasing _ hs k hk

theorem mixedCloud_WF : mixedCloud.WF := by decide

/-- Claim C30 at the cloud mixedCloud, whose second ray is unbounded. -/
theorem removeUnboundedRays_filter_witness :
    mixedCloud.WF ∧
      (mixedCloud.removeUnboundedRays =
          Cloud.ofRays (mixedCloud.rays.filter (fun r => decide (r.colour.alpha ≠ 0))) ∧
        mixedCloud.removeUnboundedRays.rays =
          mixedCloud.rays.filter (fun r => decide (r.colour.alpha ≠ 0)) ∧
        (∀ i, mixedCloud.rayBounded i = decide ((mixedCloud.rayAt i).colour.alpha ≠ 0)) ∧
        ∀ k, k < ((List.range mixedCloud.ends.length).filter mixedCloud.rayBounded).length →
          k ≤ ((List.range mixedCloud.ends.length).filter mixedCloud.rayBounded).getD k 0) :=
  ⟨mixedCloud_WF, removeUnboundedRays_filter mixedCloud mixedCloud_WF⟩

/-! ## Theorems: a ray that points away from an ellipsoid -/

theorem awayGrid_voxels : rayVoxels farGrid0 ⟨5, 5, 5⟩ ⟨6, 5, 5⟩ = some [⟨0, 0, 0⟩] := by
  have f1 : ⌊(5 : ℚ) / 10⌋ = 0 := by rw [Int.floor_eq_iff]; norm_num
  have f2 : ⌊(6 : ℚ) / 10⌋ = 0 := by rw [Int.floor_eq_iff]; norm_num
  simp [rayVoxels, rayWalk, walk, farGrid0, Vector3d.sub, Vector3d.sdiv, Vector3i.sub,
    Vector3i.squaredNorm, f1, f2]

theorem awayGrid_eq : awayGrid = farGrid0.insert 0 0 0 0 := by
  have r1 : List.range 1 = [0] := rfl
  unfold awayGrid fillGrid awayCloud
  simp only [List.length_singleton, r1, List.foldl_cons, List.foldl_nil, List.getD_cons_zero]
  rw [awayGrid_voxels]
  rfl

theorem awayGrid_cell : awayGrid.cell 0 0 0 = [0] := by
  rw [awayGrid_eq]
  simp [Grid.cell, Grid.insert, farGrid0]

theorem awayGrid_gather :
    gatherRays awayGrid ⟨0, 0, 0⟩ ⟨0, 0, 0⟩ [false] = ([true], [0]) := by
  have r0 : intRange 0 0 = [0] := by decide
  simp only [gatherRays, r0, List.foldl_cons, List.foldl_nil, awayGrid_cell, gatherCell]
  rfl

theorem awayEllipsoid_cellRange :
    cellRange awayGrid awayEllipsoid = some (⟨0, 0, 0⟩, ⟨0, 0, 0⟩) := by
  rw [awayGrid_eq]
  unfold cellRange
  simp only [Grid.insert, farGrid0, awayEllipsoid, Vector3d.sub, Vector3d.add, Vector3d.sdiv,
    Vector3i.maxVector, Vector3i.minVector]
  rw [castInt_small_pos ((3 - 1 - 0) / 10) (by norm_num) (by norm_num),
    castInt_small_pos ((5 - 1 - 0) / 10) (by norm_num) (by norm_num),
    castInt_small_pos ((3 + 1 - 0) / 10) (by norm_num) (by norm_num),
    castInt_small_pos ((5 + 1 - 0) / 10) (by norm_num) (by norm_num)]
  norm_num

theorem awayEllipsoid_classify :
    classifyRay sampleLibs awayCloud awayEllipsoid 0 = RayClass.pass := by
  simp [classifyRay, awayCloud, awayEllipsoid, sampleLibs, Matrix3d.mulVec, Vector3d.sub,
    Vector3d.dot, Vector3d.squaredNorm, Dbl.div, Dbl.mul, Dbl.sub, Dbl.add, Dbl.neg, Dbl.lt,
    Dbl.sqrt]
  norm_num

theorem awayEllipsoid_tally :
    cellTally sampleLibs awayCloud awayGrid awayEllipsoid (⟨0, 0, 0⟩, ⟨0, 0, 0⟩) = nearTally := by
  have hrep : List.replicate awayCloud.ends.length false = [false] := rfl
  unfold cellTally
  rw [hrep, awayGrid_gather]
  simp only [List.foldl_cons, List.foldl_nil]
  unfold tallyRay
  rw [awayEllipsoid_classify]
  rfl

theorem awayEllipsoid_extents : awayEllipsoid.extents ≠ Vector3d.zero := by
  simp [awayEllipsoid, Vector3d.zero]

theorem awayEllipsoid_outside (s : ℚ) (h0 : 0 ≤ s) :
    ¬ insideEllipsoid awayEllipsoid (segmentPoint ⟨5, 5, 5⟩ ⟨6, 5, 5⟩ s) := by
  unfold insideEllipsoid
  simp only [segmentPoint, awayEllipsoid, Matrix3d.mulVec, Vector3d.sub, Vector3d.add,
    Vector3d.smul, Vector3d.dot, Vector3d.squaredNorm, not_le]
  nlinarith

theorem awayEllipsoid_min_decision :
    decideEllipsoid awayCloud 2 1 false nearTally awayEllipsoid [false] =
      ({ awayEllipsoid with num_rays := 1, transient := true }, [false]) := by
  have ht : talliedEllipsoid 1 false nearTally awayEllipsoid =
      { awayEllipsoid with num_rays := 1 } := by
    simp [talliedEllipsoid, nearTally]
  have hc : countBeforeAfter awayCloud false nearTally { awayEllipsoid with num_rays := 1 } =
      ({ awayEllipsoid with num_rays := 1 }, 1, 0) := by
    simp [countBeforeAfter, awayCloud, awayEllipsoid, nearTally]
  have hg : ¬ ((talliedEllipsoid 1 false nearTally awayEllipsoid).num_rays = 0 ∨
      Dbl.eq (talliedEllipsoid 1 false nearTally awayEllipsoid).opacity (Dbl.fin 0) = true ∨
      (1 : ℚ) = 0) := by
    rw [ht]
    simp [awayEllipsoid, Dbl.eq]
  rw [decideEllipsoid_unfold, if_neg hg]
  unfold decisionStep sequenceLength countedEllipsoid numBefore numAfter
  rw [ht, hc]
  simp [Dbl.div, Dbl.lt, applyRemoval, awayEllipsoid]

/-- Claim C23, evaluated at a ray that points away from the ellipsoid. The ray of
awayCloud runs from (5, 5, 5) to (6, 5, 5); awayEllipsoid is the unit sphere around
(3, 5, 5), so every point of the segment, and of its continuation beyond the end, is
outside the ellipsoid. Yet the test of lines 429-451 classifies the ray as a pass-through,
markIntersectedEllipsoids counts it in pass_through_ids, and with merge type min and
num_rays = 1 this one ray makes it mark the ellipsoid transient. -/
theorem classifyRay_counts_ray_pointing_away :
    (∀ s : ℚ, 0 ≤ s →
        ¬ insideEllipsoid awayEllipsoid
          (segmentPoint (awayCloud.starts.getD 0 default) (awayCloud.ends.getD 0 default) s)) ∧
      classifyRay sampleLibs awayCloud awayEllipsoid 0 = RayClass.pass ∧
      (cellTally sampleLibs awayCloud awayGrid awayEllipsoid
        (⟨0, 0, 0⟩, ⟨0, 0, 0⟩)).pass_through_ids = [0] ∧
      markIntersectedEllipsoids sampleLibs awayCloud awayGrid [false] [awayEllipsoid] "min" 1
          false =
        ([false], [{ awayEllipsoid with num_rays := 1, transient := true }]) := by
  refine ⟨?_, awayEllipsoid_classify, ?_, ?_⟩
  · intro s h0
    exact awayEllipsoid_outside s h0
  · rw [awayEllipsoid_tally]
    rfl
  · have h := markEllipsoid_eq sampleLibs awayCloud awayGrid 2 1 false [false] awayEllipsoid _
      rfl awayEllipsoid_extents awayEllipsoid_cellRange
    rw [awayEllipsoid_tally, awayEllipsoid_min_decision] at h
    unfold markIntersectedEllipsoids
    simp only [markLoop, mergeTypeCode_min]
    rw [h]

/-! ## Theorems: splitPlane -/

theorem planeVec_unit_x : planeVec ⟨1, 0, 0⟩ = ⟨1, 0, 0⟩ := by
  simp [planeVec, Vector3d.sdiv, Vector3d.dot]

/-- Claim C27, evaluated at a ray that starts on the plane and at a ray that lies in the
plane, for the plane vector (1, 0, 0). The ray from (1, 0, 0) to (0, 0, 0) starts on the
plane (value 0) and ends inside (value -1): splitPlane writes the whole ray, with its
colour, to the outside cloud, so that the outside cloud holds a segment whose end has the
value -1 < 0, and writes a ray of zero length to the inside cloud. For the ray from
(1, 0, 0) to (1, 1, 0), which lies in the plane, the cut point is 0/0 in every
coordinate, not a point on the plane. -/
theorem splitPlane_start_on_plane :
    splitPlaneChunk ⟨1, 0, 0⟩ [⟨1, 0, 0⟩] [⟨0, 0, 0⟩] [0] [⟨255, 0, 0, 255⟩] =
        ([⟨DVector3.ofVector ⟨1, 0, 0⟩, DVector3.ofVector ⟨1, 0, 0⟩, 0, ⟨0, 0, 0, 0⟩⟩],
          [⟨DVector3.ofVector ⟨1, 0, 0⟩, DVector3.ofVector ⟨0, 0, 0⟩, 0, ⟨255, 0, 0, 255⟩⟩]) ∧
      planeValue (planeVec ⟨1, 0, 0⟩) (DVector3.ofVector ⟨1, 0, 0⟩) = Dbl.fin 0 ∧
      planeValue (planeVec ⟨1, 0, 0⟩) (DVector3.ofVector ⟨0, 0, 0⟩) = Dbl.fin (-1) ∧
      Dbl.le (Dbl.fin 0) (planeValue (planeVec ⟨1, 0, 0⟩) (DVector3.ofVector ⟨0, 0, 0⟩)) =
        false ∧
      splitPlaneChunk ⟨1, 0, 0⟩ [⟨1, 0, 0⟩] [⟨1, 1, 0⟩] [0] [⟨255, 0, 0, 255⟩] =
        ([⟨DVector3.ofVector ⟨1, 0, 0⟩, ⟨Dbl.nan, Dbl.nan, Dbl.nan⟩, 0, ⟨0, 0, 0, 0⟩⟩],
          [⟨⟨Dbl.nan, Dbl.nan, Dbl.nan⟩, DVector3.ofVector ⟨1, 1, 0⟩, 0, ⟨255, 0, 0, 255⟩⟩]) ∧
      planeValue (planeVec ⟨1, 0, 0⟩) ⟨Dbl.nan, Dbl.nan, Dbl.nan⟩ = Dbl.nan := by
  have r1 : List.range 1 = [0] := rfl
  refine ⟨?_, ?_, ?_, ?_, ?_, ?_⟩
  · simp [splitPlaneChunk, r1, planeVec_unit_x, splitPlaneRay, cutPoint, Vector3d.dot,
      DVector3.ofVector, Dbl.div, Dbl.add]
  · simp [planeValue, planeVec_unit_x, DVector3.ofVector, Dbl.mul, Dbl.add, Dbl.sub, Dbl.neg]
  · simp [planeValue, planeVec_unit_x, DVector3.ofVector, Dbl.mul, Dbl.add, Dbl.sub, Dbl.neg]
  · simp [planeValue, planeVec_unit_x, DVector3.ofVector, Dbl.mul, Dbl.add, Dbl.sub, Dbl.neg,
      Dbl.le]
  · simp [splitPlaneChunk, r1, planeVec_unit_x, splitPlaneRay, cutPoint, Vector3d.dot,
      DVector3.ofVector, Dbl.div, Dbl.add]
  · simp [planeValue, planeVec_unit_x, Dbl.mul, Dbl.add, Dbl.sub, Dbl.neg]

/-! ## Theorems: calculateStarts -/

theorem advanceNode_single (node : Node) (time : ℚ) : advanceNode [node] time 1 = none := by
  rw [advanceNode]
  simp

theorem calculateStartsStep_none (nodes : List Node) (times : List ℚ) :
    ∀ is : List ℕ, is.foldl (calculateStartsStep nodes times) none = none := by
  intro is
  induction is with
  | nil => rfl
  | cons i is ih => rw [List.foldl_cons]; exact ih

/-- Claim C29, evaluated at a trajectory of one node. Such a trajectory passes the guard
of line 79, and for every cloud with at least one ray the first round of the loop reads
trajectory.nodes[1], which does not exist: the call has no node to read (the result none
of the model). -/
theorem calculateStarts_single_node (node : Node) (c : Cloud) (h : c.ends ≠ []) :
    0 < [node].length ∧ ([node] : List Node)[1]? = none ∧ c.calculateStarts [node] = none := by
  refine ⟨by simp, rfl, ?_⟩
  obtain ⟨n, hn⟩ := Nat.exists_eq_succ_of_ne_zero
    (fun h0 => h (List.length_eq_zero.mp h0))
  unfold Cloud.calculateStarts
  rw [if_pos (by simp), hn, List.range_succ_eq_map, List.foldl_cons]
  have hstep : calculateStartsStep [node] c.times (some (resize c.starts (n + 1), 1)) 0 =
      none := by
    unfold calculateStartsStep calculateStart
    simp only [advanceNode_single]
  rw [hstep, calculateStartsStep_none]
  rfl

/-- Claim C29 at a trajectory of one node at the origin and the cloud sampleCloud. -/
theorem calculateStarts_single_node_witness :
    sampleCloud.ends ≠ [] ∧
      (0 < [(⟨0, ⟨0, 0, 0⟩⟩ : Node)].length ∧
        ([⟨0, ⟨0, 0, 0⟩⟩] : List Node)[1]? = none ∧
        sampleCloud.calculateStarts [⟨0, ⟨0, 0, 0⟩⟩] = none) :=
  ⟨sampleCloud_ne, calculateStarts_single_node ⟨0, ⟨0, 0, 0⟩⟩ sampleCloud sampleCloud_ne⟩

theorem advanceNode_some (nodes : List Node) (time : ℚ) :
    ∀ (k n : ℕ), nodes.length - n = k → 1 ≤ n → n + 1 ≤ nodes.length →
      ∃ n2, advanceNode nodes time n = some n2 ∧ n ≤ n2 ∧ n2 + 1 ≤ nodes.length := by
  intro k
  induction k with
  | zero => intro n hk _ h2; omega
  | succ k ih =>
    intro n hk h1 h2
    have hlt : n < nodes.length := by omega
    rw [advanceNode, dif_pos hlt]
    by_cases hc : time > (nodes.get ⟨n, hlt⟩).time ∧ (n : ℤ) < (nodes.length : ℤ) - 1
    · rw [if_pos hc]
      have h3 : n + 1 + 1 ≤ nodes.length := by
        have := hc.2
        omega
      obtain ⟨n2, e, ha, hb⟩ := ih (n + 1) (by omega) (by omega) h3
      exact ⟨n2, e, by omega, hb⟩
    · rw [if_neg hc]
      exact ⟨n, rfl, le_refl _, h2⟩

theorem calculateStart_some (nodes : List Node) (time : ℚ) (n : ℕ) (h1 : 1 ≤ n)
    (h2 : n + 1 ≤ nodes.length) :
    ∃ (p : Vector3d) (n2 : ℕ),
      calculateStart nodes time n = some (p, n2) ∧ 1 ≤ n2 ∧ n2 + 1 ≤ nodes.length := by
  obtain ⟨n2, e, ha, hb⟩ := advanceNode_some nodes time _ n rfl h1 h2
  unfold calculateStart
  rw [e]
  simp only
  rw [List.getElem?_eq_getElem (by omega : n2 - 1 < nodes.length),
    List.getElem?_eq_getElem (by omega : n2 < nodes.length)]
  exact ⟨_, n2, rfl, by omega, hb⟩

theorem calculateStarts_foldl (nodes : List Node) (times : List ℚ) :
    ∀ (is : List ℕ) (starts : List Vector3d) (n : ℕ), 1 ≤ n → n + 1 ≤ nodes.length →
      ∃ (starts2 : List Vector3d) (n2 : ℕ),
        is.foldl (calculateStartsStep nodes times) (some (starts, n)) = some (starts2, n2) ∧
          starts2.length = starts.length := by
  intro is
  induction is with
  | nil => intro starts n _ _; exact ⟨starts, n, rfl, rfl⟩
  | cons i is ih =>
    intro starts n h1 h2
    obtain ⟨p, n2, e, ha, hb⟩ := calculateStart_some nodes (times.getD i 0) n h1 h2
    rw [List.foldl_cons]
    have hstep : calculateStartsStep nodes times (some (starts, n)) i =
        some (starts.set i p, n2) := by
      unfold calculateStartsStep
      simp only [e]
    rw [hstep]
    obtain ⟨s2, n3, e2, hl⟩ := ih (starts.set i p) n2 ha hb
    exact ⟨s2, n3, e2, by rw [hl, List.length_set]⟩

theorem calculateStarts_returns (c : Cloud) (nodes : List Node) (h : 2 ≤ nodes.length) :
    ∃ c2, c.calculateStarts nodes = some c2 ∧ c2.starts.length = c.ends.length ∧
      c2.ends = c.ends ∧ c2.times = c.times ∧ c2.colours = c.colours := by
  obtain ⟨s2, n2, e, hl⟩ := calculateStarts_foldl nodes c.times (List.range c.ends.length)
    (resize c.starts c.ends.length) 1 (le_refl 1) (by omega)
  unfold Cloud.calculateStarts
  rw [if_pos (by omega), e]
  exact ⟨_, rfl, by rw [hl, resize_length], rfl, rfl, rfl⟩

end ray
